import Mathlib

/-!
# Logtrace: the log simulator, the backend routes and the signup form

A shallow embedding of the modules of the Logtrace application that its
specification makes claims about, and the properties claimed: the synthetic log
simulator (`backend/src/simulator.js`), the retention job and the routes under
`backend/src/routes`, and the signup form of the frontend.

* JavaScript numbers are IEEE-754 binary64.  Every finite non-negative
  binary64 value is an integer multiple of the least subnormal `2^-1074`, so a
  value `x` is stored as the natural number `x * 2^1074`.  Arithmetic is the
  exact operation followed by round-to-nearest, ties-to-even (`roundDouble`).
* Everything a module reads from its environment (`Math.random()`,
  `Date.now()`, `new Date()`, `uuidv4()`, the answers of the search engine and
  of the user collection) is an explicit argument.
* The module-level variables and the timers registered with the event loop form
  an explicit state (`Sim`).  JavaScript runs every control call and every timer
  callback to completion, so each of them is one step on that state; timers may
  fire in any order.
* A request handler is a function from the parts of the request it reads to the
  response and the calls it makes; a thrown error is a value.
-/

set_option exponentiation.threshold 4096

namespace Logtrace

/-! ## JavaScript numbers -/

/-- The scaled representation of the number `1`: values are counted in units of `2^-1074`. -/
def ONE : Nat := 2 ^ 1074

/-- The scaled representation of the integer `k`. -/
def ofInt (k : Nat) : Nat := k * ONE

/-- Number of binary digits of `n`, by at most `fuel` halvings. -/
def bitLenAux : Nat → Nat → Nat
  | 0, _ => 0
  | fuel + 1, n => if n = 0 then 0 else bitLenAux fuel (n / 2) + 1

/-- Number of binary digits of `n` (`0` for `n = 0`). -/
def bitLen (n : Nat) : Nat := bitLenAux n n

/-- Round `n` to a multiple of `2^s`, to nearest, ties to the even multiple. -/
def roundAt (s n : Nat) : Nat :=
  if n % 2 ^ s < 2 ^ (s - 1) then n / 2 ^ s * 2 ^ s
  else if 2 ^ (s - 1) < n % 2 ^ s then (n / 2 ^ s + 1) * 2 ^ s
  else if n / 2 ^ s % 2 = 0 then n / 2 ^ s * 2 ^ s
  else (n / 2 ^ s + 1) * 2 ^ s

/-- Rounding of an exact result to binary64 (53 significant bits, round to nearest, ties to
even).  Values below `2^53` units are subnormal or in the first normal binade and are exact.
Overflow to `Infinity` is not modelled: the module only forms values below `2^18`. -/
def roundDouble (n : Nat) : Nat :=
  if n < 2 ^ 53 then n else roundAt (bitLen n - 53) n

/-- The value `n` (in units) is a binary64 value. -/
def IsDouble (n : Nat) : Prop := roundDouble n = n

instance (n : Nat) : Decidable (IsDouble n) := by
  unfold IsDouble; infer_instance

/-- One result of `Math.random()`: a binary64 value `r` with `0 ≤ r < 1`. -/
structure RandomDraw where
  units : Nat
  isDouble : IsDouble units
  lt_one : units < ONE

/-- The JavaScript product `x * k` for a number `x` and an integer constant `k` (exact below `2^53`). -/
def jsMul (x k : Nat) : Nat := roundDouble (x * k)

/-- The JavaScript sum `x + y`. -/
def jsAdd (x y : Nat) : Nat := roundDouble (x + y)

/-- The integer `Math.floor(x)`. -/
def mathFloor (x : Nat) : Nat := x / ONE

/-! ## Strings -/

/-- Position of the first occurrence of `pat` in a string: the text before it and the text
after it. -/
def splitAtFirst (pat : List Char) : List Char → Option (List Char × List Char)
  | [] => if pat.isEmpty then some ([], []) else none
  | c :: cs =>
    if pat.isPrefixOf (c :: cs) then some ([], (c :: cs).drop pat.length)
    else (splitAtFirst pat cs).map fun p => (c :: p.1, p.2)

/-- The ECMAScript operation `GetSubstitution` for a string pattern (no captures, no named groups): in the
replacement text `$$` is a dollar sign, `$&` the matched text, `$` followed by a backtick the
text before the match, `$` followed by an apostrophe the text after the match; every other
character stands for itself. -/
def getSubstitution (matched pre post : List Char) : List Char → List Char
  | [] => []
  | [c] => [c]
  | c :: d :: rest =>
    if c = '$' then
      if d = '$' then '$' :: getSubstitution matched pre post rest
      else if d = '&' then matched ++ getSubstitution matched pre post rest
      else if d = Char.ofNat 96 then pre ++ getSubstitution matched pre post rest
      else if d = Char.ofNat 39 then post ++ getSubstitution matched pre post rest
      else c :: getSubstitution matched pre post (d :: rest)
    else c :: getSubstitution matched pre post (d :: rest)

/-- The result of `String.prototype.replace(pattern, replacement)` with a string pattern: only
the first occurrence is replaced. -/
def replaceFirst (s pat rep : List Char) : List Char :=
  match splitAtFirst pat s with
  | none => s
  | some (pre, post) => pre ++ getSubstitution pat pre post rep ++ post

/-- The method `s.replace(pat, rep)` on strings. -/
def jsReplace (s pat rep : String) : String :=
  ⟨replaceFirst s.data pat.data rep.data⟩

/-- The digit characters `0`-`9`, `a`-`z` of `Number.prototype.toString`. -/
def digitChar (d : Nat) : Char :=
  if d < 10 then Char.ofNat (48 + d) else Char.ofNat (87 + d)

/-- Digits of `n` in the given base, most significant first, in front of `acc`. -/
def toDigitsAux (base : Nat) : Nat → Nat → List Char → List Char
  | 0, _, acc => acc
  | fuel + 1, n, acc =>
    if n / base = 0 then digitChar (n % base) :: acc
    else toDigitsAux base fuel (n / base) (digitChar (n % base) :: acc)

/-- The string `n.toString(base)` for a non-negative integer `n` (below `10^21` when `base` is
10). -/
def intToString (base n : Nat) : String := ⟨toDigitsAux base (n + 1) n []⟩

/-- The abstract operation `ToString` on a non-negative integer below `10^21`: its decimal
digits. -/
def numToString (n : Nat) : String := intToString 10 n

/-- The string `s.toUpperCase()` (the strings it is applied to are ASCII). -/
def toUpperCase (s : String) : String := ⟨s.data.map Char.toUpper⟩

/-- The string `x.toString(36)` for a number `0 ≤ x < 1`, given the base-36 digits of its fraction.  The
digit generation for a radix other than 10 is left to the implementation by ECMAScript; the
result is `"0"` for zero and `"0."` followed by the digits otherwise. -/
def fractionToString36 (digits : List (Fin 36)) : String :=
  if digits.isEmpty then "0"
  else ⟨'0' :: '.' :: digits.map fun d => digitChar d.val⟩

/-- The string `s.slice(a, b)` for `0 ≤ a ≤ b`. -/
def slice (s : String) (a b : Nat) : String := ⟨(s.data.drop a).take (b - a)⟩

/-! ## The log event generator -/

/-- The array `SERVICES` (lines 4-10). -/
def SERVICES : List String :=
  ["auth-service", "payment-service", "api-gateway", "user-service", "notification-service"]

/-- One entry of `LOG_TEMPLATES`. -/
structure LogTemplate where
  level : String
  message : String
deriving DecidableEq

/-- The object `LOG_TEMPLATES` (lines 12-63).  The braces of the placeholders are written `\x7b` and
`\x7d`. -/
def LOG_TEMPLATES : List (String × List LogTemplate) :=
  [ ("auth-service",
      [ ⟨"info", "User login attempt for user_id=\x7buserId\x7d"⟩,
        ⟨"info", "JWT token refreshed successfully"⟩,
        ⟨"info", "Session created for user_id=\x7buserId\x7d"⟩,
        ⟨"debug", "OAuth callback received from provider"⟩,
        ⟨"warn", "Failed login attempt - invalid credentials"⟩,
        ⟨"info", "Password reset token generated"⟩,
        ⟨"info", "MFA verification passed"⟩,
        ⟨"debug", "Token validation cache hit"⟩ ]),
    ("payment-service",
      [ ⟨"info", "Processing payment for order_id=\x7borderId\x7d"⟩,
        ⟨"info", "Stripe webhook received: payment_intent.succeeded"⟩,
        ⟨"info", "Refund initiated for transaction \x7btxId\x7d"⟩,
        ⟨"debug", "Payment method validated"⟩,
        ⟨"info", "Subscription renewal processed"⟩,
        ⟨"warn", "Retry attempt for failed payment"⟩,
        ⟨"info", "Balance check completed"⟩,
        ⟨"info", "Invoice generated for customer"⟩ ]),
    ("api-gateway",
      [ ⟨"info", "Request routed to \x7bservice\x7d - status 200"⟩,
        ⟨"info", "Rate limit check passed for client"⟩,
        ⟨"debug", "Request authenticated via API key"⟩,
        ⟨"warn", "Rate limit exceeded for IP \x7bip\x7d"⟩,
        ⟨"info", "Circuit breaker closed for downstream service"⟩,
        ⟨"info", "Request timeout after 30s - returning 504"⟩,
        ⟨"debug", "Request ID propagated to downstream"⟩,
        ⟨"info", "Health check passed for /api/users"⟩ ]),
    ("user-service",
      [ ⟨"info", "User profile updated for user_id=\x7buserId\x7d"⟩,
        ⟨"debug", "Cache hit for user profile"⟩,
        ⟨"info", "New user registered"⟩,
        ⟨"info", "Avatar upload completed"⟩,
        ⟨"warn", "Cache miss - fetching from database"⟩,
        ⟨"info", "Preferences synced across devices"⟩,
        ⟨"debug", "Elasticsearch query executed in \x7bms\x7dms"⟩,
        ⟨"info", "Bulk user import started"⟩ ]),
    ("notification-service",
      [ ⟨"info", "Email queued for delivery"⟩,
        ⟨"info", "Push notification sent to device"⟩,
        ⟨"debug", "SMS delivery confirmed"⟩,
        ⟨"warn", "Email bounce received - marking invalid"⟩,
        ⟨"info", "Webhook delivered to subscriber"⟩,
        ⟨"info", "In-app notification created"⟩,
        ⟨"debug", "Template rendered successfully"⟩,
        ⟨"info", "Batch notification job completed"⟩ ]) ]

/-- The function `pickRandom(arr)` (lines 65-67): `arr[Math.floor(Math.random() * arr.length)]`; `none` is
the value `undefined` of an index outside the array. -/
def pickRandom {α : Type} (arr : List α) (r : RandomDraw) : Option α :=
  arr[mathFloor (jsMul r.units arr.length)]?

/-- What one call of `createLog` obtains from its environment, in source order. -/
structure GenDraws where
  /-- Line 80, `uuidv4()`. -/
  traceId : String
  /-- Line 81, `new Date().toISOString()`. -/
  timestamp : String
  /-- Line 82, `Math.random()`. -/
  duration : RandomDraw
  /-- Line 96, the `Math.random()` of `pickRandom`. -/
  template : RandomDraw
  /-- Line 71, `Math.random()`. -/
  userId : RandomDraw
  /-- Line 72, `Date.now()`, milliseconds since the epoch. -/
  now : Nat
  /-- Line 73, the base-36 fraction digits of `Math.random()`. -/
  txId : List (Fin 36)
  /-- Line 74, the `Math.random()` of `pickRandom`. -/
  service : RandomDraw
  /-- Line 75, `Math.random()`. -/
  ip : RandomDraw
  /-- Line 76, `Math.random()`. -/
  ms : RandomDraw

/-- The function `interpolate(msg)` (lines 69-77): six chained `replace` calls, every replacement value
being computed whether or not its placeholder occurs. -/
def interpolate (msg : String) (d : GenDraws) : String :=
  let m1 := jsReplace msg "\x7buserId\x7d" (numToString (mathFloor (jsMul d.userId.units 10000)))
  let m2 := jsReplace m1 "\x7borderId\x7d" ("ORD-" ++ toUpperCase (intToString 36 d.now))
  let m3 := jsReplace m2 "\x7btxId\x7d" ("txn_" ++ slice (fractionToString36 d.txId) 2 12)
  let m4 := jsReplace m3 "\x7bservice\x7d"
    ((pickRandom ["user-service", "payment-service"] d.service).getD "undefined")
  let m5 := jsReplace m4 "\x7bip\x7d"
    ("192.168.1." ++ numToString (mathFloor (jsMul d.ip.units 255)))
  jsReplace m5 "\x7bms\x7d" (numToString (mathFloor (jsMul d.ms.units 150)))

/-- The record built by `createLog`. -/
structure LogRecord where
  timestamp : String
  level : String
  service : String
  message : String
  traceId : String
  duration : Nat
  archived : Bool
deriving DecidableEq

/-- The function `createLog(service, isIncident)` (lines 79-106).  `none` is a thrown `TypeError`: reading
`.length` of a missing template list, or `.level` of a missing template. -/
def createLog (service : String) (isIncident : Bool) (d : GenDraws) : Option LogRecord :=
  let traceId := d.traceId
  let timestamp := d.timestamp
  let duration := mathFloor (jsMul d.duration.units 500)
  if isIncident then
    some
      { timestamp := timestamp
        level := "error"
        service := service
        message := "DB connection timeout - max pool size reached"
        traceId := traceId
        duration := duration
        archived := false }
  else
    match LOG_TEMPLATES.lookup service with
    | none => none
    | some templates =>
      match pickRandom templates d.template with
      | none => none
      | some template =>
        some
          { timestamp := timestamp
            level := template.level
            service := service
            message := interpolate template.message d
            traceId := traceId
            duration := duration
            archived := false }

/-! ## The incident scheduler and the control surface -/

/-- The function `getNextIncidentDelay()` (lines 138-142): `min + Math.random() * (max - min)` with
`min = 2 * 60 * 1000` and `max = 3 * 60 * 1000`. -/
def getNextIncidentDelay (r : RandomDraw) : Nat :=
  let min := 2 * 60 * 1000
  let max := 3 * 60 * 1000
  jsAdd (ofInt min) (jsMul r.units (max - min))

/-- The three closures the module hands to the event loop: the interval callback of line 166,
the timeout callback of line 152 and the nested timeout callback of line 155. -/
inductive Callback where
  | tick
  | incidentStart
  | incidentEnd
deriving DecidableEq

/-- A timer registered with the event loop and not yet cleared or (for a timeout) fired. -/
structure Timer where
  /-- The handle returned by `setInterval` or `setTimeout`. -/
  handle : Nat
  callback : Callback
  /-- The delay or period argument, a JavaScript number (in units). -/
  delay : Nat
  /-- Registered by `setInterval` (`true`) or by `setTimeout` (`false`). -/
  repeats : Bool
deriving DecidableEq

/-- The module-level variables of lines 144-148 together with the timers of the event loop.
A handle variable is `none` for `null`; a handle object is truthy. -/
structure Sim where
  tickInterval : Option Nat
  incidentTimeout : Option Nat
  nextIncidentSchedule : Option Nat
  isIncidentActive : Bool
  isRunning : Bool
  /-- The timers currently registered with the event loop, oldest first. -/
  timers : List Timer
  /-- Identity of the next handle object the event loop creates. -/
  nextHandle : Nat
deriving DecidableEq

/-- The state after the module is loaded (lines 144-148), with no timer registered. -/
def Sim.init : Sim :=
  { tickInterval := none
    incidentTimeout := none
    nextIncidentSchedule := none
    isIncidentActive := false
    isRunning := false
    timers := []
    nextHandle := 1 }

/-- The calls `setTimeout(callback, delay)` and `setInterval(callback, delay)`: registers a timer under a
fresh handle and returns the handle. -/
def Sim.addTimer (s : Sim) (callback : Callback) (delay : Nat) (repeats : Bool) : Nat × Sim :=
  (s.nextHandle,
   { s with
     timers := s.timers ++ [⟨s.nextHandle, callback, delay, repeats⟩]
     nextHandle := s.nextHandle + 1 })

/-- The calls `clearTimeout(handle)` and `clearInterval(handle)`: removes the timer with that handle, if it
is still registered. -/
def Sim.clearTimer (s : Sim) (handle : Nat) : Sim :=
  { s with timers := s.timers.filter fun t => t.handle != handle }

/-- The function `scheduleNextIncident()` (lines 150-161): the outer `setTimeout`. -/
def scheduleNextIncident (s : Sim) (r : RandomDraw) : Sim :=
  let delay := getNextIncidentDelay r
  let (h, s1) := s.addTimer Callback.incidentStart delay false
  { s1 with nextIncidentSchedule := some h }

/-- The function `startSimulator()` (lines 163-171). -/
def startSimulator (s : Sim) (r : RandomDraw) : Sim :=
  if s.isRunning then s
  else
    let s1 := { s with isRunning := true }
    let (h, s2) := s1.addTimer Callback.tick (ofInt 1000) true
    let s3 := { s2 with tickInterval := some h }
    scheduleNextIncident s3 r

/-- The function `stopSimulator()` (lines 173-190). -/
def stopSimulator (s : Sim) : Sim :=
  if !s.isRunning then s
  else
    let s1 := { s with isRunning := false }
    let s2 :=
      match s1.tickInterval with
      | some h => { s1.clearTimer h with tickInterval := none }
      | none => s1
    let s3 :=
      match s2.incidentTimeout with
      | some h => { s2.clearTimer h with incidentTimeout := none }
      | none => s2
    let s4 :=
      match s3.nextIncidentSchedule with
      | some h => { s3.clearTimer h with nextIncidentSchedule := none }
      | none => s3
    { s4 with isIncidentActive := false }

/-- The body of a callback, run by the event loop.  The interval callback calls
`tick(isIncidentActive)`, which only submits log batches and leaves the module state as it
is. -/
def runCallback (s : Sim) (r : RandomDraw) : Callback → Sim
  | Callback.tick => s
  | Callback.incidentStart =>
    let s1 := { s with isIncidentActive := true }
    let (h, s2) := s1.addTimer Callback.incidentEnd (ofInt (30 * 1000)) false
    { s2 with incidentTimeout := some h }
  | Callback.incidentEnd =>
    let s1 := { s with isIncidentActive := false }
    scheduleNextIncident s1 r

/-- The event loop fires the registered timer with the given handle: a timeout is removed
before its callback runs, an interval stays registered.  A handle that is not registered
cannot fire. -/
def fire (s : Sim) (handle : Nat) (r : RandomDraw) : Sim :=
  match s.timers.find? fun t => t.handle == handle with
  | none => s
  | some t =>
    if t.repeats then runCallback s r t.callback
    else runCallback (s.clearTimer handle) r t.callback

/-- What can happen to the module: a control call or a timer firing.  A `Math.random()`
result is attached where the code may draw one. -/
inductive Event where
  | start (r : RandomDraw)
  | stop
  | fire (handle : Nat) (r : RandomDraw)

/-- One event. -/
def step (s : Sim) : Event → Sim
  | Event.start r => startSimulator s r
  | Event.stop => stopSimulator s
  | Event.fire h r => fire s h r

/-- A sequence of events, from a given state. -/
def run (s : Sim) (es : List Event) : Sim := es.foldl step s

/-- The states the module can be in. -/
inductive Reachable : Sim → Prop where
  | init : Reachable Sim.init
  | step {s : Sim} (e : Event) : Reachable s → Reachable (step s e)

/-- The largest `Math.random()` result, `1 - 2^-53`. -/
def maxDraw : RandomDraw := ⟨ONE - 2 ^ 1021, by decide!, by decide!⟩

/-- The second largest `Math.random()` result, `1 - 2^-52`: the largest one of a generator
that fills 52 mantissa bits. -/
def nearOneDraw : RandomDraw := ⟨ONE - 2 ^ 1022, by decide!, by decide!⟩

/-- The smallest `Math.random()` result, `0`. -/
def zeroDraw : RandomDraw := ⟨0, by decide, by decide⟩

/-- A `Math.random()` result in the middle of the range, `0.5`. -/
def halfDraw : RandomDraw := ⟨2 ^ 1073, by decide!, by decide!⟩

/-! ## Auxiliary definitions for the proofs -/

/-- One set of environment values for `createLog`, used to evaluate the generator. -/
def sampleDraws : GenDraws :=
  { traceId := "3f2b8c1e-6d4a-4f0b-9c57-2a1e8d7b6c90"
    timestamp := "2024-05-01T12:00:00.000Z"
    duration := halfDraw
    template := zeroDraw
    userId := halfDraw
    now := 1714564800000
    txId := [10, 3, 35, 0, 7, 21, 9, 1, 30, 12, 4]
    service := halfDraw
    ip := maxDraw
    ms := maxDraw }

/-- A character that is neither an opening brace nor a dollar sign. -/
def Clean (c : Char) : Prop := c ≠ '\x7b' ∧ c ≠ '$'

instance (c : Char) : Decidable (Clean c) := by
  unfold Clean; infer_instance

/-- The placeholders of `interpolate`, in the order they are replaced. -/
def PLACEHOLDERS : List String :=
  ["\x7buserId\x7d", "\x7borderId\x7d", "\x7btxId\x7d", "\x7bservice\x7d", "\x7bip\x7d",
   "\x7bms\x7d"]

/-- Decides whether replacing the given patterns in order leaves no opening brace in `s`,
whatever brace-free texts are put in: each pattern is either absent, or its first occurrence
is surrounded by brace-free text. -/
def resolves : List (List Char) → List Char → Bool
  | [], s => s.all fun c => c != '\x7b'
  | p :: ps, s =>
    match splitAtFirst p s with
    | none => resolves ps s
    | some (pre, post) => (pre ++ post).all fun c => c != '\x7b'

/-- The chain of `replace` calls as a fold. -/
def replaceAll (reps : List (List Char × List Char)) (s : List Char) : List Char :=
  reps.foldl (fun acc pr => replaceFirst acc pr.1 pr.2) s

/-- The six `replace` calls of `interpolate`, as pattern and replacement text. -/
def replacements (d : GenDraws) : List (List Char × List Char) :=
  [ ("\x7buserId\x7d".data, (numToString (mathFloor (jsMul d.userId.units 10000))).data),
    ("\x7borderId\x7d".data, ("ORD-" ++ toUpperCase (intToString 36 d.now)).data),
    ("\x7btxId\x7d".data, ("txn_" ++ slice (fractionToString36 d.txId) 2 12).data),
    ("\x7bservice\x7d".data,
      ((pickRandom ["user-service", "payment-service"] d.service).getD "undefined").data),
    ("\x7bip\x7d".data, ("192.168.1." ++ numToString (mathFloor (jsMul d.ip.units 255))).data),
    ("\x7bms\x7d".data, (numToString (mathFloor (jsMul d.ms.units 150))).data) ]

/-- The program invariant.  While running, the event loop holds exactly the tick interval and
one incident timeout (the start delay while idle, the end delay while active), each referenced
by its handle variable; while stopped it holds no timer and all variables have their initial
values. -/
def Inv (s : Sim) : Prop :=
  (s.isRunning = true →
    ∃ hT hI, hT < s.nextHandle ∧ hI < s.nextHandle ∧ hT ≠ hI ∧ s.tickInterval = some hT ∧
      ((s.isIncidentActive = false ∧ s.nextIncidentSchedule = some hI ∧
          ∃ r : RandomDraw, s.timers =
            [⟨hT, Callback.tick, ofInt 1000, true⟩,
             ⟨hI, Callback.incidentStart, getNextIncidentDelay r, false⟩]) ∨
       (s.isIncidentActive = true ∧ s.incidentTimeout = some hI ∧
          s.timers =
            [⟨hT, Callback.tick, ofInt 1000, true⟩,
             ⟨hI, Callback.incidentEnd, ofInt 30000, false⟩]))) ∧
  (s.isRunning = false →
    s.timers = [] ∧ s.isIncidentActive = false ∧ s.tickInterval = none ∧
      s.incidentTimeout = none ∧ s.nextIncidentSchedule = none)

/-- What a timer does and when, without the identity of its handle. -/
def Timer.config (t : Timer) : Callback × Nat × Bool := (t.callback, t.delay, t.repeats)

/-- A running state with an incident in progress: started, then the start delay fired. -/
def activeState : Sim := run Sim.init [Event.start halfDraw, Event.fire 2 zeroDraw]

/-- A running idle state after one whole incident: started, the start delay fired, the tick
fired, the end delay fired. -/
def idleState : Sim :=
  run Sim.init
    [Event.start halfDraw, Event.fire 2 zeroDraw, Event.fire 1 zeroDraw, Event.fire 3 maxDraw]

/-! ## The status call, the tick driver and the batch submission -/

/-- The object returned by `getSimulatorStatus`. -/
structure SimulatorStatus where
  enabled : Bool
deriving DecidableEq

/-- The function `getSimulatorStatus()` (lines 192-194): the returned object and the module
state after the call. -/
def getSimulatorStatus (s : Sim) : SimulatorStatus × Sim :=
  ({ enabled := s.isRunning }, s)

/-- The constant `INDEX_NAME` of `elasticsearch.js` (line 7). -/
def INDEX_NAME : String := "logs"

/-- One entry of the `operations` array of a bulk request: the action line pushed in line 111
or the record pushed in line 112. -/
inductive BulkOp where
  | index (indexName : String)
  | document (record : LogRecord)
deriving DecidableEq

/-- The argument of `elasticsearch.client.bulk` (lines 116-119). -/
structure BulkRequest where
  refresh : Bool
  operations : List BulkOp
deriving DecidableEq

/-- The `index` property of an item of a bulk response; `error` is present for an item that
failed.  The code tests `error` for truthiness only, so it is given by a text, truthy when not
empty. -/
structure BulkItemIndex where
  error : Option String
deriving DecidableEq

/-- One item of a bulk response; the `index` property may be absent. -/
structure BulkItem where
  index : Option BulkItemIndex
deriving DecidableEq

/-- The value a bulk call resolves with: the `errors` flag and the `items` array, which may be
absent. -/
structure BulkResult where
  errors : Bool
  items : Option (List BulkItem)
deriving DecidableEq

/-- How the promise returned by `elasticsearch.client.bulk` settles: rejected with an `Error`
carrying a message, or resolved with a result. -/
inductive BulkOutcome where
  | rejected (message : String)
  | resolved (result : BulkResult)
deriving DecidableEq

/-- A call of `console.error` in `sendLogs`: line 121 with the service and the filtered items,
or line 124 with the service and the error message. -/
inductive ConsoleLine where
  | bulkErrors (service : String) (failing : Option (List BulkItem))
  | indexFailed (service : String) (message : String)
deriving DecidableEq

/-- How the promise returned by an `async` function settles. -/
inductive Settled where
  | fulfilled
  | rejected (reason : String)
deriving DecidableEq

/-- The loop of lines 110-113 after `count` iterations: the `bulk` array, or `none` when a
`createLog` call threw. -/
def buildBulk (service : String) (isIncident : Bool) (draws : Nat → GenDraws) :
    Nat → Option (List BulkOp)
  | 0 => some []
  | i + 1 =>
    match buildBulk service isIncident draws i with
    | none => none
    | some bulk =>
      match createLog service isIncident (draws i) with
      | none => none
      | some record => some (bulk ++ [BulkOp.index INDEX_NAME, BulkOp.document record])

/-- What one call of `sendLogs` does: the request it hands to the index client (if it gets
that far), what it writes to the console, and how its promise settles. -/
structure SendLogsResult where
  submitted : Option BulkRequest
  console : List ConsoleLine
  settled : Settled
deriving DecidableEq

/-- The function `sendLogs(service, count, isIncident)` (lines 108-126), given the environment
values of each `createLog` call and the way the bulk call settles.  The loop is outside the
`try` block, so an exception of `createLog` rejects the promise; everything after it is
inside. -/
def sendLogs (service : String) (count : Nat) (isIncident : Bool) (draws : Nat → GenDraws)
    (outcome : BulkOutcome) : SendLogsResult :=
  match buildBulk service isIncident draws count with
  | none => { submitted := none, console := [], settled := Settled.rejected "TypeError" }
  | some bulk =>
    let request : BulkRequest := { refresh := false, operations := bulk }
    match outcome with
    | BulkOutcome.resolved result =>
      if result.errors then
        { submitted := some request
          console := [ConsoleLine.bulkErrors service
            (result.items.map fun items =>
              items.filter fun i => (i.index.bind fun x => x.error).getD "" != "")]
          settled := Settled.fulfilled }
      else
        { submitted := some request, console := [], settled := Settled.fulfilled }
    | BulkOutcome.rejected message =>
      { submitted := some request
        console := [ConsoleLine.indexFailed service message]
        settled := Settled.fulfilled }

/-- The callback of `SERVICES.map` in `tick` (lines 129-134), for any function in the place of
`sendLogs`. -/
def tickWith {α : Type} (send : String → Nat → Bool → α) (isPaymentIncident : Bool) : List α :=
  SERVICES.map fun service =>
    if service == "payment-service" && isPaymentIncident then send service 25 true
    else send service 5 false

/-- The arguments of one `sendLogs` call. -/
structure SendLogsCall where
  service : String
  count : Nat
  isIncident : Bool
deriving DecidableEq

/-- The `sendLogs` calls issued by `tick(isPaymentIncident)`, in order. -/
def tickCalls (isPaymentIncident : Bool) : List SendLogsCall :=
  tickWith SendLogsCall.mk isPaymentIncident

/-- The promise `Promise.all(promises)`: fulfilled when all are, rejected with the reason of
the first rejected one otherwise. -/
def promiseAll : List Settled → Settled
  | [] => Settled.fulfilled
  | Settled.fulfilled :: rest => promiseAll rest
  | Settled.rejected reason :: _ => Settled.rejected reason

/-- What one call of `tick` does: the five `sendLogs` calls and how the promise of `tick`
settles. -/
structure TickResult where
  calls : List SendLogsResult
  settled : Settled
deriving DecidableEq

/-- The function `tick(isPaymentIncident)` (lines 128-136), given per service the environment
values of its `createLog` calls and the way its bulk call settles.  All five `sendLogs` calls
are made, each up to its `await`, before any bulk call has settled. -/
def tick (isPaymentIncident : Bool) (draws : String → Nat → GenDraws)
    (outcomes : String → BulkOutcome) : TickResult :=
  let promises :=
    tickWith (fun service count isIncident =>
      sendLogs service count isIncident (draws service) (outcomes service)) isPaymentIncident
  { calls := promises, settled := promiseAll (promises.map fun p => p.settled) }

/-- A way for the five bulk calls of one tick to settle: the call for `payment-service` is
rejected, the call for `api-gateway` reports item errors, the others succeed. -/
def sampleOutcomes (service : String) : BulkOutcome :=
  if service == "payment-service" then BulkOutcome.rejected "connect ECONNREFUSED"
  else if service == "api-gateway" then
    BulkOutcome.resolved
      { errors := true
        items := some [⟨some ⟨none⟩⟩, ⟨some ⟨some "mapper_parsing_exception"⟩⟩, ⟨none⟩] }
  else BulkOutcome.resolved { errors := false, items := some [] }

/-! ## Simulated time -/

/-- The simulator under a simulated clock: the module state, the current time in milliseconds
and, for every registered timer, the time at which it is due. -/
structure Clocked where
  sim : Sim
  now : Nat
  /-- Pairs of a timer handle and the time at which that timer is due. -/
  due : List (Nat × Nat)
deriving DecidableEq

/-- The due times after code has run at time `now`: a timer whose due time is known keeps it,
a newly registered timer is due after its delay, which the event loop truncates to whole
milliseconds. -/
def resync (now : Nat) (known : List (Nat × Nat)) (timers : List Timer) : List (Nat × Nat) :=
  timers.map fun t => (t.handle, (known.lookup t.handle).getD (now + mathFloor t.delay))

/-- The module just loaded, at time `0`. -/
def Clocked.init : Clocked := { sim := Sim.init, now := 0, due := [] }

/-- What can happen under the simulated clock: a control call, the firing of a timer, or the
passing of time. -/
inductive ClockedEvent where
  | start (r : RandomDraw)
  | stop
  | fire (handle : Nat) (r : RandomDraw)
  | wait (ms : Nat)

/-- One event at the current time; `none` when the event cannot happen now.  A timer fires only
when it is due, and time does not pass beyond the due time of a registered timer.  An interval
that fired is due again one period later. -/
def Clocked.step (c : Clocked) : ClockedEvent → Option Clocked
  | ClockedEvent.start r =>
    some
      { sim := startSimulator c.sim r
        now := c.now
        due := resync c.now c.due (startSimulator c.sim r).timers }
  | ClockedEvent.stop =>
    some
      { sim := stopSimulator c.sim
        now := c.now
        due := resync c.now c.due (stopSimulator c.sim).timers }
  | ClockedEvent.fire handle r =>
    match c.due.lookup handle with
    | none => none
    | some d =>
      if d ≤ c.now then
        some
          { sim := fire c.sim handle r
            now := c.now
            due := resync c.now (c.due.filter fun p => p.1 != handle)
              (fire c.sim handle r).timers }
      else none
  | ClockedEvent.wait ms =>
    if c.due.all fun p => decide (c.now + ms ≤ p.2) then
      some { sim := c.sim, now := c.now + ms, due := c.due }
    else none

/-- A sequence of events; `none` when one of them cannot happen. -/
def Clocked.run (c : Clocked) : List ClockedEvent → Option Clocked
  | [] => some c
  | e :: es =>
    match c.step e with
    | none => none
    | some c' => c'.run es

/-- The states of a run under the simulated clock. -/
inductive Clocked.Reachable : Clocked → Prop where
  | init : Clocked.Reachable Clocked.init
  | step {c c' : Clocked} (e : ClockedEvent) :
      Clocked.Reachable c → c.step e = some c' → Clocked.Reachable c'

/-- A sequence of events without a `stopSimulator` call. -/
def StopFree (es : List ClockedEvent) : Prop := ∀ e ∈ es, e ≠ ClockedEvent.stop

/-- The invariant of the clocked states: the program invariant, and a due time for exactly the
registered timers. -/
def ClockedInv (c : Clocked) : Prop :=
  Inv c.sim ∧ c.due.map Prod.fst = c.sim.timers.map fun t => t.handle

/-- The incident that began at time `t` is in progress: the simulator runs with the incident
flag set, the clock is between `t` and `t + 30000`, and the timeout referenced by
`incidentTimeout` is due at `t + 30000`. -/
def InWindow (t : Nat) (c : Clocked) : Prop :=
  c.sim.isRunning = true ∧ c.sim.isIncidentActive = true ∧ t ≤ c.now ∧ c.now ≤ t + 30000 ∧
    ∃ h, c.sim.incidentTimeout = some h ∧ c.due.lookup h = some (t + 30000)

/-- The incident that began at time `t` is over and the next one has not begun: the simulator
runs with the incident flag cleared, the clock is at or after `t + 30000`, and the timeout
referenced by `nextIncidentSchedule` is due no earlier than `t + 150000`. -/
def AfterWindow (t : Nat) (c : Clocked) : Prop :=
  c.sim.isRunning = true ∧ c.sim.isIncidentActive = false ∧ t + 30000 ≤ c.now ∧
    ∃ h d, c.sim.nextIncidentSchedule = some h ∧ c.due.lookup h = some d ∧ t + 150000 ≤ d

/-- The phases a run without `stopSimulator` goes through after an incident began at time
`t`. -/
def WindowPhase (t : Nat) (c : Clocked) : Prop :=
  InWindow t c ∨ AfterWindow t c ∨ t + 150000 ≤ c.now

/-- A simulated run up to the moment the first incident is due: the simulator is started at
time 0 with the draw `0.5`, which gives a start delay of 150000 ms, and the tick interval
fires each second until the clock shows 150000. -/
def beforeIncidentEvents : List ClockedEvent :=
  ClockedEvent.start halfDraw ::
    (List.replicate 150 [ClockedEvent.wait 1000, ClockedEvent.fire 1 zeroDraw]).flatten

/-- The state at the end of `beforeIncidentEvents`. -/
def beforeIncident : Clocked :=
  { sim :=
      { tickInterval := some 1
        incidentTimeout := none
        nextIncidentSchedule := some 2
        isIncidentActive := false
        isRunning := true
        timers :=
          [⟨1, Callback.tick, ofInt 1000, true⟩,
           ⟨2, Callback.incidentStart, ofInt 150000, false⟩]
        nextHandle := 3 }
    now := 150000
    due := [(1, 151000), (2, 150000)] }

/-- The state right after the start timeout fired in `beforeIncident`. -/
def incidentBegun : Clocked :=
  { sim :=
      { tickInterval := some 1
        incidentTimeout := some 3
        nextIncidentSchedule := some 2
        isIncidentActive := true
        isRunning := true
        timers :=
          [⟨1, Callback.tick, ofInt 1000, true⟩,
           ⟨3, Callback.incidentEnd, ofInt 30000, false⟩]
        nextHandle := 4 }
    now := 150000
    due := [(1, 151000), (3, 180000)] }

/-! ## Retention cleanup (`jobs/retentionJob.js`, `routes/retention.js`) -/

/-- The list `SERVICES` of `routes/retention.js` (lines 6-12). -/
def Retention.SERVICES : List String :=
  ["auth-service", "payment-service", "api-gateway", "user-service", "notification-service"]

/-- What the cleanup queries read of a document of the index: its `service` keyword and the
instant of its `timestamp`, in milliseconds since the epoch. -/
structure IndexDoc where
  service : String
  timestamp : Int
deriving DecidableEq

/-- Milliseconds in a day. -/
def MS_PER_DAY : Int := 86400000

/-- The instant of `cutoff` after `cutoff.setDate(cutoff.getDate() - days)`, for a `cutoff`
created at `now`: the same local time `days` days earlier, which is `days * 86400000` ms
earlier when the local UTC offset does not change in between. -/
def cutoffDate (now days : Int) : Int := now - days * MS_PER_DAY

/-- The two queries handed to `deleteByQuery`: the range query of the job (lines 14-18 of
`retentionJob.js`) and the conjunction of a term query on `service` with the range query
(lines 64-71 of `routes/retention.js`). -/
inductive EsQuery where
  | rangeLt (cutoff : Int)
  | serviceAndRangeLt (service : String) (cutoff : Int)
deriving DecidableEq

/-- Whether a document matches a query: `lt` on the date field is strict, `term` on the
keyword field is equality. -/
def EsQuery.matches : EsQuery → IndexDoc → Bool
  | EsQuery.rangeLt cutoff, d => decide (d.timestamp < cutoff)
  | EsQuery.serviceAndRangeLt service cutoff, d =>
    d.service == service && decide (d.timestamp < cutoff)

/-- The effect of a successful `client.deleteByQuery`: the number of documents deleted and the
documents left in the index. -/
def deleteByQuery (index : List IndexDoc) (q : EsQuery) : Nat × List IndexDoc :=
  ((index.filter fun d => q.matches d).length, index.filter fun d => !q.matches d)

/-- The function `runRetentionCleanup()` (lines 7-28 of `retentionJob.js`), which `cron`
calls: the index after the `deleteByQuery` call has succeeded.  `RETENTION_DAYS` is the module
constant of line 4, read from the environment with default 30. -/
def runRetentionCleanup (RETENTION_DAYS now : Int) (index : List IndexDoc) : List IndexDoc :=
  (deleteByQuery index (EsQuery.rangeLt (cutoffDate now RETENTION_DAYS))).2

/-- One entry of the `policies` object of `routes/retention.js` (lines 14-22). -/
structure Policy where
  retentionDays : Int
  lastCleanupRun : Option Int
  logsDeletedLastRun : Nat
deriving DecidableEq

/-- The `policies` object right after the module is loaded (lines 15-22). -/
def initialPolicies : List (String × Policy) :=
  Retention.SERVICES.map fun s =>
    (s, { retentionDays := 30, lastCleanupRun := none, logsDeletedLastRun := 0 })

/-- The value `retentionDays` read in line 58 of `routes/retention.js`:
`policies[service] || { retentionDays: 30 }`. -/
def retentionDaysOf (policies : List (String × Policy)) (service : String) : Int :=
  match policies.lookup service with
  | some p => p.retentionDays
  | none => 30

/-- The assignment `policies[service] = p`. -/
def setPolicy (policies : List (String × Policy)) (service : String) (p : Policy) :
    List (String × Policy) :=
  if policies.any (fun e => e.1 == service) then
    policies.map fun e => if e.1 == service then (service, p) else e
  else policies ++ [(service, p)]

/-- The handler of `POST /api/retention` (lines 101-117), given for every incoming entry its
service and the value of `parseInt(retentionDays, 10)` (`none` when `retentionDays` is `null`,
absent or not a number): a policy is updated when the service is known and
`7 ≤ days ≤ 90`. -/
def postPolicies (policies : List (String × Policy)) :
    List (String × Option Int) → List (String × Policy)
  | [] => policies
  | (service, days) :: rest =>
    match days with
    | some n =>
      if Retention.SERVICES.contains service && decide (7 ≤ n) && decide (n ≤ 90) then
        match policies.lookup service with
        | some p => postPolicies (setPolicy policies service { p with retentionDays := n }) rest
        | none =>
          postPolicies
            (setPolicy policies service
              { retentionDays := n, lastCleanupRun := none, logsDeletedLastRun := 0 }) rest
      else postPolicies policies rest
    | none => postPolicies policies rest

/-- The state of the loop of `POST /api/retention/cleanup` (lines 54-80). -/
structure CleanupState where
  policies : List (String × Policy)
  index : List IndexDoc
  totalDeleted : Nat
deriving DecidableEq

/-- One iteration of the loop (lines 57-80), every `deleteByQuery` call succeeding. -/
def cleanupService (now : Int) (st : CleanupState) (service : String) : CleanupState :=
  let retentionDays := retentionDaysOf st.policies service
  let cutoff := cutoffDate now retentionDays
  let delResult := deleteByQuery st.index (EsQuery.serviceAndRangeLt service cutoff)
  { policies :=
      setPolicy st.policies service
        { retentionDays := retentionDays
          lastCleanupRun := some now
          logsDeletedLastRun := delResult.1 }
    index := delResult.2
    totalDeleted := st.totalDeleted + delResult.1 }

/-- The loop of the handler of `POST /api/retention/cleanup` (lines 54-80). -/
def cleanupAll (policies : List (String × Policy)) (now : Int) (index : List IndexDoc) :
    CleanupState :=
  Retention.SERVICES.foldl (cleanupService now)
    { policies := policies, index := index, totalDeleted := 0 }

/-- What the specification says of the retention cleanup: for each service, exactly the
documents of that service older than the threshold of that service's policy are deleted; this
is what is left. -/
def retentionBySpec (policies : List (String × Policy)) (now : Int) (index : List IndexDoc) :
    List IndexDoc :=
  index.filter fun d =>
    !(Retention.SERVICES.contains d.service &&
      decide (d.timestamp < cutoffDate now (retentionDaysOf policies d.service)))

/-- A moment for the examples: 2024-05-01T02:00:00Z. -/
def sampleNow : Int := 1714528800000

/-- The policies after `POST /api/retention` has set 90 days for `payment-service` and 7 days
for `auth-service`. -/
def samplePolicies : List (String × Policy) :=
  postPolicies initialPolicies [("payment-service", some 90), ("auth-service", some 7)]

/-- An index with a `payment-service` document 45 days old, an `auth-service` document 10 days
old and an `api-gateway` document 31 days old. -/
def sampleIndex : List IndexDoc :=
  [ ⟨"payment-service", sampleNow - 45 * MS_PER_DAY⟩,
    ⟨"auth-service", sampleNow - 10 * MS_PER_DAY⟩,
    ⟨"api-gateway", sampleNow - 31 * MS_PER_DAY⟩ ]

/-! ## Authentication routes (`routes/auth.js`) -/

/-- The code points removed by `String.prototype.trim`: ECMAScript `WhiteSpace` and
`LineTerminator`. -/
def isJsWhiteSpace (c : Char) : Bool :=
  [0x9, 0xA, 0xB, 0xC, 0xD, 0x20, 0xA0, 0x1680, 0x2028, 0x2029, 0x202F, 0x205F, 0x3000,
    0xFEFF].contains c.toNat ||
  (decide (0x2000 ≤ c.toNat) && decide (c.toNat ≤ 0x200A))

/-- The method `s.trim()`. -/
def jsTrim (s : String) : String :=
  ⟨((s.data.dropWhile isJsWhiteSpace).reverse.dropWhile isJsWhiteSpace).reverse⟩

/-- The property `s.length`: the number of UTF-16 code units of `s`. -/
def jsLength (s : String) : Nat :=
  (s.data.map fun c => if c.toNat < 0x10000 then 1 else 2).sum

/-- A property of the JSON request body as the handlers use it.  `absent` is `undefined`;
a value that is not a string (`null`, a number, a boolean, an array, an object) is given by
the two things the handlers do with it: its truthiness and the result of `String(value)`.
`unconvertible` is an object or array on which `String(value)` throws a `TypeError`, such as
`{"toString": 1}`, whose own property `toString` is not callable; it is truthy. -/
inductive BodyField where
  | absent
  | str (s : String)
  | other (truthy : Bool) (text : String)
  | unconvertible
deriving DecidableEq

/-- JavaScript truthiness of a body property, as tested by `!value`. -/
def BodyField.truthy : BodyField → Bool
  | BodyField.absent => false
  | BodyField.str s => s != ""
  | BodyField.other t _ => t
  | BodyField.unconvertible => true

/-- Whether the conversion `String(value)` throws. -/
def BodyField.stringThrows : BodyField → Bool
  | BodyField.unconvertible => true
  | _ => false

/-- The conversion `String(value)` when it returns.  Where it throws (`stringThrows`) the empty
string stands in; the handlers do not read it there. -/
def BodyField.toStr : BodyField → String
  | BodyField.absent => "undefined"
  | BodyField.str s => s
  | BodyField.other _ text => text
  | BodyField.unconvertible => ""

/-- A string property that consists of white space only (and is not empty). -/
def BodyField.WhitespaceOnly (f : BodyField) : Prop :=
  ∃ s, f = BodyField.str s ∧ s ≠ "" ∧ ∀ c ∈ s.data, isJsWhiteSpace c = true

/-- A thrown or rejected error, by its `name` and `message`. -/
structure JsError where
  name : String
  message : String
deriving DecidableEq

/-- The error that `String(value)` throws on a value it cannot convert. -/
def conversionError : JsError :=
  { name := "TypeError", message := "Cannot convert object to primitive value" }

/-- A document of the `User` model, as far as the handlers read it. -/
structure UserDoc where
  _id : String
  email : String
  name : String
  password : String
deriving DecidableEq

/-- What the handlers of `routes/auth.js` use and this repository's sources do not contain:
the Unicode lower-case mapping, the `User` model (`models/User.js`) with the state of its
collection, `bcrypt.compare` and `jwt.sign`.  Each is taken as it is, as a parameter. -/
structure AuthEnv where
  /-- The method `String.prototype.toLowerCase`. -/
  toLowerCase : String → String
  /-- The empty string has no letters to map. -/
  toLowerCase_empty : toLowerCase "" = ""
  /-- The query `User.findOne({ email })`: a document, `null`, or a rejection. -/
  findOne : String → Except JsError (Option UserDoc)
  /-- The calls `new User({ email, password, name })` and `await user.save()`: the document
  after the save, or the error `save` rejects with. -/
  save : String → String → String → Except JsError UserDoc
  /-- The call `bcrypt.compare(plain, hash)`. -/
  compare : String → String → Except JsError Bool
  /-- The token `generateToken(user)` returns (lines 13-19). -/
  generateToken : UserDoc → String

/-- A call the handlers make on the `User` model, `bcrypt` or `jwt`. -/
inductive Effect where
  | findOne (email : String)
  | save (email password name : String)
  | compare (plain hash : String)
  | sign (userId email : String)
deriving DecidableEq

/-- The `user` object of a successful response. -/
structure PublicUser where
  id : String
  email : String
  name : String
deriving DecidableEq

/-- The JSON body of a response. -/
inductive ResponseBody where
  | error (error : String)
  | auth (token : String) (user : PublicUser)
deriving DecidableEq

/-- A response: status code and JSON body. -/
structure Response where
  status : Nat
  body : ResponseBody
deriving DecidableEq

/-- The properties `email`, `password` and `name` of `req.body` (line 23). -/
structure RegisterBody where
  email : BodyField
  password : BodyField
  name : BodyField
deriving DecidableEq

/-- The `catch` block of the register handler (lines 60-65). -/
def registerCatch (err : JsError) : Response :=
  if err.name = "ValidationError" then { status := 400, body := ResponseBody.error err.message }
  else { status := 500, body := ResponseBody.error err.message }

/-- The handler of `POST /api/auth/register` (lines 21-66): the response and the calls
made.  The three conversions `String(...)` of lines 29-31 come before the checks; when one of
them throws, the `catch` block answers. -/
def register (env : AuthEnv) (body : RegisterBody) : Response × List Effect :=
  if !body.email.truthy || !body.password.truthy || !body.name.truthy then
    ({ status := 400, body := ResponseBody.error "Email, password, and name are required" }, [])
  else if body.email.stringThrows || body.name.stringThrows || body.password.stringThrows then
    (registerCatch conversionError, [])
  else
    let trimmedEmail := env.toLowerCase (jsTrim body.email.toStr)
    let trimmedName := jsTrim body.name.toStr
    let trimmedPassword := jsTrim body.password.toStr
    if trimmedEmail = "" then
      ({ status := 400, body := ResponseBody.error "Email is required" }, [])
    else if jsLength trimmedPassword < 6 then
      ({ status := 400, body := ResponseBody.error "Password must be at least 6 characters" },
        [])
    else if trimmedName = "" then
      ({ status := 400, body := ResponseBody.error "Name is required" }, [])
    else
      match env.findOne trimmedEmail with
      | Except.error err => (registerCatch err, [Effect.findOne trimmedEmail])
      | Except.ok (some _) =>
        ({ status := 400, body := ResponseBody.error "Email already registered" },
          [Effect.findOne trimmedEmail])
      | Except.ok none =>
        match env.save trimmedEmail trimmedPassword trimmedName with
        | Except.error err =>
          (registerCatch err,
            [Effect.findOne trimmedEmail, Effect.save trimmedEmail trimmedPassword trimmedName])
        | Except.ok user =>
          ({ status := 201
             body := ResponseBody.auth (env.generateToken user)
               { id := user._id, email := user.email, name := user.name } },
            [Effect.findOne trimmedEmail, Effect.save trimmedEmail trimmedPassword trimmedName,
             Effect.sign user._id user.email])

/-- The properties `email` and `password` of `req.body` (line 70). -/
structure LoginBody where
  email : BodyField
  password : BodyField
deriving DecidableEq

/-- The handler of `POST /api/auth/login` (lines 68-94): the response and the calls made.
`String(email)` is converted before the lookup (line 76) and `String(password)` only after a
user was found (line 81); when a conversion throws, the `catch` block answers 500. -/
def login (env : AuthEnv) (body : LoginBody) : Response × List Effect :=
  if !body.email.truthy || !body.password.truthy then
    ({ status := 400, body := ResponseBody.error "Email and password are required" }, [])
  else if body.email.stringThrows then
    ({ status := 500, body := ResponseBody.error conversionError.message }, [])
  else
    let key := env.toLowerCase (jsTrim body.email.toStr)
    match env.findOne key with
    | Except.error err =>
      ({ status := 500, body := ResponseBody.error err.message }, [Effect.findOne key])
    | Except.ok none =>
      ({ status := 401, body := ResponseBody.error "Invalid email or password" },
        [Effect.findOne key])
    | Except.ok (some user) =>
      if body.password.stringThrows then
        ({ status := 500, body := ResponseBody.error conversionError.message },
          [Effect.findOne key])
      else
      match env.compare body.password.toStr user.password with
      | Except.error err =>
        ({ status := 500, body := ResponseBody.error err.message },
          [Effect.findOne key, Effect.compare body.password.toStr user.password])
      | Except.ok false =>
        ({ status := 401, body := ResponseBody.error "Invalid email or password" },
          [Effect.findOne key, Effect.compare body.password.toStr user.password])
      | Except.ok true =>
        ({ status := 200
           body := ResponseBody.auth (env.generateToken user)
             { id := user._id, email := user.email, name := user.name } },
          [Effect.findOne key, Effect.compare body.password.toStr user.password,
           Effect.sign user._id user.email])

/-- The ASCII part of the lower-case mapping, leaving every other character as it is: it
agrees with `toLowerCase` on ASCII strings. -/
def asciiLower (s : String) : String := ⟨s.data.map Char.toLower⟩

/-- An environment for the examples: an empty collection, a model that stores the fields it is
given, a comparison by equality of texts. -/
def emptyDbEnv : AuthEnv :=
  { toLowerCase := asciiLower
    toLowerCase_empty := rfl
    findOne := fun _ => Except.ok none
    save := fun email password name =>
      Except.ok { _id := "65f0c0ffee0000000000a001", email := email, name := name,
                  password := password }
    compare := fun plain hash => Except.ok (plain == hash)
    generateToken := fun user => "jwt." ++ user._id }

/-- An environment for the examples with one stored user, `ada@example.com`. -/
def oneUserEnv : AuthEnv :=
  { emptyDbEnv with
    findOne := fun email =>
      if email = "ada@example.com" then
        Except.ok (some { _id := "65f0c0ffee0000000000a001", email := "ada@example.com",
                          name := "Ada", password := "secret1" })
      else Except.ok none }


/-! ## The signup form (`frontend/src/pages/SignupPage.jsx`, `context/AuthContext.jsx`) -/

/-- The state that `handleSubmit` reads: the values of the four controlled inputs. -/
structure SignupForm where
  name : String
  email : String
  password : String
  confirmPassword : String
deriving DecidableEq

/-- How the awaited call `register(...)` of the auth context settles: it resolves, or it
rejects with an error, given by `err.response?.data?.error` and `err.message` (`none` when
`null` or `undefined`). -/
inductive RegisterOutcome where
  | resolved
  | rejected (responseError : Option String) (message : Option String)
deriving DecidableEq

/-- What one run of `handleSubmit` leaves behind: the argument lists of the calls of
`register`, the `error` and `loading` state, and the route passed to `navigate`. -/
structure SubmitResult where
  registerCalls : List (String × String × String)
  error : String
  loading : Bool
  navigated : Option String
deriving DecidableEq

/-- A run of `handleSubmit` that ends in one of the five early returns. -/
def rejectForm (message : String) : SubmitResult :=
  { registerCalls := [], error := message, loading := false, navigated := none }

/-- The handler `handleSubmit` of the signup page (lines 72-109). -/
def handleSubmit (form : SignupForm) (outcome : RegisterOutcome) : SubmitResult :=
  if jsTrim form.name = "" then rejectForm "Name is required"
  else if jsTrim form.email = "" then rejectForm "Email is required"
  else if form.password = "" then rejectForm "Password is required"
  else if jsLength form.password < 6 then rejectForm "Password must be at least 6 characters"
  else if form.password ≠ form.confirmPassword then rejectForm "Passwords do not match"
  else
    let call := (jsTrim form.name, jsTrim form.email, form.password)
    match outcome with
    | RegisterOutcome.resolved =>
      { registerCalls := [call], error := "", loading := false, navigated := some "/dashboard" }
    | RegisterOutcome.rejected responseError message =>
      { registerCalls := [call]
        error := (responseError.orElse fun _ => message).getD "Registration failed"
        loading := false
        navigated := none }

/-- The request body that `register(name, email, password)` of the auth context posts to
`/auth/register` (`AuthContext.jsx`, line 46). -/
def registerRequest (call : String × String × String) : RegisterBody :=
  { email := BodyField.str call.2.1, password := BodyField.str call.2.2,
    name := BodyField.str call.1 }

/-! ## The copies of the service enumeration -/

/-- The list `SERVICE_NAMES` of `routes/services.js` (lines 6-12). -/
def SERVICE_NAMES : List String :=
  ["auth-service", "payment-service", "api-gateway", "user-service", "notification-service"]

/-- The own keys of the object `LOG_TEMPLATES`, in insertion order. -/
def logTemplateKeys : List String := LOG_TEMPLATES.map Prod.fst

/-! ## Simulated time: from one incident to the next -/

/-- The next incident is awaited: the simulator runs with the incident flag cleared, the clock
has not passed `d`, and the timeout referenced by `nextIncidentSchedule` is due at `d`. -/
def Awaiting (d : Nat) (c : Clocked) : Prop :=
  c.sim.isRunning = true ∧ c.sim.isIncidentActive = false ∧ c.now ≤ d ∧
    ∃ h, c.sim.nextIncidentSchedule = some h ∧ c.due.lookup h = some d

/-- The phases a run without `stopSimulator` goes through once an incident-start timeout is
due at `d`: the wait for it, then the phases of the incident that begins at `d`. -/
def CyclePhase (d : Nat) (c : Clocked) : Prop :=
  Awaiting d c ∨ WindowPhase d c

/-- One second of a running simulator: the clock advances to the next tick, which fires. -/
def oneSecond : List ClockedEvent := [ClockedEvent.wait 1000, ClockedEvent.fire 1 zeroDraw]

/-- The incident of `incidentBegun` from its start at 150000 to its end at 180000, where the
end timeout fires with the draw `1 - 2^-53`; then the 180 seconds until the start timeout it
registered is due. -/
def longestIdleEvents : List ClockedEvent :=
  (List.replicate 30 oneSecond).flatten ++ [ClockedEvent.fire 3 maxDraw] ++
    (List.replicate 180 oneSecond).flatten

/-- The state right after the end timeout fired in `longestIdleEvents`. -/
def incidentEnded : Clocked :=
  { sim :=
      { tickInterval := some 1
        incidentTimeout := some 3
        nextIncidentSchedule := some 4
        isIncidentActive := false
        isRunning := true
        timers :=
          [⟨1, Callback.tick, ofInt 1000, true⟩,
           ⟨4, Callback.incidentStart, ofInt 180000, false⟩]
        nextHandle := 5 }
    now := 180000
    due := [(1, 181000), (4, 360000)] }

/-- The state at the end of `longestIdleEvents`. -/
def beforeSecondIncident : Clocked :=
  { incidentEnded with now := 360000, due := [(1, 361000), (4, 360000)] }

/-- The state right after the start timeout fired in `beforeSecondIncident`. -/
def secondIncidentBegun : Clocked :=
  { sim :=
      { tickInterval := some 1
        incidentTimeout := some 5
        nextIncidentSchedule := some 4
        isIncidentActive := true
        isRunning := true
        timers :=
          [⟨1, Callback.tick, ofInt 1000, true⟩,
           ⟨5, Callback.incidentEnd, ofInt 30000, false⟩]
        nextHandle := 6 }
    now := 360000
    due := [(1, 361000), (5, 390000)] }

/-- The state of `longestIdleEvents` just before the end timeout fires. -/
def incidentEnding : Clocked :=
  { incidentBegun with now := 180000, due := [(1, 181000), (3, 180000)] }

/-- In every continuation of `c` without `stopSimulator` the next incident starts at time `d`:
the incident flag is cleared while the clock is before `d` and set while it is strictly between
`d` and `d + 30000`; a step that sets the flag no later than `d` happens at `d`; and at `d` the
firing of the start timeout is possible and sets the flag. -/
def NextIncidentAt (d : Nat) (c : Clocked) : Prop :=
  (∀ es c4, StopFree es → c.run es = some c4 → c4.now < d →
    c4.sim.isIncidentActive = false) ∧
  (∀ es c4, StopFree es → c.run es = some c4 → d < c4.now → c4.now < d + 30000 →
    c4.sim.isIncidentActive = true) ∧
  (∀ es c4 e c5, StopFree es → c.run es = some c4 → e ≠ ClockedEvent.stop →
    c4.step e = some c5 → c4.sim.isIncidentActive = false → c4.now ≤ d →
    c5.sim.isIncidentActive = true → c4.now = d ∧ c5.now = d) ∧
  (∀ es c4, StopFree es → c.run es = some c4 → c4.sim.isIncidentActive = false →
    c4.now = d →
    ∃ h, c4.sim.nextIncidentSchedule = some h ∧
      ∀ r, ∃ c5, c4.step (ClockedEvent.fire h r) = some c5 ∧
        c5.sim.isIncidentActive = true ∧ c5.now = d)


/-! ## The retention policies (`routes/retention.js`, lines 101-121) -/

/-- The call `parseInt(text, 10)` on a string: leading white space is skipped, then an optional
sign, then the longest run of decimal digits is read; `none` is `NaN`, the result when there is
no digit.  The integer is given exactly; the handler compares it with 7 and 90 only, where the
rounding to a double makes no difference. -/
def parseInt10 (text : String) : Option Int :=
  let s := text.data.dropWhile isJsWhiteSpace
  let negative := s.head? == some '-'
  let body := if s.head? == some '-' || s.head? == some '+' then s.tail else s
  let digits := body.takeWhile Char.isDigit
  if digits.isEmpty then none
  else
    let n : Nat := digits.foldl (fun acc c => 10 * acc + (c.toNat - '0'.toNat)) 0
    some (if negative then -(n : Int) else (n : Int))

/-- An element of the array `incoming`, as the callback of `forEach` sees it.  `nullish` is
`null` or `undefined`, on which the parameter pattern `({ service, retentionDays })` throws a
`TypeError`.  Otherwise `service` is the property when it is a string (`none` when it is
absent or of another type, which `SERVICES.includes` never finds) and `retentionDays` is
`none` when the property is `null` or `undefined` and else the text `parseInt` converts it
to. -/
inductive IncomingEntry where
  | nullish
  | fields (service : Option String) (retentionDays : Option String)
deriving DecidableEq

/-- The callback of `incoming.forEach` (lines 105-115) on an element that is not nullish. -/
def applyIncoming (policies : List (String × Policy)) (service retentionDays : Option String) :
    List (String × Policy) :=
  match service with
  | none => policies
  | some s => postPolicies policies [(s, retentionDays.bind parseInt10)]

/-- The loop `incoming.forEach(...)` (line 104): the policies when it ends and whether it ended
with a thrown error; the assignments made before the error stay. -/
def forEachIncoming (policies : List (String × Policy)) :
    List IncomingEntry → List (String × Policy) × Bool
  | [] => (policies, false)
  | IncomingEntry.nullish :: _ => (policies, true)
  | IncomingEntry.fields service retentionDays :: rest =>
    forEachIncoming (applyIncoming policies service retentionDays) rest

/-- The handler of `POST /api/retention` (lines 101-121) for any request body: `incoming` is
the property `policies` of the body when it is an array, `none` otherwise (no body, no such
property, or a value that is not an array).  The result is the `policies` object afterwards and
the status of the response. -/
def postRetention (policies : List (String × Policy)) (incoming : Option (List IncomingEntry)) :
    List (String × Policy) × Nat :=
  match incoming with
  | none => (policies, 200)
  | some entries =>
    ((forEachIncoming policies entries).1,
      if (forEachIncoming policies entries).2 then 500 else 200)

/-- The `policies` object after iterations of the loop of `POST /api/retention/cleanup` (lines
57-80) at the time `now` over the index `index`, for the services `services`: all of
`SERVICES` in a run that nothing interrupts, a part of it when a call of the search engine
rejects (which ends the handler in its `catch` block) or when another request is handled while
the loop awaits. -/
def cleanupPolicies (policies : List (String × Policy)) (now : Int) (index : List IndexDoc)
    (services : List String) : List (String × Policy) :=
  (services.foldl (cleanupService now)
    { policies := policies, index := index, totalDeleted := 0 }).policies

/-- The states of the `policies` object: the initial one, and what `POST /api/retention` and
iterations of the loop of `POST /api/retention/cleanup` make of a state. -/
inductive PoliciesReachable : List (String × Policy) → Prop where
  | init : PoliciesReachable initialPolicies
  | post {policies : List (String × Policy)} (incoming : Option (List IncomingEntry)) :
      PoliciesReachable policies → PoliciesReachable (postRetention policies incoming).1
  | cleanup {policies : List (String × Policy)} (now : Int) (index : List IndexDoc)
      (services : List String) :
      (∀ s ∈ services, s ∈ Retention.SERVICES) → PoliciesReachable policies →
      PoliciesReachable (cleanupPolicies policies now index services)

/-- The invariant of the `policies` object: its keys are the five services, in order, and every
`retentionDays` is between 7 and 90. -/
def PolicyInv (policies : List (String × Policy)) : Prop :=
  policies.map Prod.fst = Retention.SERVICES ∧
    ∀ e ∈ policies, 7 ≤ e.2.retentionDays ∧ e.2.retentionDays ≤ 90

/-- The properties `lastCleanupRun` and `logsDeletedLastRun` of the policy of a service. -/
def runFields (policies : List (String × Policy)) (service : String) :
    Option (Option Int × Nat) :=
  (policies.lookup service).map fun p => (p.lastCleanupRun, p.logsDeletedLastRun)

/-- A request body for the examples: a valid entry, an entry for an unknown service, values
that parse to nothing or out of range, a value with trailing text, and a `null` element after
which the loop ends. -/
def sampleIncoming : List IncomingEntry :=
  [ IncomingEntry.fields (some "payment-service") (some "90"),
    IncomingEntry.fields (some "billing-service") (some "30"),
    IncomingEntry.fields (some "auth-service") (some "abc"),
    IncomingEntry.fields (some "auth-service") (some "6"),
    IncomingEntry.fields (some "user-service") (some " 14 days"),
    IncomingEntry.fields (some "api-gateway") none,
    IncomingEntry.nullish,
    IncomingEntry.fields (some "api-gateway") (some "7") ]

/-! ## The service summary (`routes/services.js`) -/

/-- The binary64 value nearest to the exact quotient `num / den` of two counts of units, ties to
even: the quotient has the integer part `q` and the remainder `r`; below `2^53` units the
values are one unit apart, above the remainder only breaks a tie.  Requires `den ≠ 0`. -/
def roundRat (num den : Nat) : Nat :=
  let q := num / den
  let r := num % den
  if q < 2 ^ 53 then
    if 2 * r < den then q
    else if den < 2 * r then q + 1
    else if q % 2 = 0 then q
    else q + 1
  else
    let s := bitLen q - 53
    if q % 2 ^ s < 2 ^ (s - 1) then q / 2 ^ s * 2 ^ s
    else if 2 ^ (s - 1) < q % 2 ^ s ∨ r ≠ 0 then (q / 2 ^ s + 1) * 2 ^ s
    else if q / 2 ^ s % 2 = 0 then q / 2 ^ s * 2 ^ s
    else (q / 2 ^ s + 1) * 2 ^ s

/-- The JavaScript quotient `x / y` of two numbers `x ≥ 0` and `y ≥ 0`; `none` stands for the
result of a division by zero, `NaN` or `Infinity`. -/
def jsDiv (x y : Nat) : Option Nat :=
  if y = 0 then none else some (roundRat (x * ONE) y)

/-- The integer `Math.round(x)` for `x ≥ 0`: the nearest integer, a half rounds up. -/
def mathRound (x : Nat) : Nat := (2 * x + ONE) / (2 * ONE)

/-- A bucket of the `volume_over_time` histogram, as far as the handler reads it. -/
structure VolumeBucket where
  key_as_string : String
  doc_count : Nat
deriving DecidableEq

/-- A bucket of the `by_service` aggregation, as far as the handler reads it.  A property behind
an optional chain is `none` when the chain ends in `null` or `undefined`.  Counts are integers
below `2^53`; `avg_duration` and `last_seen` are numbers `≥ 0`, in units of `2^-1074`. -/
structure ServiceBucket where
  key : String
  doc_count : Nat
  error_count : Option Nat
  avg_duration : Option Nat
  last_seen : Option Nat
  volume_over_time : Option (List VolumeBucket)
deriving DecidableEq

/-- An element of `volumeOverTime` in the response. -/
structure VolumePoint where
  time : String
  count : Nat
deriving DecidableEq

/-- An element of `services` in the response.  `errorRate` is a number in units of `2^-1074`,
`none` if it is not finite; `lastSeen` is `none` for `null`. -/
structure ServiceSummary where
  name : String
  totalLogs : Nat
  errorCount : Nat
  errorRate : Option Nat
  avgDuration : Nat
  lastSeen : Option Nat
  volumeOverTime : List VolumePoint
deriving DecidableEq

/-- The callback of `SERVICE_NAMES.map` (lines 63-92). -/
def summarize (buckets : List ServiceBucket) (name : String) : ServiceSummary :=
  match buckets.find? fun x => x.key == name with
  | none =>
    { name := name, totalLogs := 0, errorCount := 0, errorRate := some 0, avgDuration := 0,
      lastSeen := none, volumeOverTime := [] }
  | some b =>
    let totalLogs := b.doc_count
    let errorCount := b.error_count.getD 0
    let errorRate : Option Nat :=
      if 0 < totalLogs then (jsDiv (ofInt errorCount) (ofInt totalLogs)).map fun q => jsMul q 100
      else some 0
    let volumeOverTime := (b.volume_over_time.getD []).map fun v =>
      ({ time := v.key_as_string, count := v.doc_count } : VolumePoint)
    { name := name
      totalLogs := totalLogs
      errorCount := errorCount
      errorRate := errorRate.bind fun e => jsDiv (ofInt (mathRound (jsMul e 100))) (ofInt 100)
      avgDuration := mathRound (b.avg_duration.getD 0)
      lastSeen := b.last_seen
      volumeOverTime := volumeOverTime }

/-- The array `services` of the response of `GET /api/services` (lines 62-93), for the value of
`result.aggregations?.by_service?.buckets`. -/
def getServices (buckets : Option (List ServiceBucket)) : List ServiceSummary :=
  SERVICE_NAMES.map (summarize (buckets.getD []))

/-- An aggregation result for the examples: a bucket for `payment-service` with 3 documents, 1
of them an error, an average duration of 120.5 and two histogram buckets; a bucket of an
unknown service; a bucket for `auth-service` without documents and without sub-aggregations;
and a second bucket for `payment-service`, which `find` never reaches. -/
def sampleBuckets : List ServiceBucket :=
  [ { key := "payment-service", doc_count := 3, error_count := some 1,
      avg_duration := some (241 * (ONE / 2)), last_seen := some (ofInt 1714528800000),
      volume_over_time :=
        some [⟨"2024-05-01T01:55:00.000Z", 2⟩, ⟨"2024-05-01T02:00:00.000Z", 1⟩] },
    { key := "billing-service", doc_count := 9, error_count := some 9, avg_duration := none,
      last_seen := none, volume_over_time := none },
    { key := "auth-service", doc_count := 0, error_count := none, avg_duration := none,
      last_seen := none, volume_over_time := none },
    { key := "payment-service", doc_count := 8, error_count := some 8, avg_duration := none,
      last_seen := none, volume_over_time := none } ]

/-! ## The logs route (`routes/logs.js`) -/

/-- A JSON value of a request body, as far as the handlers distinguish values: a number is
given by its sign and its magnitude in units of `2^-1074`, an array or object by its JSON
text. -/
inductive JsonValue where
  | null
  | bool (b : Bool)
  | num (negative : Bool) (units : Nat)
  | str (s : String)
  | composite (text : String)
deriving DecidableEq

/-- JavaScript truthiness of a JSON value: `null`, `false`, `0`, `-0` and the empty string are
falsy, every array and object is truthy. -/
def JsonValue.truthy : JsonValue → Bool
  | JsonValue.null => false
  | JsonValue.bool b => b
  | JsonValue.num _ units => units != 0
  | JsonValue.str s => s != ""
  | JsonValue.composite _ => true

/-- The expression `value || fallback` for a property of the body; `none` is `undefined`. -/
def orElse (value : Option JsonValue) (fallback : JsonValue) : JsonValue :=
  match value with
  | some v => if v.truthy then v else fallback
  | none => fallback

/-- The expression `value ?? fallback` for a property of the body; `none` is `undefined`. -/
def nullish (value : Option JsonValue) (fallback : JsonValue) : JsonValue :=
  match value with
  | some JsonValue.null => fallback
  | some v => v
  | none => fallback

/-- The seven properties that the handler of `POST /api/logs` reads of `req.body` (line 9). -/
structure LogBody where
  level : Option JsonValue
  message : Option JsonValue
  service : Option JsonValue
  traceId : Option JsonValue
  duration : Option JsonValue
  archived : Option JsonValue
  timestamp : Option JsonValue
deriving DecidableEq

/-- The object `doc` (lines 10-18). -/
structure LogDoc where
  timestamp : JsonValue
  level : JsonValue
  service : JsonValue
  message : JsonValue
  traceId : JsonValue
  duration : JsonValue
  archived : JsonValue
deriving DecidableEq

/-- The object `doc` of lines 10-18, given the string `new Date().toISOString()` and the string
`uuidv4()` would return. -/
def buildDoc (body : LogBody) (nowIso uuid : String) : LogDoc :=
  { timestamp := orElse body.timestamp (JsonValue.str nowIso)
    level := orElse body.level (JsonValue.str "info")
    service := orElse body.service (JsonValue.str "unknown")
    message := orElse body.message (JsonValue.str "")
    traceId := orElse body.traceId (JsonValue.str uuid)
    duration := nullish body.duration (JsonValue.num false 0)
    archived := nullish body.archived (JsonValue.bool false) }

/-- The JSON body of a response of `POST /api/logs`. -/
inductive LogResponseBody where
  | doc (doc : LogDoc)
  | error (error : String)
deriving DecidableEq

/-- What the handler of `POST /api/logs` does: the documents passed to `client.index`, the
status and the body of the response. -/
structure PostLogResult where
  indexCalls : List LogDoc
  status : Nat
  body : LogResponseBody
deriving DecidableEq

/-- The handler of `POST /api/logs` (lines 7-29); `indexError` is the error with which the
call `client.index` rejects, `none` when it resolves. -/
def postLog (body : LogBody) (nowIso uuid : String) (indexError : Option JsError) :
    PostLogResult :=
  let doc := buildDoc body nowIso uuid
  match indexError with
  | none => { indexCalls := [doc], status := 201, body := LogResponseBody.doc doc }
  | some err =>
    { indexCalls := [doc], status := 500, body := LogResponseBody.error err.message }

/-- A value of `req.query`: absent, a string, or an array or object (a repeated or bracketed
parameter), which is no string and is truthy. -/
inductive QueryValue where
  | absent
  | str (s : String)
  | other (text : String)
deriving DecidableEq

/-- The result of `getTimeRangeBounds`: the instants, in milliseconds since the epoch, whose
ISO strings are the properties `from` and `to`. -/
structure Bounds where
  fromTime : Int
  toTime : Int
deriving DecidableEq

/-- The function `getTimeRangeBounds(timeRange)` (lines 31-52), called at the instant `now`;
`none` is `null`.  The `switch` compares with `===`, so only a string can match a case. -/
def getTimeRangeBounds (timeRange : QueryValue) (now : Int) : Option Bounds :=
  match timeRange with
  | QueryValue.str s =>
    if s = "15m" then some { fromTime := now - 15 * 60 * 1000, toTime := now }
    else if s = "1h" then some { fromTime := now - 60 * 60 * 1000, toTime := now }
    else if s = "6h" then some { fromTime := now - 6 * 60 * 60 * 1000, toTime := now }
    else if s = "24h" then some { fromTime := now - 24 * 60 * 60 * 1000, toTime := now }
    else none
  | _ => none

/-- A clause pushed to `query.bool.must`. -/
inductive MustClause where
  | termLevel (level : String)
  | termService (service : QueryValue)
  | matchMessage (query : String)
  | rangeTimestamp (gte lte : Int)
deriving DecidableEq

/-- The statement `if (level) query.bool.must.push(...)` (line 58): the clauses pushed, or the
`TypeError` thrown when `level` is truthy and has no method `toLowerCase`. -/
def levelClause (toLowerCase : String → String) : QueryValue → Except JsError (List MustClause)
  | QueryValue.absent => Except.ok []
  | QueryValue.str s =>
    if s = "" then Except.ok [] else Except.ok [MustClause.termLevel (toLowerCase s)]
  | QueryValue.other _ =>
    Except.error { name := "TypeError", message := "level.toLowerCase is not a function" }

/-- The statement `if (service) query.bool.must.push(...)` (line 59). -/
def serviceClause (service : QueryValue) : List MustClause :=
  match service with
  | QueryValue.absent => []
  | QueryValue.str s => if s = "" then [] else [MustClause.termService service]
  | QueryValue.other _ => [MustClause.termService service]

/-- The statement `if (q && q.trim()) { ... }` (lines 60-70): the clauses pushed, or the
`TypeError` thrown when `q` is truthy and has no method `trim`. -/
def qClause : QueryValue → Except JsError (List MustClause)
  | QueryValue.absent => Except.ok []
  | QueryValue.str s =>
    if s = "" ∨ jsTrim s = "" then Except.ok []
    else Except.ok [MustClause.matchMessage (jsTrim s)]
  | QueryValue.other _ =>
    Except.error { name := "TypeError", message := "q.trim is not a function" }

/-- The statements of lines 71-77: the range clause pushed when the bounds are not `null`. -/
def rangeClause (timeRange : QueryValue) (now : Int) : List MustClause :=
  match getTimeRangeBounds timeRange now with
  | some bounds => [MustClause.rangeTimestamp bounds.fromTime bounds.toTime]
  | none => []

/-- The array `query.bool.must` that the handler of `GET /api/logs` builds (lines 55-77) at the
instant `now`, for the lower-case mapping `toLowerCase` of strings; an error is a thrown
`TypeError`, which the handler answers with status 500. -/
def buildMust (toLowerCase : String → String) (level service q timeRange : QueryValue)
    (now : Int) : Except JsError (List MustClause) :=
  match levelClause toLowerCase level with
  | Except.error err => Except.error err
  | Except.ok c1 =>
    match qClause q with
    | Except.error err => Except.error err
    | Except.ok c3 => Except.ok (c1 ++ serviceClause service ++ c3 ++ rangeClause timeRange now)

/-- A property built with `||`: `result` is the supplied value when that is truthy (for a
string: not empty), and `fallback` when nothing or a falsy value was supplied. -/
def KeptIfNonEmpty (supplied : Option JsonValue) (result fallback : JsonValue) : Prop :=
  (∀ v, supplied = some v → v.truthy = true → result = v) ∧
  ((∀ v, supplied = some v → v.truthy = false) → result = fallback)

/-- A property built with `??`: `result` is the supplied value when that is not `null`, and
`fallback` when nothing or `null` was supplied. -/
def KeptIfNotNull (supplied : Option JsonValue) (result fallback : JsonValue) : Prop :=
  (∀ v, supplied = some v → v ≠ JsonValue.null → result = v) ∧
  ((∀ v, supplied = some v → v = JsonValue.null) → result = fallback)

/-- A request body for the examples: an empty `level`, no `service`, a `duration` of 0 and
`archived` false. -/
def sampleLogBody : LogBody :=
  { level := some (JsonValue.str "")
    message := some (JsonValue.str "cache warmed")
    service := none
    traceId := some (JsonValue.str "trace-42")
    duration := some (JsonValue.num false 0)
    archived := some (JsonValue.bool false)
    timestamp := some (JsonValue.str "2024-05-01T02:00:00.000Z") }


/-! # Theorems -/

/-! ## Rounding -/

theorem bitLenAux_eq_log2 (fuel : Nat) : ∀ n : Nat, n ≠ 0 → n ≤ fuel →
    bitLenAux fuel n = Nat.log2 n + 1 := by
  induction fuel with
  | zero => intro n hn h; omega
  | succ f ih =>
    intro n hn h
    rw [bitLenAux, if_neg hn, Nat.log2]
    by_cases h2 : n ≥ 2
    · rw [if_pos h2, ih (n / 2) (by omega) (by omega)]
    · rw [if_neg h2]
      have h1 : n / 2 = 0 := by omega
      rw [h1]
      cases f <;> simp [bitLenAux]

theorem bitLen_eq_log2 {n : Nat} (hn : n ≠ 0) : bitLen n = Nat.log2 n + 1 :=
  bitLenAux_eq_log2 n n hn (Nat.le_refl n)

theorem mul_pow_le_of_dvd {s m n : Nat} (hd : 2 ^ s ∣ m) (h : m ≤ n) :
    m ≤ n / 2 ^ s * 2 ^ s := by
  obtain ⟨k, rfl⟩ := hd
  have hpos : 0 < 2 ^ s := Nat.two_pow_pos _
  have : k ≤ n / 2 ^ s := (Nat.le_div_iff_mul_le hpos).2 (by rw [Nat.mul_comm]; exact h)
  calc 2 ^ s * k = k * 2 ^ s := Nat.mul_comm _ _
    _ ≤ n / 2 ^ s * 2 ^ s := Nat.mul_le_mul_right _ this

theorem succ_mul_pow_le_of_dvd {s m n : Nat} (hd : 2 ^ s ∣ m) (h : n < m) :
    (n / 2 ^ s + 1) * 2 ^ s ≤ m := by
  obtain ⟨k, rfl⟩ := hd
  have hpos : 0 < 2 ^ s := Nat.two_pow_pos _
  have : n / 2 ^ s < k := (Nat.div_lt_iff_lt_mul hpos).2 (by rw [Nat.mul_comm]; exact h)
  calc (n / 2 ^ s + 1) * 2 ^ s ≤ k * 2 ^ s := Nat.mul_le_mul_right _ this
    _ = 2 ^ s * k := Nat.mul_comm _ _

theorem roundAt_ge (s n : Nat) : n / 2 ^ s * 2 ^ s ≤ roundAt s n := by
  unfold roundAt
  have : n / 2 ^ s * 2 ^ s ≤ (n / 2 ^ s + 1) * 2 ^ s :=
    Nat.mul_le_mul_right _ (Nat.le_succ _)
  split_ifs <;> first | exact Nat.le_refl _ | exact this

theorem roundAt_le (s n : Nat) : roundAt s n ≤ (n / 2 ^ s + 1) * 2 ^ s := by
  unfold roundAt
  have : n / 2 ^ s * 2 ^ s ≤ (n / 2 ^ s + 1) * 2 ^ s :=
    Nat.mul_le_mul_right _ (Nat.le_succ _)
  split_ifs <;> first | exact Nat.le_refl _ | exact this

theorem roundAt_dvd (s n : Nat) : 2 ^ s ∣ roundAt s n := by
  unfold roundAt
  split_ifs <;> exact Nat.dvd_mul_left _ _

theorem roundAt_mono (s : Nat) {x y : Nat} (h : x ≤ y) : roundAt s x ≤ roundAt s y := by
  have hpos : 0 < 2 ^ s := Nat.two_pow_pos _
  have hq : x / 2 ^ s ≤ y / 2 ^ s := Nat.div_le_div_right h
  rcases Nat.lt_or_ge (x / 2 ^ s) (y / 2 ^ s) with hlt | hge
  · calc roundAt s x ≤ (x / 2 ^ s + 1) * 2 ^ s := roundAt_le s x
      _ ≤ y / 2 ^ s * 2 ^ s := Nat.mul_le_mul_right _ hlt
      _ ≤ roundAt s y := roundAt_ge s y
  · have heq : x / 2 ^ s = y / 2 ^ s := Nat.le_antisymm hq hge
    have hx := Nat.div_add_mod x (2 ^ s)
    have hy := Nat.div_add_mod y (2 ^ s)
    have hrem : x % 2 ^ s ≤ y % 2 ^ s := by
      rw [heq] at hx
      omega
    have hstep : y / 2 ^ s * 2 ^ s ≤ (y / 2 ^ s + 1) * 2 ^ s :=
      Nat.mul_le_mul_right _ (Nat.le_succ _)
    unfold roundAt
    rw [heq]
    split_ifs <;> first | exact Nat.le_refl _ | exact hstep | omega

theorem two_pow_log2_le_roundAt {y : Nat} (hy : 2 ^ 53 ≤ y) :
    2 ^ Nat.log2 y ≤ roundAt (Nat.log2 y - 52) y := by
  have hy0 : y ≠ 0 := by
    intro h; rw [h] at hy; exact absurd hy (by decide)
  have h1 : 2 ^ Nat.log2 y ≤ y := Nat.log2_self_le hy0
  have hd : 2 ^ (Nat.log2 y - 52) ∣ 2 ^ Nat.log2 y := Nat.pow_dvd_pow 2 (Nat.sub_le _ _)
  exact Nat.le_trans (mul_pow_le_of_dvd hd h1) (roundAt_ge _ _)

theorem roundAt_le_two_pow (x : Nat) :
    roundAt (Nat.log2 x - 52) x ≤ 2 ^ (Nat.log2 x + 1) := by
  have h1 : x < 2 ^ (Nat.log2 x + 1) := Nat.lt_log2_self
  have hd : 2 ^ (Nat.log2 x - 52) ∣ 2 ^ (Nat.log2 x + 1) := Nat.pow_dvd_pow 2 (by omega)
  exact Nat.le_trans (roundAt_le _ _) (succ_mul_pow_le_of_dvd hd h1)

theorem roundDouble_of_ge {n : Nat} (h : 2 ^ 53 ≤ n) :
    roundDouble n = roundAt (Nat.log2 n - 52) n := by
  have hn0 : n ≠ 0 := by
    intro h0; rw [h0] at h; exact absurd h (by decide)
  unfold roundDouble
  rw [if_neg (Nat.not_lt.2 h), bitLen_eq_log2 hn0]
  rfl

theorem log2_mono {x y : Nat} (hx : x ≠ 0) (h : x ≤ y) : Nat.log2 x ≤ Nat.log2 y := by
  have hy : y ≠ 0 := by omega
  exact (Nat.le_log2 hy).2 (Nat.le_trans (Nat.log2_self_le hx) h)

/-- Rounding to binary64 is monotone. -/
theorem roundDouble_mono {x y : Nat} (h : x ≤ y) : roundDouble x ≤ roundDouble y := by
  by_cases hy : y < 2 ^ 53
  · have hx : x < 2 ^ 53 := Nat.lt_of_le_of_lt h hy
    simp only [roundDouble, if_pos hx, if_pos hy]
    exact h
  · have hy53 : 2 ^ 53 ≤ y := Nat.not_lt.1 hy
    have hy0 : y ≠ 0 := by
      intro h0; rw [h0] at hy53; exact absurd hy53 (by decide)
    have hLy : 53 ≤ Nat.log2 y := (Nat.le_log2 hy0).2 hy53
    have hY := two_pow_log2_le_roundAt hy53
    rw [roundDouble_of_ge hy53]
    by_cases hx : x < 2 ^ 53
    · simp only [roundDouble, if_pos hx]
      calc x ≤ 2 ^ 53 := Nat.le_of_lt hx
        _ ≤ 2 ^ Nat.log2 y := Nat.pow_le_pow_right (by decide) hLy
        _ ≤ _ := hY
    · have hx53 : 2 ^ 53 ≤ x := Nat.not_lt.1 hx
      have hx0 : x ≠ 0 := by
        intro h0; rw [h0] at hx53; exact absurd hx53 (by decide)
      rw [roundDouble_of_ge hx53]
      rcases Nat.lt_or_ge (Nat.log2 x) (Nat.log2 y) with hlt | hge
      · calc roundAt (Nat.log2 x - 52) x ≤ 2 ^ (Nat.log2 x + 1) := roundAt_le_two_pow x
          _ ≤ 2 ^ Nat.log2 y := Nat.pow_le_pow_right (by decide) hlt
          _ ≤ _ := hY
      · have heq : Nat.log2 x = Nat.log2 y := Nat.le_antisymm (log2_mono hx0 h) hge
        rw [heq]
        exact roundAt_mono _ h

/-- A binary64 value below `1` is at most `1 - 2^-53`. -/
theorem units_le_of_isDouble {n : Nat} (hd : IsDouble n) (hlt : n < ONE) :
    n ≤ ONE - 2 ^ 1021 := by
  by_cases hsmall : n < 2 ^ 1073
  · have : 2 ^ 1073 ≤ ONE - 2 ^ 1021 := by decide!
    omega
  · have h1073 : 2 ^ 1073 ≤ n := Nat.not_lt.1 hsmall
    have h53 : 2 ^ 53 ≤ n := Nat.le_trans (Nat.pow_le_pow_right (by decide) (by decide)) h1073
    have hn0 : n ≠ 0 := by
      intro h0; rw [h0] at h53; exact absurd h53 (by decide)
    have hlog : Nat.log2 n = 1073 := by
      apply Nat.le_antisymm
      · have : Nat.log2 n < 1074 := (Nat.log2_lt hn0).2 hlt
        omega
      · exact (Nat.le_log2 hn0).2 h1073
    have hr : roundAt 1021 n = n := by
      have := roundDouble_of_ge h53
      rw [hlog] at this
      unfold IsDouble at hd
      rw [hd] at this
      exact this.symm
    have hdvd : 2 ^ 1021 ∣ n := by
      have := roundAt_dvd 1021 n
      rwa [hr] at this
    have hONE : 2 ^ 1021 ∣ ONE := Nat.pow_dvd_pow 2 (by decide)
    have hstep := succ_mul_pow_le_of_dvd hONE hlt
    have hnq : n / 2 ^ 1021 * 2 ^ 1021 = n := Nat.div_mul_cancel hdvd
    rw [Nat.add_mul, hnq, Nat.one_mul] at hstep
    omega

/-- The product of a `Math.random()` result with an integer constant is at most the product
for the largest result. -/
theorem jsMul_draw_le (r : RandomDraw) (k : Nat) :
    jsMul r.units k ≤ jsMul (ONE - 2 ^ 1021) k :=
  roundDouble_mono (Nat.mul_le_mul_right k (units_le_of_isDouble r.isDouble r.lt_one))

/-- The bound `Math.floor(Math.random() * k) < k` holds whenever the largest draw gives a product below
`k`. -/
theorem mathFloor_jsMul_lt (r : RandomDraw) (k : Nat)
    (hk : jsMul (ONE - 2 ^ 1021) k < ofInt k) : mathFloor (jsMul r.units k) < k := by
  have hpos : 0 < ONE := Nat.two_pow_pos _
  unfold mathFloor
  apply (Nat.div_lt_iff_lt_mul hpos).2
  exact Nat.lt_of_le_of_lt (jsMul_draw_le r k) hk

theorem pickRandom_some {α : Type} (arr : List α) (r : RandomDraw)
    (hk : jsMul (ONE - 2 ^ 1021) arr.length < ofInt arr.length) :
    ∃ x, x ∈ arr ∧ pickRandom arr r = some x := by
  have hlt := mathFloor_jsMul_lt r arr.length hk
  refine ⟨arr[mathFloor (jsMul r.units arr.length)], List.getElem_mem _, ?_⟩
  unfold pickRandom
  exact List.getElem?_eq_getElem hlt

theorem jsMul_max_8 : jsMul (ONE - 2 ^ 1021) 8 < ofInt 8 := by decide!
theorem jsMul_max_2 : jsMul (ONE - 2 ^ 1021) 2 < ofInt 2 := by decide!
theorem jsMul_max_500 : jsMul (ONE - 2 ^ 1021) 500 < ofInt 500 := by decide!

/-! ## Placeholder resolution -/

theorem getSubstitution_clean (matched pre post : List Char) :
    ∀ rep : List Char, (∀ c ∈ rep, Clean c) → getSubstitution matched pre post rep = rep := by
  intro rep
  induction rep with
  | nil => intro _; rfl
  | cons c tail ih =>
    intro h
    have hc : c ≠ '$' := (h c (List.mem_cons_self _ _)).2
    have ht := ih fun x hx => h x (List.mem_cons_of_mem _ hx)
    cases tail with
    | nil => rfl
    | cons d rest =>
      rw [getSubstitution, if_neg hc, ht]

theorem splitAtFirst_mem (pat : List Char) :
    ∀ (s pre post : List Char), splitAtFirst pat s = some (pre, post) →
      ∀ c, c ∈ pre ++ post → c ∈ s := by
  intro s
  induction s with
  | nil =>
    intro pre post h c hc
    unfold splitAtFirst at h
    split_ifs at h
    simp only [Option.some.injEq, Prod.mk.injEq] at h
    obtain ⟨rfl, rfl⟩ := h
    exact hc
  | cons a as ih =>
    intro pre post h c hc
    unfold splitAtFirst at h
    split_ifs at h with hp
    · simp only [Option.some.injEq, Prod.mk.injEq] at h
      obtain ⟨rfl, rfl⟩ := h
      exact List.mem_of_mem_drop hc
    · cases hsplit : splitAtFirst pat as with
      | none => rw [hsplit] at h; simp at h
      | some p =>
        rw [hsplit] at h
        simp only [Option.map_some', Option.some.injEq, Prod.mk.injEq] at h
        obtain ⟨rfl, rfl⟩ := h
        have := ih p.1 p.2 hsplit
        rcases List.mem_append.1 hc with hc | hc
        · rcases List.mem_cons.1 hc with rfl | hc
          · exact List.mem_cons_self _ _
          · exact List.mem_cons_of_mem _ (this c (List.mem_append_left _ hc))
        · exact List.mem_cons_of_mem _ (this c (List.mem_append_right _ hc))

theorem replaceFirst_none {s pat : List Char} (rep : List Char)
    (h : splitAtFirst pat s = none) : replaceFirst s pat rep = s := by
  unfold replaceFirst; rw [h]

theorem replaceFirst_some {s pat pre post : List Char} {rep : List Char}
    (h : splitAtFirst pat s = some (pre, post)) (hrep : ∀ c ∈ rep, Clean c) :
    replaceFirst s pat rep = pre ++ rep ++ post := by
  unfold replaceFirst; rw [h]
  simp only [getSubstitution_clean _ _ _ rep hrep]

theorem replaceFirst_noBrace {s pat rep : List Char} (hs : '\x7b' ∉ s)
    (hrep : ∀ c ∈ rep, Clean c) : '\x7b' ∉ replaceFirst s pat rep := by
  cases h : splitAtFirst pat s with
  | none => rw [replaceFirst_none rep h]; exact hs
  | some p =>
    obtain ⟨pre, post⟩ := p
    rw [replaceFirst_some h hrep]
    intro hmem
    have hsub := splitAtFirst_mem pat s pre post h
    rcases List.mem_append.1 hmem with hm | hm
    · rcases List.mem_append.1 hm with hm | hm
      · exact hs (hsub _ (List.mem_append_left _ hm))
      · exact (hrep _ hm).1 rfl
    · exact hs (hsub _ (List.mem_append_right _ hm))

theorem replaceAll_noBrace (reps : List (List Char × List Char))
    (hreps : ∀ pr ∈ reps, ∀ c ∈ pr.2, Clean c) :
    ∀ s : List Char, '\x7b' ∉ s → '\x7b' ∉ replaceAll reps s := by
  induction reps with
  | nil => intro s hs; exact hs
  | cons pr rest ih =>
    intro s hs
    have h1 : '\x7b' ∉ replaceFirst s pr.1 pr.2 :=
      replaceFirst_noBrace hs (hreps pr (List.mem_cons_self _ _))
    exact ih (fun q hq => hreps q (List.mem_cons_of_mem _ hq)) _ h1

theorem all_ne_brace {l : List Char} (h : (l.all fun c => c != '\x7b') = true) :
    '\x7b' ∉ l := by
  intro hmem
  have := List.all_eq_true.1 h _ hmem
  simp at this

/-- Soundness of `resolves`. -/
theorem replaceAll_resolves (reps : List (List Char × List Char))
    (hreps : ∀ pr ∈ reps, ∀ c ∈ pr.2, Clean c) :
    ∀ s : List Char, resolves (reps.map Prod.fst) s = true → '\x7b' ∉ replaceAll reps s := by
  induction reps with
  | nil => intro s h; exact all_ne_brace h
  | cons pr rest ih =>
    intro s h
    have hrest : ∀ q ∈ rest, ∀ c ∈ q.2, Clean c := fun q hq => hreps q (List.mem_cons_of_mem _ hq)
    have hpr := hreps pr (List.mem_cons_self _ _)
    simp only [List.map_cons, resolves] at h
    show '\x7b' ∉ replaceAll rest (replaceFirst s pr.1 pr.2)
    cases hsplit : splitAtFirst pr.1 s with
    | none =>
      rw [hsplit] at h
      rw [replaceFirst_none _ hsplit]
      exact ih hrest s h
    | some p =>
      obtain ⟨pre, post⟩ := p
      rw [hsplit] at h
      have hb := all_ne_brace h
      apply replaceAll_noBrace rest hrest
      rw [replaceFirst_some hsplit hpr]
      intro hmem
      rcases List.mem_append.1 hmem with hm | hm
      · rcases List.mem_append.1 hm with hm | hm
        · exact hb (List.mem_append_left _ hm)
        · exact (hpr _ hm).1 rfl
      · exact hb (List.mem_append_right _ hm)

/-- Every one of the 40 templates is resolved by the six replacements. -/
theorem templates_resolve :
    ∀ p ∈ LOG_TEMPLATES, ∀ t ∈ p.2,
      resolves (PLACEHOLDERS.map String.data) t.message.data = true := by
  decide!

theorem digitChar_clean : ∀ d < 36, Clean (digitChar d) ∧ Clean (digitChar d).toUpper := by
  decide

theorem toDigitsAux_mem (base : Nat) (hb : 0 < base) :
    ∀ (fuel n : Nat) (acc : List Char) (c : Char), c ∈ toDigitsAux base fuel n acc →
      c ∈ acc ∨ ∃ d, d < base ∧ c = digitChar d := by
  intro fuel
  induction fuel with
  | zero => intro n acc c h; exact Or.inl h
  | succ f ih =>
    intro n acc c h
    unfold toDigitsAux at h
    have hstep : c ∈ digitChar (n % base) :: acc → c ∈ acc ∨ ∃ d, d < base ∧ c = digitChar d := by
      intro hm
      rcases List.mem_cons.1 hm with rfl | hm
      · exact Or.inr ⟨n % base, Nat.mod_lt _ hb, rfl⟩
      · exact Or.inl hm
    split_ifs at h
    · exact hstep h
    · rcases ih _ _ _ h with h1 | h1
      · exact hstep h1
      · exact Or.inr h1

theorem intToString_digit (base : Nat) (hb : 0 < base) (n : Nat) (c : Char)
    (h : c ∈ (intToString base n).data) : ∃ d, d < base ∧ c = digitChar d := by
  rcases toDigitsAux_mem base hb _ _ _ _ h with h | h
  · exact absurd h (List.not_mem_nil _)
  · exact h

theorem numToString_clean (n : Nat) : ∀ c ∈ (numToString n).data, Clean c := by
  intro c h
  obtain ⟨d, hd, rfl⟩ := intToString_digit 10 (by decide) n c h
  exact (digitChar_clean d (by omega)).1

theorem orderId_clean (now : Nat) :
    ∀ c ∈ ("ORD-" ++ toUpperCase (intToString 36 now)).data, Clean c := by
  intro c h
  rw [String.data_append] at h
  rcases List.mem_append.1 h with h1 | h1
  · exact (by decide : ∀ c ∈ "ORD-".data, Clean c) c h1
  · obtain ⟨x, hx, rfl⟩ := List.mem_map.1 h1
    obtain ⟨d, hd, rfl⟩ := intToString_digit 36 (by decide) now x hx
    exact (digitChar_clean d hd).2

theorem fractionToString36_clean (digits : List (Fin 36)) :
    ∀ c ∈ (fractionToString36 digits).data, Clean c := by
  intro c h
  unfold fractionToString36 at h
  split_ifs at h
  · exact (by decide : ∀ c ∈ "0".data, Clean c) c h
  · rcases List.mem_cons.1 h with rfl | h
    · decide
    · rcases List.mem_cons.1 h with rfl | h
      · decide
      · obtain ⟨d, _, rfl⟩ := List.mem_map.1 h
        exact (digitChar_clean d.val d.isLt).1

theorem txId_clean (digits : List (Fin 36)) :
    ∀ c ∈ ("txn_" ++ slice (fractionToString36 digits) 2 12).data, Clean c := by
  intro c h
  rw [String.data_append] at h
  rcases List.mem_append.1 h with h1 | h1
  · exact (by decide : ∀ c ∈ "txn_".data, Clean c) c h1
  · exact fractionToString36_clean digits c (List.mem_of_mem_drop (List.mem_of_mem_take h1))

theorem service_clean (r : RandomDraw) :
    ∀ c ∈ ((pickRandom ["user-service", "payment-service"] r).getD "undefined").data,
      Clean c := by
  cases h : pickRandom ["user-service", "payment-service"] r with
  | none => decide
  | some x =>
    have hx : x ∈ ["user-service", "payment-service"] := by
      unfold pickRandom at h
      exact List.getElem?_mem h
    simp only [List.mem_cons, List.mem_singleton, List.not_mem_nil, or_false] at hx
    rcases hx with rfl | rfl <;> decide

theorem ip_clean (n : Nat) : ∀ c ∈ ("192.168.1." ++ numToString n).data, Clean c := by
  intro c h
  rw [String.data_append] at h
  rcases List.mem_append.1 h with h1 | h1
  · exact (by decide : ∀ c ∈ "192.168.1.".data, Clean c) c h1
  · exact numToString_clean n c h1

theorem interpolate_data (msg : String) (d : GenDraws) :
    (interpolate msg d).data = replaceAll (replacements d) msg.data := rfl

theorem replacements_fst (d : GenDraws) :
    (replacements d).map Prod.fst = PLACEHOLDERS.map String.data := rfl

theorem replacements_clean (d : GenDraws) : ∀ pr ∈ replacements d, ∀ c ∈ pr.2, Clean c := by
  intro pr hpr
  simp only [replacements, List.mem_cons, List.mem_singleton, List.not_mem_nil, or_false] at hpr
  rcases hpr with rfl | rfl | rfl | rfl | rfl | rfl
  · exact numToString_clean _
  · exact orderId_clean _
  · exact txId_clean _
  · exact service_clean _
  · exact ip_clean _
  · exact numToString_clean _

/-- No opening brace is left in an interpolated template message. -/
theorem interpolate_template_noBrace (p : String × List LogTemplate) (hp : p ∈ LOG_TEMPLATES)
    (t : LogTemplate) (ht : t ∈ p.2) (d : GenDraws) :
    '\x7b' ∉ (interpolate t.message d).data := by
  rw [interpolate_data]
  apply replaceAll_resolves _ (replacements_clean d)
  rw [replacements_fst]
  exact templates_resolve p hp t ht

theorem lookup_services (service : String) (h : service ∈ SERVICES) :
    ∃ templates, LOG_TEMPLATES.lookup service = some templates ∧ templates.length = 8 ∧
      (service, templates) ∈ LOG_TEMPLATES := by
  simp only [SERVICES, List.mem_cons, List.mem_singleton, List.not_mem_nil, or_false] at h
  rcases h with h | h | h | h | h <;> subst h <;> refine ⟨_, rfl, rfl, ?_⟩ <;> decide

/-! ## The simulator state machine -/

theorem inv_init : Inv Sim.init := by
  constructor
  · intro h; exact absurd h (by decide)
  · intro _; exact ⟨rfl, rfl, rfl, rfl, rfl⟩

theorem startSimulator_running {s : Sim} (r : RandomDraw) (h : s.isRunning = true) :
    startSimulator s r = s := by
  unfold startSimulator; rw [if_pos h]

theorem stopSimulator_stopped {s : Sim} (h : s.isRunning = false) : stopSimulator s = s := by
  unfold stopSimulator; simp [h]

/-- The state `startSimulator` produces from a stopped state. -/
theorem startSimulator_stopped {s : Sim} (r : RandomDraw) (h : s.isRunning = false) :
    startSimulator s r =
      { s with
        isRunning := true
        tickInterval := some s.nextHandle
        nextIncidentSchedule := some (s.nextHandle + 1)
        timers := s.timers ++ [⟨s.nextHandle, Callback.tick, ofInt 1000, true⟩] ++
          [⟨s.nextHandle + 1, Callback.incidentStart, getNextIncidentDelay r, false⟩]
        nextHandle := s.nextHandle + 2 } := by
  unfold startSimulator scheduleNextIncident Sim.addTimer
  simp [h]

theorem inv_start {s : Sim} (r : RandomDraw) (hinv : Inv s) : Inv (startSimulator s r) := by
  cases hrun : s.isRunning with
  | true => rw [startSimulator_running r hrun]; exact hinv
  | false =>
    obtain ⟨ht, hact, _, _, _⟩ := hinv.2 hrun
    rw [startSimulator_stopped r hrun]
    constructor
    · intro _
      refine ⟨s.nextHandle, s.nextHandle + 1, ?_, ?_, ?_, rfl, Or.inl ⟨hact, rfl, r, ?_⟩⟩
      · show s.nextHandle < s.nextHandle + 2; omega
      · show s.nextHandle + 1 < s.nextHandle + 2; omega
      · omega
      · show s.timers ++ _ ++ _ = _
        rw [ht]; rfl
    · intro h; exact absurd h (by simp)

/-- In a state satisfying the invariant, `stopSimulator` leaves no timer and resets every
variable. -/
theorem stopSimulator_of_inv {s : Sim} (hinv : Inv s) :
    stopSimulator s =
      { tickInterval := none
        incidentTimeout := none
        nextIncidentSchedule := none
        isIncidentActive := false
        isRunning := false
        timers := []
        nextHandle := s.nextHandle } := by
  cases hrun : s.isRunning with
  | false =>
    obtain ⟨ht, hact, h1, h2, h3⟩ := hinv.2 hrun
    rw [stopSimulator_stopped hrun]
    obtain ⟨ti, it, ns, act, run, timers, nh⟩ := s
    simp only at ht hact h1 h2 h3 hrun
    subst ht hact h1 h2 h3 hrun
    rfl
  | true =>
    obtain ⟨hT, hI, _, _, hne, htick, hcase⟩ := hinv.1 hrun
    obtain ⟨ti, it, ns, act, run, timers, nh⟩ := s
    simp only at htick hcase hrun
    subst htick hrun
    have hne' : (hI == hT) = false := by simp; exact fun h => hne h.symm
    have hbne : (hI != hT) = true := by simp [bne, hne']
    rcases hcase with ⟨hact, hns, r, htimers⟩ | ⟨hact, hit, htimers⟩
    · subst hact hns htimers
      cases it <;> simp [stopSimulator, Sim.clearTimer, List.filter_cons, hne', hbne]
    · subst hact hit htimers
      cases ns <;> simp [stopSimulator, Sim.clearTimer, List.filter_cons, hne', hbne]

theorem inv_stop {s : Sim} (hinv : Inv s) : Inv (stopSimulator s) := by
  rw [stopSimulator_of_inv hinv]
  constructor
  · intro h; exact absurd h (by simp)
  · intro _; exact ⟨rfl, rfl, rfl, rfl, rfl⟩

theorem inv_fire {s : Sim} (handle : Nat) (r : RandomDraw) (hinv : Inv s) :
    Inv (fire s handle r) := by
  cases hrun : s.isRunning with
  | false =>
    obtain ⟨ht, _⟩ := hinv.2 hrun
    have : fire s handle r = s := by unfold fire; rw [ht]; rfl
    rw [this]; exact hinv
  | true =>
    obtain ⟨hT, hI, hTlt, hIlt, hne, htick, hcase⟩ := hinv.1 hrun
    obtain ⟨ti, it, ns, act, run, timers, nh⟩ := s
    simp only at htick hcase hrun hTlt hIlt
    subst htick hrun
    by_cases h1 : hT = handle
    · -- the tick interval fires
      have : fire ⟨some hT, it, ns, act, true, timers, nh⟩ handle r =
          ⟨some hT, it, ns, act, true, timers, nh⟩ := by
        rcases hcase with ⟨_, _, r', htimers⟩ | ⟨_, _, htimers⟩ <;>
          subst htimers <;> simp [fire, List.find?_cons, h1, runCallback]
      rw [this]; exact hinv
    · by_cases h2 : hI = handle
      · subst h2
        have hne' : (hT == hI) = false := by simp; exact hne
        rcases hcase with ⟨hact, hns, r', htimers⟩ | ⟨hact, hit, htimers⟩
        · subst hact hns htimers
          have : fire ⟨some hT, it, some hI, false, true,
                [⟨hT, Callback.tick, ofInt 1000, true⟩,
                 ⟨hI, Callback.incidentStart, getNextIncidentDelay r', false⟩], nh⟩ hI r =
              ⟨some hT, some nh, some hI, true, true,
                [⟨hT, Callback.tick, ofInt 1000, true⟩,
                 ⟨nh, Callback.incidentEnd, ofInt 30000, false⟩], nh + 1⟩ := by
            simp [fire, List.find?_cons, hne', runCallback, Sim.clearTimer, Sim.addTimer,
              List.filter_cons, hne]
          rw [this]
          constructor
          · intro _
            exact ⟨hT, nh, by show hT < nh + 1; omega, by show nh < nh + 1; omega,
              by omega, rfl, Or.inr ⟨rfl, rfl, rfl⟩⟩
          · intro h; exact absurd h (by simp)
        · subst hact hit htimers
          have : fire ⟨some hT, some hI, ns, true, true,
                [⟨hT, Callback.tick, ofInt 1000, true⟩,
                 ⟨hI, Callback.incidentEnd, ofInt 30000, false⟩], nh⟩ hI r =
              ⟨some hT, some hI, some nh, false, true,
                [⟨hT, Callback.tick, ofInt 1000, true⟩,
                 ⟨nh, Callback.incidentStart, getNextIncidentDelay r, false⟩], nh + 1⟩ := by
            simp [fire, List.find?_cons, hne', runCallback, Sim.clearTimer, Sim.addTimer,
              List.filter_cons, hne, scheduleNextIncident]
          rw [this]
          constructor
          · intro _
            exact ⟨hT, nh, by show hT < nh + 1; omega, by show nh < nh + 1; omega,
              by omega, rfl, Or.inl ⟨rfl, rfl, r, rfl⟩⟩
          · intro h; exact absurd h (by simp)
      · -- no timer has this handle
        have : fire ⟨some hT, it, ns, act, true, timers, nh⟩ handle r =
            ⟨some hT, it, ns, act, true, timers, nh⟩ := by
          rcases hcase with ⟨_, _, r', htimers⟩ | ⟨_, _, htimers⟩ <;>
            subst htimers <;> simp [fire, List.find?_cons, h1, h2]
        rw [this]; exact hinv

theorem inv_step {s : Sim} (e : Event) (hinv : Inv s) : Inv (step s e) := by
  cases e with
  | start r => exact inv_start r hinv
  | stop => exact inv_stop hinv
  | fire h r => exact inv_fire h r hinv

/-- Every reachable state satisfies the invariant. -/
theorem inv_of_reachable {s : Sim} (h : Reachable s) : Inv s := by
  induction h with
  | init => exact inv_init
  | step e _ ih => exact inv_step e ih

theorem reachable_run (es : List Event) : ∀ s, Reachable s → Reachable (run s es) := by
  induction es with
  | nil => intro s h; exact h
  | cons e rest ih => intro s h; exact ih _ (Reachable.step e h)

theorem getNextIncidentDelay_eq (r : RandomDraw) :
    getNextIncidentDelay r = jsAdd (ofInt 120000) (jsMul r.units 60000) := rfl

theorem getNextIncidentDelay_ge (r : RandomDraw) : ofInt 120000 ≤ getNextIncidentDelay r := by
  have h0 : roundDouble (ofInt 120000) = ofInt 120000 := by decide!
  rw [getNextIncidentDelay_eq, jsAdd]
  calc ofInt 120000 = roundDouble (ofInt 120000) := h0.symm
    _ ≤ roundDouble (ofInt 120000 + jsMul r.units 60000) :=
      roundDouble_mono (Nat.le_add_right _ _)

theorem getNextIncidentDelay_le (r : RandomDraw) : getNextIncidentDelay r ≤ ofInt 180000 := by
  have h1 : roundDouble (ofInt 120000 + jsMul (ONE - 2 ^ 1021) 60000) = ofInt 180000 := by
    decide!
  rw [getNextIncidentDelay_eq, jsAdd, ← h1]
  exact roundDouble_mono (Nat.add_le_add_left (jsMul_draw_le r 60000) _)

theorem stopSimulator_isRunning (s : Sim) : (stopSimulator s).isRunning = false := by
  unfold stopSimulator
  cases h : s.isRunning with
  | false => simp [h]
  | true =>
    simp only [Bool.not_true, Bool.false_eq_true, if_false]
    cases s.tickInterval <;> cases s.incidentTimeout <;> cases s.nextIncidentSchedule <;> rfl

/-! ## The claims about the log event generator -/

theorem createLog_incident_eq (service : String) (d : GenDraws) :
    createLog service true d = some
      { timestamp := d.timestamp
        level := "error"
        service := service
        message := "DB connection timeout - max pool size reached"
        traceId := d.traceId
        duration := mathFloor (jsMul d.duration.units 500)
        archived := false } := rfl

/-- C1 (as the code has it): for every service name and every environment,
`createLog(service, true)` returns a record with level `"error"` and the fixed message
`"DB connection timeout - max pool size reached"`, written with an ASCII hyphen; the record
does not depend on the templates of the service, which are not consulted. -/
theorem createLog_incident (service : String) (d : GenDraws) :
    ∃ rec, createLog service true d = some rec ∧
      rec.level = "error" ∧
      rec.message = "DB connection timeout - max pool size reached" ∧
      rec.service = service ∧
      rec.duration = mathFloor (jsMul d.duration.units 500) ∧
      rec.archived = false :=
  ⟨_, createLog_incident_eq service d, rfl, rfl, rfl, rfl, rfl⟩

/-- C1 as stated fails: the message of an incident record is not the text with an em dash,
`"DB connection timeout — max pool size reached"`. -/
theorem createLog_incident_message_not_em_dash :
    ∃ rec, createLog "payment-service" true sampleDraws = some rec ∧ rec.level = "error" ∧
      rec.message ≠ "DB connection timeout — max pool size reached" :=
  ⟨_, rfl, rfl, by decide⟩

theorem createLog_normal_eq {service : String} {d : GenDraws} {templates : List LogTemplate}
    {t : LogTemplate} (hl : LOG_TEMPLATES.lookup service = some templates)
    (hp : pickRandom templates d.template = some t) :
    createLog service false d = some
      { timestamp := d.timestamp
        level := t.level
        service := service
        message := interpolate t.message d
        traceId := d.traceId
        duration := mathFloor (jsMul d.duration.units 500)
        archived := false } := by
  simp only [createLog, hl, hp]
  rfl

/-- C2: for each of the five service names and `isIncident = false`, whatever the environment
yields, `createLog` returns a record whose level is the level of one of the service's
templates and whose message contains no opening brace; `interpolate` leaves no opening brace
in any of the service's eight templates (forty over the five services). -/
theorem createLog_normal_level_and_message (service : String) (hs : service ∈ SERVICES)
    (d : GenDraws) :
    ∃ templates rec,
      LOG_TEMPLATES.lookup service = some templates ∧
      templates.length = 8 ∧
      createLog service false d = some rec ∧
      (∃ t ∈ templates, rec.level = t.level) ∧
      '\x7b' ∉ rec.message.data ∧
      ∀ t ∈ templates, ∀ d' : GenDraws, '\x7b' ∉ (interpolate t.message d').data := by
  obtain ⟨templates, hlookup, hlen, hmem⟩ := lookup_services service hs
  obtain ⟨t, ht, hpick⟩ := pickRandom_some templates d.template (by rw [hlen]; exact jsMul_max_8)
  refine ⟨templates, _, hlookup, hlen, createLog_normal_eq hlookup hpick, ⟨t, ht, rfl⟩, ?_, ?_⟩
  · exact interpolate_template_noBrace _ hmem t ht d
  · intro t' ht' d'
    exact interpolate_template_noBrace _ hmem t' ht' d'

/-- C2 at `api-gateway` with the sample environment. -/
theorem createLog_normal_level_and_message_witness :
    "api-gateway" ∈ SERVICES ∧
    ∃ templates rec,
      LOG_TEMPLATES.lookup "api-gateway" = some templates ∧
      templates.length = 8 ∧
      createLog "api-gateway" false sampleDraws = some rec ∧
      (∃ t ∈ templates, rec.level = t.level) ∧
      '\x7b' ∉ rec.message.data ∧
      ∀ t ∈ templates, ∀ d' : GenDraws, '\x7b' ∉ (interpolate t.message d').data :=
  ⟨by decide, createLog_normal_level_and_message "api-gateway" (by decide) sampleDraws⟩

/-- C3: for every `Math.random()` result and both values of `isIncident`, the `duration` of
the record returned by `createLog` is `Math.floor(r * 500)` and lies between 0 and 499. -/
theorem createLog_duration_range (service : String) (isIncident : Bool) (d : GenDraws)
    (rec : LogRecord) (h : createLog service isIncident d = some rec) :
    rec.duration = mathFloor (jsMul d.duration.units 500) ∧ 0 ≤ rec.duration ∧
      rec.duration ≤ 499 := by
  have hlt : mathFloor (jsMul d.duration.units 500) < 500 :=
    mathFloor_jsMul_lt d.duration 500 jsMul_max_500
  have hdur : rec.duration = mathFloor (jsMul d.duration.units 500) := by
    cases isIncident with
    | true =>
      rw [createLog_incident_eq, Option.some.injEq] at h
      rw [← h]
    | false =>
      cases hl : LOG_TEMPLATES.lookup service with
      | none => simp [createLog, hl] at h
      | some templates =>
        cases hp : pickRandom templates d.template with
        | none => simp [createLog, hl, hp] at h
        | some t =>
          rw [createLog_normal_eq hl hp, Option.some.injEq] at h
          rw [← h]
  exact ⟨hdur, Nat.zero_le _, by omega⟩

/-- C3 at an incident record and at a normal record, with the largest possible draw. -/
theorem createLog_duration_range_witness :
    (∃ rec, createLog "payment-service" true { sampleDraws with duration := maxDraw } = some rec ∧
      rec.duration = 499) ∧
    (∃ rec, createLog "user-service" false { sampleDraws with duration := maxDraw } = some rec ∧
      rec.duration ≤ 499) :=
  ⟨⟨_, rfl, by decide!⟩,
   ⟨_, rfl, (createLog_duration_range "user-service" false
      { sampleDraws with duration := maxDraw } _ rfl).2.2⟩⟩

/-- C4: for every service in `SERVICES` and every `Math.random()` result,
`createLog(service, false)` returns a record: the service has a non-empty template list, the
index `Math.floor(r * length)` of `pickRandom` is within the list, and a template of the list
is selected. -/
theorem createLog_total_on_services (service : String) (hs : service ∈ SERVICES)
    (d : GenDraws) :
    ∃ templates template rec,
      LOG_TEMPLATES.lookup service = some templates ∧
      templates ≠ [] ∧
      mathFloor (jsMul d.template.units templates.length) < templates.length ∧
      pickRandom templates d.template = some template ∧
      template ∈ templates ∧
      createLog service false d = some rec := by
  obtain ⟨templates, hlookup, hlen, _⟩ := lookup_services service hs
  have hk : jsMul (ONE - 2 ^ 1021) templates.length < ofInt templates.length := by
    rw [hlen]; exact jsMul_max_8
  obtain ⟨t, ht, hpick⟩ := pickRandom_some templates d.template hk
  refine ⟨templates, t, _, hlookup, ?_, mathFloor_jsMul_lt d.template _ hk, hpick, ht,
    createLog_normal_eq hlookup hpick⟩
  intro hnil; rw [hnil] at hlen; exact absurd hlen (by decide)

/-- C4 at `notification-service` with the largest possible draw for the template choice. -/
theorem createLog_total_on_services_witness :
    "notification-service" ∈ SERVICES ∧
    ∃ templates template rec,
      LOG_TEMPLATES.lookup "notification-service" = some templates ∧
      templates ≠ [] ∧
      mathFloor (jsMul maxDraw.units templates.length) < templates.length ∧
      pickRandom templates maxDraw = some template ∧
      template ∈ templates ∧
      createLog "notification-service" false { sampleDraws with template := maxDraw } =
        some rec :=
  ⟨by decide, createLog_total_on_services "notification-service" (by decide)
    { sampleDraws with template := maxDraw }⟩

/-! ## The claims about the scheduler and the control surface -/

/-- C5: in every state reachable by `startSimulator`, `stopSimulator` and timer firings, at
most one interval is registered and at most one timeout is pending (so never both the
incident-start delay and the incident-end delay); the interval is the tick and the timeout
belongs to the incident chain; when `isRunning` is false no timer is registered. -/
theorem reachable_timers_at_most_one (s : Sim) (h : Reachable s) :
    (s.timers.countP fun t => t.repeats) ≤ 1 ∧
    (s.timers.countP fun t => !t.repeats) ≤ 1 ∧
    (s.timers.countP fun t => t.callback == Callback.tick) ≤ 1 ∧
    (s.timers.countP fun t =>
      t.callback == Callback.incidentStart || t.callback == Callback.incidentEnd) ≤ 1 ∧
    (∀ t ∈ s.timers, t.repeats = true ↔ t.callback = Callback.tick) ∧
    (s.isRunning = false → s.timers = []) := by
  have hinv := inv_of_reachable h
  cases hrun : s.isRunning with
  | false =>
    obtain ⟨ht, _⟩ := hinv.2 hrun
    rw [ht]
    simp
  | true =>
    obtain ⟨hT, hI, _, _, _, _, hcase⟩ := hinv.1 hrun
    rcases hcase with ⟨_, _, r, ht⟩ | ⟨_, _, ht⟩ <;> rw [ht] <;> simp [List.countP_cons]

/-- C5 in a state with an incident in progress. -/
theorem reachable_timers_at_most_one_witness :
    (activeState.timers.countP fun t => t.repeats) ≤ 1 ∧
    (activeState.timers.countP fun t => !t.repeats) ≤ 1 ∧
    (activeState.timers.countP fun t => t.callback == Callback.tick) ≤ 1 ∧
    (activeState.timers.countP fun t =>
      t.callback == Callback.incidentStart || t.callback == Callback.incidentEnd) ≤ 1 ∧
    (∀ t ∈ activeState.timers, t.repeats = true ↔ t.callback = Callback.tick) ∧
    (activeState.isRunning = false → activeState.timers = []) :=
  reachable_timers_at_most_one activeState (reachable_run _ _ Reachable.init)

/-- C6: in every reachable state an active incident implies a running simulator; the incident
flag is false in the initial state and in the state right after every `stopSimulator` call. -/
theorem reachable_incident_implies_running (s : Sim) (h : Reachable s) :
    (s.isIncidentActive = true → s.isRunning = true) ∧
    Sim.init.isIncidentActive = false ∧
    (stopSimulator s).isIncidentActive = false := by
  have hinv := inv_of_reachable h
  refine ⟨?_, rfl, ?_⟩
  · intro hact
    cases hrun : s.isRunning with
    | true => rfl
    | false =>
      obtain ⟨_, hfalse, _⟩ := hinv.2 hrun
      rw [hfalse] at hact
      exact absurd hact (by decide)
  · rw [stopSimulator_of_inv hinv]

/-- C6 in a state with an incident in progress. -/
theorem reachable_incident_implies_running_witness :
    activeState.isIncidentActive = true ∧
    (activeState.isIncidentActive = true → activeState.isRunning = true) ∧
    Sim.init.isIncidentActive = false ∧
    (stopSimulator activeState).isIncidentActive = false :=
  ⟨rfl, reachable_incident_implies_running activeState (reachable_run _ _ Reachable.init)⟩

/-- C7: a reachable running state has two registered timers (the tick interval and one
incident timeout), and `stopSimulator` in it yields `isRunning = false`,
`isIncidentActive = false`, all three handle variables `null` and no registered timer, so
that no timer firing changes the state afterwards. -/
theorem stopSimulator_cancels_everything (s : Sim) (h : Reachable s)
    (hrun : s.isRunning = true) :
    s.timers.length = 2 ∧
    (stopSimulator s).isRunning = false ∧
    (stopSimulator s).isIncidentActive = false ∧
    (stopSimulator s).tickInterval = none ∧
    (stopSimulator s).incidentTimeout = none ∧
    (stopSimulator s).nextIncidentSchedule = none ∧
    (stopSimulator s).timers = [] ∧
    ∀ handle r, fire (stopSimulator s) handle r = stopSimulator s := by
  have hs := stopSimulator_of_inv (inv_of_reachable h)
  have hlen : s.timers.length = 2 := by
    obtain ⟨hT, hI, _, _, _, _, hcase⟩ := (inv_of_reachable h).1 hrun
    rcases hcase with ⟨_, _, r, ht⟩ | ⟨_, _, ht⟩ <;> rw [ht] <;> rfl
  refine ⟨hlen, ?_, ?_, ?_, ?_, ?_, ?_, ?_⟩ <;> rw [hs]
  intro handle r
  rfl

/-- C7 in a state with an incident in progress and in an idle state after an incident. -/
theorem stopSimulator_cancels_everything_witness :
    (activeState.isRunning = true ∧ activeState.isIncidentActive = true ∧
      (stopSimulator activeState).timers = []) ∧
    (idleState.isRunning = true ∧ idleState.isIncidentActive = false ∧
      (stopSimulator idleState).incidentTimeout = none) :=
  ⟨⟨rfl, rfl, (stopSimulator_cancels_everything activeState
      (reachable_run _ _ Reachable.init) rfl).2.2.2.2.2.2.1⟩,
   ⟨rfl, rfl, (stopSimulator_cancels_everything idleState
      (reachable_run _ _ Reachable.init) rfl).2.2.2.2.1⟩⟩

/-- C8 (as the code has it): `startSimulator` in a reachable stopped state yields
`isRunning = true`, `isIncidentActive = false`, and exactly two timers: the tick interval with
period 1000 ms and one incident-start timeout whose delay lies between 120000 ms and 180000 ms,
both ends included; no incident-end timeout is pending. -/
theorem startSimulator_from_stopped (s : Sim) (h : Reachable s) (hstop : s.isRunning = false)
    (r : RandomDraw) :
    (startSimulator s r).isRunning = true ∧
    (startSimulator s r).isIncidentActive = false ∧
    (startSimulator s r).tickInterval = some s.nextHandle ∧
    (startSimulator s r).nextIncidentSchedule = some (s.nextHandle + 1) ∧
    (startSimulator s r).timers =
      [⟨s.nextHandle, Callback.tick, ofInt 1000, true⟩,
       ⟨s.nextHandle + 1, Callback.incidentStart, getNextIncidentDelay r, false⟩] ∧
    ofInt 120000 ≤ getNextIncidentDelay r ∧ getNextIncidentDelay r ≤ ofInt 180000 := by
  obtain ⟨ht, hact, _, _, _⟩ := (inv_of_reachable h).2 hstop
  rw [startSimulator_stopped r hstop]
  refine ⟨rfl, hact, rfl, rfl, ?_, getNextIncidentDelay_ge r, getNextIncidentDelay_le r⟩
  show s.timers ++ _ ++ _ = _
  rw [ht]; rfl

/-- C8 (amended) at the initial state. -/
theorem startSimulator_from_stopped_witness :
    Sim.init.isRunning = false ∧
    (startSimulator Sim.init halfDraw).isRunning = true ∧
    (startSimulator Sim.init halfDraw).isIncidentActive = false ∧
    (startSimulator Sim.init halfDraw).tickInterval = some 1 ∧
    (startSimulator Sim.init halfDraw).nextIncidentSchedule = some 2 ∧
    (startSimulator Sim.init halfDraw).timers =
      [⟨1, Callback.tick, ofInt 1000, true⟩,
       ⟨2, Callback.incidentStart, getNextIncidentDelay halfDraw, false⟩] ∧
    ofInt 120000 ≤ getNextIncidentDelay halfDraw ∧
    getNextIncidentDelay halfDraw ≤ ofInt 180000 :=
  ⟨rfl, startSimulator_from_stopped Sim.init Reachable.init rfl halfDraw⟩

/-- C8 as stated fails: started from the initial state with the `Math.random()` result
`1 - 2^-53`, the incident-start timeout has the delay `180000`, which is not below 180000:
`(1 - 2^-53) * 60000` rounds to `60000 - 2^-37` and `120000 + (60000 - 2^-37)` rounds to
`180000`.  The result `1 - 2^-52` gives the delay `180000` as well. -/
theorem startSimulator_delay_reaches_180000 :
    Sim.init.isRunning = false ∧
    (∃ t ∈ (startSimulator Sim.init maxDraw).timers,
      t.callback = Callback.incidentStart ∧ t.delay = ofInt 180000 ∧
        ¬ t.delay < ofInt 180000) ∧
    (∃ t ∈ (startSimulator Sim.init nearOneDraw).timers,
      t.callback = Callback.incidentStart ∧ t.delay = ofInt 180000 ∧
        ¬ t.delay < ofInt 180000) := by
  refine ⟨rfl,
    ⟨⟨2, Callback.incidentStart, getNextIncidentDelay maxDraw, false⟩, ?_, rfl, ?_, ?_⟩,
    ⟨⟨2, Callback.incidentStart, getNextIncidentDelay nearOneDraw, false⟩, ?_, rfl, ?_, ?_⟩⟩
  · rw [startSimulator_stopped maxDraw rfl]
    simp [Sim.init]
  · decide!
  · decide!
  · rw [startSimulator_stopped nearOneDraw rfl]
    simp [Sim.init]
  · decide!
  · decide!

/-- C9: redundant control calls change nothing: `startSimulator` while running and
`stopSimulator` while stopped return the state unchanged, variables and registered timers
alike; hence starting twice equals starting once and stopping twice equals stopping once. -/
theorem redundant_control_calls_noop (s : Sim) (r1 r2 : RandomDraw) :
    (s.isRunning = true → startSimulator s r1 = s) ∧
    (s.isRunning = false → stopSimulator s = s) ∧
    startSimulator (startSimulator s r1) r2 = startSimulator s r1 ∧
    stopSimulator (stopSimulator s) = stopSimulator s := by
  refine ⟨startSimulator_running r1, stopSimulator_stopped, ?_, ?_⟩
  · cases hrun : s.isRunning with
    | true => rw [startSimulator_running r1 hrun, startSimulator_running r2 hrun]
    | false =>
      apply startSimulator_running
      rw [startSimulator_stopped r1 hrun]
  · exact stopSimulator_stopped (stopSimulator_isRunning s)

/-- C9 at the initial state and at a state with an incident in progress. -/
theorem redundant_control_calls_noop_witness :
    stopSimulator Sim.init = Sim.init ∧
    startSimulator activeState maxDraw = activeState ∧
    startSimulator (startSimulator Sim.init halfDraw) maxDraw =
      startSimulator Sim.init halfDraw ∧
    stopSimulator (stopSimulator activeState) = stopSimulator activeState :=
  ⟨(redundant_control_calls_noop Sim.init halfDraw maxDraw).2.1 rfl,
   (redundant_control_calls_noop activeState maxDraw maxDraw).1 rfl,
   (redundant_control_calls_noop Sim.init halfDraw maxDraw).2.2.1,
   (redundant_control_calls_noop activeState halfDraw maxDraw).2.2.2⟩

/-- C10: for every reachable running state, `stopSimulator` immediately followed by
`startSimulator` leaves exactly one tick interval and exactly one pending incident-start
delay, both under fresh handles, and no timer of the previous run; apart from the handles the
registered timers are those of a start from the initial state with the same draw. -/
theorem stop_then_start_fresh_timers (s : Sim) (h : Reachable s) (hrun : s.isRunning = true)
    (r : RandomDraw) :
    (startSimulator (stopSimulator s) r).isRunning = true ∧
    (startSimulator (stopSimulator s) r).timers =
      [⟨s.nextHandle, Callback.tick, ofInt 1000, true⟩,
       ⟨s.nextHandle + 1, Callback.incidentStart, getNextIncidentDelay r, false⟩] ∧
    (∀ t ∈ (startSimulator (stopSimulator s) r).timers, t ∉ s.timers) ∧
    (∀ t ∈ (startSimulator (stopSimulator s) r).timers,
      ∀ t' ∈ s.timers, t.handle ≠ t'.handle) ∧
    (startSimulator (stopSimulator s) r).timers.map Timer.config =
      (startSimulator Sim.init r).timers.map Timer.config := by
  have hinv := inv_of_reachable h
  have hfresh : ∀ t' ∈ s.timers, t'.handle < s.nextHandle := by
    obtain ⟨hT, hI, hTlt, hIlt, _, _, hcase⟩ := hinv.1 hrun
    intro t' ht'
    rcases hcase with ⟨_, _, r', ht⟩ | ⟨_, _, ht⟩ <;> rw [ht] at ht' <;>
      simp only [List.mem_cons, List.mem_singleton, List.not_mem_nil, or_false] at ht' <;>
      rcases ht' with rfl | rfl <;> assumption
  have htimers : (startSimulator (stopSimulator s) r).timers =
      [⟨s.nextHandle, Callback.tick, ofInt 1000, true⟩,
       ⟨s.nextHandle + 1, Callback.incidentStart, getNextIncidentDelay r, false⟩] := by
    rw [stopSimulator_of_inv hinv, startSimulator_stopped r rfl]
    rfl
  have hne : ∀ t ∈ (startSimulator (stopSimulator s) r).timers,
      ∀ t' ∈ s.timers, t.handle ≠ t'.handle := by
    intro t ht t' ht'
    have hlt := hfresh t' ht'
    rw [htimers] at ht
    simp only [List.mem_cons, List.mem_singleton, List.not_mem_nil, or_false] at ht
    rcases ht with rfl | rfl <;> simp only <;> omega
  refine ⟨?_, htimers, ?_, hne, ?_⟩
  · rw [stopSimulator_of_inv hinv, startSimulator_stopped r rfl]
  · intro t ht ht'
    exact hne t ht t ht' rfl
  · rw [htimers, startSimulator_stopped r rfl]
    rfl

/-- C10 in a state with an incident in progress. -/
theorem stop_then_start_fresh_timers_witness :
    activeState.isRunning = true ∧
    activeState.timers =
      [⟨1, Callback.tick, ofInt 1000, true⟩,
       ⟨3, Callback.incidentEnd, ofInt 30000, false⟩] ∧
    (startSimulator (stopSimulator activeState) maxDraw).timers =
      [⟨4, Callback.tick, ofInt 1000, true⟩,
       ⟨5, Callback.incidentStart, getNextIncidentDelay maxDraw, false⟩] :=
  ⟨rfl, rfl, (stop_then_start_fresh_timers activeState (reachable_run _ _ Reachable.init) rfl
    maxDraw).2.1⟩

/-! ## The claims about status, delay and tick -/

theorem startSimulator_isRunning (s : Sim) (r : RandomDraw) :
    (startSimulator s r).isRunning = true := by
  cases hrun : s.isRunning with
  | true => rw [startSimulator_running r hrun]; exact hrun
  | false => rw [startSimulator_stopped r hrun]

/-- C11: `getSimulatorStatus` returns the object with `enabled` equal to `isRunning` and leaves
the simulator state as it is; `enabled` is false in the initial state, true right after
`startSimulator` and false right after `stopSimulator`. -/
theorem getSimulatorStatus_reflects_isRunning (s : Sim) (r : RandomDraw) :
    (getSimulatorStatus s).1 = { enabled := s.isRunning } ∧
    (getSimulatorStatus s).2 = s ∧
    (getSimulatorStatus Sim.init).1.enabled = false ∧
    (getSimulatorStatus (startSimulator s r)).1.enabled = true ∧
    (getSimulatorStatus (stopSimulator s)).1.enabled = false :=
  ⟨rfl, rfl, rfl, startSimulator_isRunning s r, stopSimulator_isRunning s⟩

theorem scheduleNextIncident_timers (s : Sim) (r : RandomDraw) :
    (scheduleNextIncident s r).timers =
      s.timers ++ [⟨s.nextHandle, Callback.incidentStart, getNextIncidentDelay r, false⟩] ∧
    (scheduleNextIncident s r).nextIncidentSchedule = some s.nextHandle := ⟨rfl, rfl⟩

/-- C12 (as the code has it): for every `Math.random()` result `r`,
`getNextIncidentDelay()` is the binary64 value of `120000 + r * 60000` and lies between 120000
and 180000, both ends included; it is the delay of the timeout that `scheduleNextIncident`
registers, and of every pending incident-start timeout of a reachable state. -/
theorem getNextIncidentDelay_range (r : RandomDraw) :
    getNextIncidentDelay r = jsAdd (ofInt 120000) (jsMul r.units 60000) ∧
    ofInt 120000 ≤ getNextIncidentDelay r ∧
    getNextIncidentDelay r ≤ ofInt 180000 ∧
    (∀ s : Sim, (scheduleNextIncident s r).timers =
      s.timers ++ [⟨s.nextHandle, Callback.incidentStart, getNextIncidentDelay r, false⟩]) ∧
    (∀ s : Sim, Reachable s → ∀ t ∈ s.timers, t.callback = Callback.incidentStart →
      ∃ r' : RandomDraw, t.delay = getNextIncidentDelay r' ∧
        ofInt 120000 ≤ t.delay ∧ t.delay ≤ ofInt 180000) := by
  refine ⟨rfl, getNextIncidentDelay_ge r, getNextIncidentDelay_le r,
    fun s => (scheduleNextIncident_timers s r).1, ?_⟩
  intro s hs t ht hcb
  have hinv := inv_of_reachable hs
  cases hrun : s.isRunning with
  | false =>
    rw [(hinv.2 hrun).1] at ht
    exact absurd ht (List.not_mem_nil _)
  | true =>
    obtain ⟨hT, hI, _, _, _, _, hcase⟩ := hinv.1 hrun
    rcases hcase with ⟨_, _, r', htimers⟩ | ⟨_, _, htimers⟩ <;> rw [htimers] at ht <;>
      simp only [List.mem_cons, List.mem_singleton, List.not_mem_nil, or_false] at ht <;>
      rcases ht with rfl | rfl
    · exact absurd hcb (by simp)
    · exact ⟨r', rfl, getNextIncidentDelay_ge r', getNextIncidentDelay_le r'⟩
    · exact absurd hcb (by simp)
    · exact absurd hcb (by simp)

/-- C12 (amended) at the draw `0.5` and at the pending start delay of a state reached after
one whole incident. -/
theorem getNextIncidentDelay_range_witness :
    getNextIncidentDelay halfDraw = ofInt 150000 ∧
    ofInt 120000 ≤ getNextIncidentDelay halfDraw ∧
    getNextIncidentDelay halfDraw ≤ ofInt 180000 ∧
    (∀ t ∈ idleState.timers, t.callback = Callback.incidentStart →
      ∃ r' : RandomDraw, t.delay = getNextIncidentDelay r' ∧
        ofInt 120000 ≤ t.delay ∧ t.delay ≤ ofInt 180000) :=
  ⟨by decide!, (getNextIncidentDelay_range halfDraw).2.1,
   (getNextIncidentDelay_range halfDraw).2.2.1,
   (getNextIncidentDelay_range halfDraw).2.2.2.2 idleState (reachable_run _ _ Reachable.init)⟩

/-- C12 as stated fails: for the `Math.random()` results `1 - 2^-53` and `1 - 2^-52` the
product with 60000 rounds to `60000 - 2^-37` and `60000 - 2^-36`, and the sum with 120000
rounds to `180000`, so the delay is not below 180000. -/
theorem getNextIncidentDelay_not_below_180000 :
    jsMul maxDraw.units 60000 = ofInt 60000 - 2 ^ 1037 ∧
    getNextIncidentDelay maxDraw = ofInt 180000 ∧
    ¬ getNextIncidentDelay maxDraw < ofInt 180000 ∧
    jsMul nearOneDraw.units 60000 = ofInt 60000 - 2 ^ 1038 ∧
    getNextIncidentDelay nearOneDraw = ofInt 180000 ∧
    ¬ getNextIncidentDelay nearOneDraw < ofInt 180000 := by
  refine ⟨?_, ?_, ?_, ?_, ?_, ?_⟩ <;> decide!

/-- C14: for every value of the incident flag, the `sendLogs` calls that `tick` makes are
exactly the five of `tickCalls`, each with the environment values and the bulk outcome of its
service: one call per service of `SERVICES`, in order; the call is
`sendLogs(service, 25, true)` if and only if the service is `payment-service` and the flag is
true, and `sendLogs(service, 5, false)` otherwise; the calls for the four other services are
the same for both values of the flag. -/
theorem tick_calls_per_service (isPaymentIncident : Bool) :
    (∀ (draws : String → Nat → GenDraws) (outcomes : String → BulkOutcome),
      (tick isPaymentIncident draws outcomes).calls =
        (tickCalls isPaymentIncident).map fun c =>
          sendLogs c.service c.count c.isIncident (draws c.service) (outcomes c.service)) ∧
    (tickCalls isPaymentIncident).length = 5 ∧
    (tickCalls isPaymentIncident).map (fun c => c.service) = SERVICES ∧
    (∀ c ∈ tickCalls isPaymentIncident,
      (c = ⟨c.service, 25, true⟩ ↔
        (c.service = "payment-service" ∧ isPaymentIncident = true)) ∧
      (¬ (c.service = "payment-service" ∧ isPaymentIncident = true) →
        c = ⟨c.service, 5, false⟩)) ∧
    (∀ service, service ≠ "payment-service" →
      (tickCalls true).filter (fun c => c.service == service) =
        (tickCalls false).filter (fun c => c.service == service)) ∧
    (∀ service ∈ SERVICES, service ≠ "payment-service" →
      (tickCalls isPaymentIncident).filter (fun c => c.service == service) =
        [⟨service, 5, false⟩]) := by
  refine ⟨?_, ?_, ?_, ?_, ?_, ?_⟩
  · intro draws outcomes
    cases isPaymentIncident <;> rfl
  · cases isPaymentIncident <;> rfl
  · cases isPaymentIncident <;> decide
  · cases isPaymentIncident <;> decide
  · intro service hne
    have h : (service == "payment-service") = false := by simpa using hne
    have h' : ("payment-service" == service) = false := by
      simpa using fun h : "payment-service" = service => hne h.symm
    simp [tickCalls, tickWith, SERVICES, List.filter_cons, h']
  · intro service hs hne
    simp only [SERVICES, List.mem_cons, List.mem_singleton, List.not_mem_nil, or_false] at hs
    rcases hs with rfl | rfl | rfl | rfl | rfl <;> cases isPaymentIncident <;>
      first | exact absurd rfl hne | decide

/-! ## The claims about batch submission -/

theorem createLog_isSome (service : String) (isIncident : Bool) (d : GenDraws)
    (h : service ∈ SERVICES ∨ isIncident = true) :
    ∃ record, createLog service isIncident d = some record := by
  cases isIncident with
  | true => exact ⟨_, createLog_incident_eq service d⟩
  | false =>
    have hs : service ∈ SERVICES := h.resolve_right (by decide)
    obtain ⟨templates, hlookup, hlen, _⟩ := lookup_services service hs
    obtain ⟨t, _, hpick⟩ :=
      pickRandom_some templates d.template (by rw [hlen]; exact jsMul_max_8)
    exact ⟨_, createLog_normal_eq hlookup hpick⟩

theorem buildBulk_isSome (service : String) (isIncident : Bool) (draws : Nat → GenDraws)
    (h : service ∈ SERVICES ∨ isIncident = true) :
    ∀ count, ∃ bulk, buildBulk service isIncident draws count = some bulk ∧
      bulk.length = 2 * count := by
  intro count
  induction count with
  | zero => exact ⟨[], rfl, rfl⟩
  | succ n ih =>
    obtain ⟨bulk, hb, hlen⟩ := ih
    obtain ⟨record, hrec⟩ := createLog_isSome service isIncident (draws n) h
    refine ⟨bulk ++ [BulkOp.index INDEX_NAME, BulkOp.document record], ?_, ?_⟩
    · simp only [buildBulk, hb, hrec]
    · simp [hlen]; omega

theorem sendLogs_submitted (service : String) (count : Nat) (isIncident : Bool)
    (draws : Nat → GenDraws) (outcome : BulkOutcome) :
    (sendLogs service count isIncident draws outcome).submitted =
      (buildBulk service isIncident draws count).map fun bulk => ⟨false, bulk⟩ := by
  unfold sendLogs
  cases buildBulk service isIncident draws count with
  | none => rfl
  | some bulk =>
    cases outcome with
    | rejected message => rfl
    | resolved result =>
      simp only
      split_ifs <;> rfl

theorem sendLogs_settled (service : String) (count : Nat) (isIncident : Bool)
    (draws : Nat → GenDraws) (outcome : BulkOutcome)
    (h : service ∈ SERVICES ∨ isIncident = true) :
    (sendLogs service count isIncident draws outcome).settled = Settled.fulfilled := by
  obtain ⟨bulk, hb, _⟩ := buildBulk_isSome service isIncident draws h count
  unfold sendLogs
  rw [hb]
  cases outcome with
  | rejected message => rfl
  | resolved result =>
    simp only
    split_ifs <;> rfl

/-- C15: `sendLogs`, called for a service of `SERVICES` (or with `isIncident = true`), always
resolves: when the bulk call rejects with an error, and when it resolves with any `errors` flag
and any or no `items` array; its bulk request with `2 * count` operations is handed to the
client whatever the outcome.  Consequently `tick` never rejects, all five submissions are made,
and the submissions do not depend on how any of the bulk calls settles. -/
theorem sendLogs_never_fails (service : String) (count : Nat) (isIncident : Bool)
    (draws : Nat → GenDraws) (outcome : BulkOutcome)
    (h : service ∈ SERVICES ∨ isIncident = true) :
    (sendLogs service count isIncident draws outcome).settled = Settled.fulfilled ∧
    (∃ bulk, (sendLogs service count isIncident draws outcome).submitted =
        some { refresh := false, operations := bulk } ∧ bulk.length = 2 * count) ∧
    (∀ (isPaymentIncident : Bool) (allDraws : String → Nat → GenDraws)
        (outcomes : String → BulkOutcome),
      (tick isPaymentIncident allDraws outcomes).settled = Settled.fulfilled ∧
      (tick isPaymentIncident allDraws outcomes).calls.length = 5 ∧
      (∀ c ∈ (tick isPaymentIncident allDraws outcomes).calls,
        c.settled = Settled.fulfilled ∧ c.submitted.isSome = true) ∧
      (∀ outcomes' : String → BulkOutcome,
        (tick isPaymentIncident allDraws outcomes').calls.map (fun c => c.submitted) =
          (tick isPaymentIncident allDraws outcomes).calls.map (fun c => c.submitted))) := by
  refine ⟨sendLogs_settled service count isIncident draws outcome h, ?_, ?_⟩
  · obtain ⟨bulk, hb, hlen⟩ := buildBulk_isSome service isIncident draws h count
    exact ⟨bulk, by rw [sendLogs_submitted, hb]; rfl, hlen⟩
  · intro flag allDraws outcomes
    have hset : ∀ svc ∈ SERVICES, ∀ (n : Nat) (b : Bool) (o : BulkOutcome),
        (sendLogs svc n b (allDraws svc) o).settled = Settled.fulfilled :=
      fun svc hs n b o => sendLogs_settled svc n b (allDraws svc) o (Or.inl hs)
    have hsub : ∀ svc ∈ SERVICES, ∀ (n : Nat) (b : Bool) (o : BulkOutcome),
        (sendLogs svc n b (allDraws svc) o).submitted.isSome = true := by
      intro svc hs n b o
      obtain ⟨bulk, hb, _⟩ := buildBulk_isSome svc b (allDraws svc) (Or.inl hs) n
      rw [sendLogs_submitted, hb]; rfl
    have h1 := hset "auth-service" (by decide)
    have h2 := hset "payment-service" (by decide)
    have h3 := hset "api-gateway" (by decide)
    have h4 := hset "user-service" (by decide)
    have h5 := hset "notification-service" (by decide)
    have g1 := hsub "auth-service" (by decide)
    have g2 := hsub "payment-service" (by decide)
    have g3 := hsub "api-gateway" (by decide)
    have g4 := hsub "user-service" (by decide)
    have g5 := hsub "notification-service" (by decide)
    refine ⟨?_, ?_, ?_, ?_⟩
    · cases flag <;> simp [tick, tickWith, SERVICES, promiseAll, h1, h2, h3, h4, h5]
    · cases flag <;> simp [tick, tickWith, SERVICES]
    · intro c hc
      cases flag <;>
        simp only [tick, tickWith, SERVICES, List.map_cons, List.map_nil, List.mem_cons,
          List.mem_singleton, List.not_mem_nil, or_false] at hc <;>
        rcases hc with rfl | rfl | rfl | rfl | rfl <;>
        simp [h1, h2, h3, h4, h5, g1, g2, g3, g4, g5]
    · intro outcomes'
      cases flag <;> simp [tick, tickWith, SERVICES, sendLogs_submitted]

/-- C15 at a tick during an incident in which the bulk call for `payment-service` is rejected
and the one for `api-gateway` reports item errors. -/
theorem sendLogs_never_fails_witness :
    (sendLogs "payment-service" 25 true (fun _ => sampleDraws)
      (sampleOutcomes "payment-service")).settled = Settled.fulfilled ∧
    (sendLogs "payment-service" 25 true (fun _ => sampleDraws)
      (sampleOutcomes "payment-service")).console =
        [ConsoleLine.indexFailed "payment-service" "connect ECONNREFUSED"] ∧
    (sendLogs "api-gateway" 5 false (fun _ => sampleDraws)
      (sampleOutcomes "api-gateway")).console =
        [ConsoleLine.bulkErrors "api-gateway" (some [⟨some ⟨some "mapper_parsing_exception"⟩⟩])] ∧
    (tick true (fun _ _ => sampleDraws) sampleOutcomes).settled = Settled.fulfilled :=
  ⟨(sendLogs_never_fails "payment-service" 25 true (fun _ => sampleDraws)
      (sampleOutcomes "payment-service") (Or.inl (by decide))).1,
   by decide!, by decide!,
   ((sendLogs_never_fails "payment-service" 25 true (fun _ => sampleDraws)
      (sampleOutcomes "payment-service") (Or.inl (by decide))).2.2
        true (fun _ _ => sampleDraws) sampleOutcomes).1⟩

/-! ## Simulated time: the incident window -/

theorem lookup_filter_ne {h k : Nat} (hne : h ≠ k) :
    ∀ l : List (Nat × Nat), (l.filter fun p => p.1 != k).lookup h = l.lookup h := by
  intro l
  induction l with
  | nil => rfl
  | cons p rest ih =>
    obtain ⟨a, b⟩ := p
    by_cases hak : a = k
    · subst hak
      have h1 : (h == a) = false := by simpa using hne
      simp [List.filter_cons, List.lookup_cons, h1, ih]
    · have h2 : (a != k) = true := by simpa using hak
      simp only [List.filter_cons, h2, if_true, List.lookup_cons, ih]

theorem lookup_eq_none_of_not_mem {h : Nat} :
    ∀ l : List (Nat × Nat), h ∉ l.map Prod.fst → l.lookup h = none := by
  intro l
  induction l with
  | nil => intro _; rfl
  | cons p rest ih =>
    intro hmem
    obtain ⟨a, b⟩ := p
    simp only [List.map_cons, List.mem_cons, not_or] at hmem
    have h1 : (h == a) = false := by simpa using hmem.1
    simp only [List.lookup_cons, h1]
    exact ih hmem.2

theorem mem_of_lookup {h d : Nat} :
    ∀ l : List (Nat × Nat), l.lookup h = some d → (h, d) ∈ l := by
  intro l
  induction l with
  | nil => intro hl; simp at hl
  | cons p rest ih =>
    intro hl
    obtain ⟨a, b⟩ := p
    by_cases hha : h = a
    · subst hha
      simp [List.lookup_cons] at hl
      subst hl
      exact List.mem_cons_self _ _
    · have h1 : (h == a) = false := by simpa using hha
      simp only [List.lookup_cons, h1] at hl
      exact List.mem_cons_of_mem _ (ih hl)

theorem lookup_resync_known {now h d : Nat} {known : List (Nat × Nat)}
    (hk : known.lookup h = some d) :
    ∀ timers : List Timer, h ∈ timers.map (fun t => t.handle) →
      (resync now known timers).lookup h = some d := by
  intro timers
  induction timers with
  | nil => intro hm; simp at hm
  | cons t rest ih =>
    intro hm
    by_cases hht : h = t.handle
    · subst hht
      simp [resync, List.lookup_cons, hk]
    · have h1 : (h == t.handle) = false := by simpa using hht
      have hm' : h ∈ rest.map (fun t => t.handle) := by
        simp only [List.map_cons, List.mem_cons] at hm
        exact hm.resolve_left hht
      have := ih hm'
      simp only [resync] at this ⊢
      simp only [List.map_cons, List.lookup_cons, h1]
      exact this

theorem resync_map_fst (now : Nat) (known : List (Nat × Nat)) (timers : List Timer) :
    (resync now known timers).map Prod.fst = timers.map fun t => t.handle := by
  simp [resync, List.map_map, Function.comp_def]

theorem clockedInv_init : ClockedInv Clocked.init := ⟨inv_init, rfl⟩

theorem clockedInv_step {c c' : Clocked} (e : ClockedEvent) (hinv : ClockedInv c)
    (hstep : c.step e = some c') : ClockedInv c' := by
  cases e with
  | start r =>
    simp only [Clocked.step, Option.some.injEq] at hstep
    subst hstep
    exact ⟨inv_start r hinv.1, resync_map_fst _ _ _⟩
  | stop =>
    simp only [Clocked.step, Option.some.injEq] at hstep
    subst hstep
    exact ⟨inv_stop hinv.1, resync_map_fst _ _ _⟩
  | fire h r =>
    simp only [Clocked.step] at hstep
    cases hl : c.due.lookup h with
    | none => rw [hl] at hstep; simp at hstep
    | some d =>
      rw [hl] at hstep
      simp only at hstep
      split_ifs at hstep
      simp only [Option.some.injEq] at hstep
      subst hstep
      exact ⟨inv_fire h r hinv.1, resync_map_fst _ _ _⟩
  | wait ms =>
    simp only [Clocked.step] at hstep
    split_ifs at hstep
    simp only [Option.some.injEq] at hstep
    subst hstep
    exact hinv

theorem clockedInv_of_reachable {c : Clocked} (h : Clocked.Reachable c) : ClockedInv c := by
  induction h with
  | init => exact clockedInv_init
  | step e _ hstep ih => exact clockedInv_step e ih hstep

theorem now_le_of_step {c c' : Clocked} (e : ClockedEvent) (hstep : c.step e = some c') :
    c.now ≤ c'.now := by
  cases e with
  | start r =>
    simp only [Clocked.step, Option.some.injEq] at hstep
    subst hstep; exact Nat.le_refl _
  | stop =>
    simp only [Clocked.step, Option.some.injEq] at hstep
    subst hstep; exact Nat.le_refl _
  | fire h r =>
    simp only [Clocked.step] at hstep
    cases hl : c.due.lookup h with
    | none => rw [hl] at hstep; simp at hstep
    | some d =>
      rw [hl] at hstep
      simp only at hstep
      split_ifs at hstep
      simp only [Option.some.injEq] at hstep
      subst hstep; exact Nat.le_refl _
  | wait ms =>
    simp only [Clocked.step] at hstep
    split_ifs at hstep
    simp only [Option.some.injEq] at hstep
    subst hstep; exact Nat.le_add_right _ _

theorem reachable_clocked_run (es : List ClockedEvent) :
    ∀ c c' : Clocked, Clocked.Reachable c → c.run es = some c' → Clocked.Reachable c' := by
  induction es with
  | nil =>
    intro c c' h hrun
    simp only [Clocked.run, Option.some.injEq] at hrun
    subst hrun; exact h
  | cons e rest ih =>
    intro c c' h hrun
    simp only [Clocked.run] at hrun
    cases hs : c.step e with
    | none => rw [hs] at hrun; simp at hrun
    | some c1 =>
      rw [hs] at hrun
      exact ih c1 c' (Clocked.Reachable.step e h hs) hrun

theorem mathFloor_ofInt (k : Nat) : mathFloor (ofInt k) = k := by
  unfold mathFloor ofInt
  exact Nat.mul_div_cancel k (Nat.two_pow_pos _)

theorem mathFloor_delay_ge (r : RandomDraw) : 120000 ≤ mathFloor (getNextIncidentDelay r) := by
  unfold mathFloor
  exact (Nat.le_div_iff_mul_le (Nat.two_pow_pos _)).2 (getNextIncidentDelay_ge r)

theorem map_fst_eq_pair {a b : Nat} :
    ∀ l : List (Nat × Nat), l.map Prod.fst = [a, b] → ∃ x y, l = [(a, x), (b, y)] := by
  intro l h
  match l, h with
  | [(a', x), (b', y)], h =>
    simp only [List.map_cons, List.map_nil, List.cons.injEq, and_true] at h
    obtain ⟨rfl, rfl⟩ := h
    exact ⟨x, y, rfl⟩

/-- The shape of a clocked state during an incident. -/
theorem inWindow_shape {t : Nat} {c : Clocked} (hinv : ClockedInv c) (hw : InWindow t c) :
    ∃ hT hI ns nh d1,
      hT < nh ∧ hI < nh ∧ hT ≠ hI ∧ t ≤ c.now ∧ c.now ≤ t + 30000 ∧
      c.sim = ⟨some hT, some hI, ns, true, true,
              [⟨hT, Callback.tick, ofInt 1000, true⟩,
               ⟨hI, Callback.incidentEnd, ofInt 30000, false⟩], nh⟩ ∧
      c.due = [(hT, d1), (hI, t + 30000)] := by
  obtain ⟨hrun, hact, htle, hnle, h, hit, hdue⟩ := hw
  obtain ⟨hsim, hsync⟩ := hinv
  obtain ⟨hT, hI, hTlt, hIlt, hne, htick, hcase⟩ := hsim.1 hrun
  obtain ⟨⟨ti, it, ns, act, run, timers, nh⟩, now, due⟩ := c
  simp only at hrun hact htle hnle hit hdue hsync hTlt hIlt htick hcase
  subst hrun hact htick
  rcases hcase with ⟨hidle, _, _⟩ | ⟨_, hit', htimers⟩
  · exact absurd hidle (by decide)
  · subst htimers
    rw [hit] at hit'
    simp only [Option.some.injEq] at hit'
    subst hit'
    obtain ⟨d1, d2, rfl⟩ := map_fst_eq_pair due hsync
    have h1 : (h == hT) = false := by simpa using fun e : h = hT => hne e.symm
    simp only [List.lookup_cons, h1, beq_self_eq_true, Option.some.injEq] at hdue
    subst hdue
    exact ⟨hT, h, ns, nh, d1, hTlt, hIlt, hne, htle, hnle, by rw [hit], rfl⟩

/-- The shape of a clocked state between two incidents. -/
theorem afterWindow_shape {t : Nat} {c : Clocked} (hinv : ClockedInv c)
    (hw : AfterWindow t c) :
    ∃ hT hI it nh d1 d r,
      hT < nh ∧ hI < nh ∧ hT ≠ hI ∧ t + 30000 ≤ c.now ∧ t + 150000 ≤ d ∧
      c.sim = ⟨some hT, it, some hI, false, true,
              [⟨hT, Callback.tick, ofInt 1000, true⟩,
               ⟨hI, Callback.incidentStart, getNextIncidentDelay r, false⟩], nh⟩ ∧
      c.due = [(hT, d1), (hI, d)] := by
  obtain ⟨hrun, hact, htle, h, d, hns, hdue, hd⟩ := hw
  obtain ⟨hsim, hsync⟩ := hinv
  obtain ⟨hT, hI, hTlt, hIlt, hne, htick, hcase⟩ := hsim.1 hrun
  obtain ⟨⟨ti, it, ns, act, run, timers, nh⟩, now, due⟩ := c
  simp only at hrun hact htle hns hdue hsync hTlt hIlt htick hcase
  subst hrun hact htick
  rcases hcase with ⟨_, hns', r, htimers⟩ | ⟨hactive, _, _⟩
  · subst htimers
    rw [hns] at hns'
    simp only [Option.some.injEq] at hns'
    subst hns'
    obtain ⟨d1, d2, rfl⟩ := map_fst_eq_pair due hsync
    have h1 : (h == hT) = false := by simpa using fun e : h = hT => hne e.symm
    simp only [List.lookup_cons, h1, beq_self_eq_true, Option.some.injEq] at hdue
    subst hdue
    exact ⟨hT, h, it, nh, d1, d2, r, hTlt, hIlt, hne, htle, hd, by rw [hns], rfl⟩
  · exact absurd hactive (by decide)

/-- One event other than `stopSimulator` during an incident: either the incident is still in
progress, or the event is the firing of the end timeout, at `t + 30000`, which clears the flag
and registers the next start delay at that instant. -/
theorem inWindow_step {t : Nat} {c c' : Clocked} (hinv : ClockedInv c) (hw : InWindow t c)
    (e : ClockedEvent) (hne : e ≠ ClockedEvent.stop) (hstep : c.step e = some c') :
    InWindow t c' ∨
    (c.now = t + 30000 ∧ c'.now = t + 30000 ∧ c'.sim.isIncidentActive = false ∧
      AfterWindow t c' ∧
      ∃ h r, e = ClockedEvent.fire h r ∧ c.sim.incidentTimeout = some h ∧
        c'.sim.nextIncidentSchedule = some c.sim.nextHandle ∧
        (⟨c.sim.nextHandle, Callback.incidentStart, getNextIncidentDelay r, false⟩ : Timer) ∈
          c'.sim.timers ∧
        c'.due.lookup c.sim.nextHandle =
          some (t + 30000 + mathFloor (getNextIncidentDelay r))) := by
  obtain ⟨hT, hI, ns, nh, d1, hTlt, hIlt, hTI, htle, hnle, hsim, hdue⟩ := inWindow_shape hinv hw
  obtain ⟨sim, now, due⟩ := c
  simp only at hsim hdue htle hnle
  subst hsim hdue
  have hIT : (hI == hT) = false := by simpa using fun e : hI = hT => hTI e.symm
  have hTIb : (hT == hI) = false := by simpa using hTI
  have hIne : hI ≠ hT := fun e => hTI e.symm
  cases e with
  | stop => exact absurd rfl hne
  | start r =>
    simp only [Clocked.step, Option.some.injEq] at hstep
    subst hstep
    left
    refine ⟨?_, ?_, htle, hnle, hI, ?_, ?_⟩
    · exact startSimulator_isRunning _ r
    · rw [startSimulator_running r rfl]
    · rw [startSimulator_running r rfl]
    · rw [startSimulator_running r rfl]
      simp [resync, List.lookup_cons, hIT]
  | wait ms =>
    simp only [Clocked.step] at hstep
    split_ifs at hstep with hg
    simp only [Option.some.injEq] at hstep
    subst hstep
    left
    have hle : now + ms ≤ t + 30000 := by
      simp only [List.all_cons, List.all_nil, Bool.and_true, Bool.and_eq_true,
        decide_eq_true_eq] at hg
      exact hg.2
    exact ⟨rfl, rfl, by show t ≤ now + ms; omega, hle, hI, rfl, by
      simp [List.lookup_cons, hIT]⟩
  | fire h r =>
    simp only [Clocked.step] at hstep
    by_cases h1 : h = hT
    · subst h1
      simp only [List.lookup_cons, beq_self_eq_true] at hstep
      split_ifs at hstep
      simp only [Option.some.injEq] at hstep
      subst hstep
      left
      have hf : fire ⟨some h, some hI, ns, true, true,
            [⟨h, Callback.tick, ofInt 1000, true⟩,
             ⟨hI, Callback.incidentEnd, ofInt 30000, false⟩], nh⟩ h r =
          ⟨some h, some hI, ns, true, true,
            [⟨h, Callback.tick, ofInt 1000, true⟩,
             ⟨hI, Callback.incidentEnd, ofInt 30000, false⟩], nh⟩ := by
        simp [fire, List.find?_cons, runCallback]
      rw [hf]
      exact ⟨rfl, rfl, htle, hnle, hI, rfl, by
        simp [resync, List.lookup_cons, hIT, List.filter_cons, hIne]⟩
    · by_cases h2 : h = hI
      · subst h2
        simp only [List.lookup_cons, hIT, beq_self_eq_true] at hstep
        split_ifs at hstep with hd
        simp only [Option.some.injEq] at hstep
        subst hstep
        right
        have hnow : now = t + 30000 := Nat.le_antisymm hnle hd
        have hf : fire ⟨some hT, some h, ns, true, true,
              [⟨hT, Callback.tick, ofInt 1000, true⟩,
               ⟨h, Callback.incidentEnd, ofInt 30000, false⟩], nh⟩ h r =
            ⟨some hT, some h, some nh, false, true,
              [⟨hT, Callback.tick, ofInt 1000, true⟩,
               ⟨nh, Callback.incidentStart, getNextIncidentDelay r, false⟩], nh + 1⟩ := by
          simp [fire, List.find?_cons, hTIb, runCallback, Sim.clearTimer, Sim.addTimer,
            List.filter_cons, hTI, scheduleNextIncident]
        rw [hf]
        have hnT : (nh == hT) = false := by
          simpa using fun e : nh = hT => absurd hTlt (by omega)
        have hnI : (nh == h) = false := by
          simpa using fun e : nh = h => absurd hIlt (by omega)
        have hnT' : nh ≠ hT := fun e => absurd hTlt (by omega)
        have hnI' : nh ≠ h := fun e => absurd hIlt (by omega)
        have hlook : List.lookup nh
            (resync now (List.filter (fun p => p.1 != h) [(hT, d1), (h, t + 30000)])
              [⟨hT, Callback.tick, ofInt 1000, true⟩,
               ⟨nh, Callback.incidentStart, getNextIncidentDelay r, false⟩]) =
            some (t + 30000 + mathFloor (getNextIncidentDelay r)) := by
          simp [resync, List.lookup_cons, List.filter_cons, hnT, hnI, hTIb, hnow, hTI, hIne, hnT',
            hnI']
        have hge := mathFloor_delay_ge r
        refine ⟨hnow, hnow, rfl, ⟨rfl, rfl, by show t + 30000 ≤ now; omega, nh, _, rfl, hlook, by omega⟩,
          h, r, rfl, rfl, rfl, ?_, hlook⟩
        simp
      · have hb1 : (h == hT) = false := by simpa using h1
        have hb2 : (h == hI) = false := by simpa using h2
        simp [List.lookup_cons, hb1, hb2] at hstep

/-- One event other than `stopSimulator` between two incidents: either the next incident has
still not begun, or the clock has reached `t + 150000`. -/
theorem afterWindow_step {t : Nat} {c c' : Clocked} (hinv : ClockedInv c)
    (hw : AfterWindow t c) (e : ClockedEvent) (hne : e ≠ ClockedEvent.stop)
    (hstep : c.step e = some c') :
    AfterWindow t c' ∨ t + 150000 ≤ c'.now := by
  obtain ⟨hT, hI, it, nh, d1, d, r0, hTlt, hIlt, hTI, htle, hd, hsim, hdue⟩ :=
    afterWindow_shape hinv hw
  obtain ⟨sim, now, due⟩ := c
  simp only at hsim hdue htle
  subst hsim hdue
  have hIT : (hI == hT) = false := by simpa using fun e : hI = hT => hTI e.symm
  have hTIb : (hT == hI) = false := by simpa using hTI
  have hIne : hI ≠ hT := fun e => hTI e.symm
  cases e with
  | stop => exact absurd rfl hne
  | start r =>
    simp only [Clocked.step, Option.some.injEq] at hstep
    subst hstep
    left
    refine ⟨?_, ?_, htle, hI, d, ?_, ?_, hd⟩
    · exact startSimulator_isRunning _ r
    · rw [startSimulator_running r rfl]
    · rw [startSimulator_running r rfl]
    · rw [startSimulator_running r rfl]
      simp [resync, List.lookup_cons, hIT]
  | wait ms =>
    simp only [Clocked.step] at hstep
    split_ifs at hstep with hg
    simp only [Option.some.injEq] at hstep
    subst hstep
    left
    exact ⟨rfl, rfl, by show t + 30000 ≤ now + ms; omega, hI, d, rfl, by
      simp [List.lookup_cons, hIT], hd⟩
  | fire h r =>
    simp only [Clocked.step] at hstep
    by_cases h1 : h = hT
    · subst h1
      simp only [List.lookup_cons, beq_self_eq_true] at hstep
      split_ifs at hstep
      simp only [Option.some.injEq] at hstep
      subst hstep
      left
      have hf : fire ⟨some h, it, some hI, false, true,
            [⟨h, Callback.tick, ofInt 1000, true⟩,
             ⟨hI, Callback.incidentStart, getNextIncidentDelay r0, false⟩], nh⟩ h r =
          ⟨some h, it, some hI, false, true,
            [⟨h, Callback.tick, ofInt 1000, true⟩,
             ⟨hI, Callback.incidentStart, getNextIncidentDelay r0, false⟩], nh⟩ := by
        simp [fire, List.find?_cons, runCallback]
      rw [hf]
      exact ⟨rfl, rfl, htle, hI, d, rfl, by
        simp [resync, List.lookup_cons, hIT, List.filter_cons, hIne], hd⟩
    · by_cases h2 : h = hI
      · subst h2
        simp only [List.lookup_cons, hIT, beq_self_eq_true] at hstep
        split_ifs at hstep with hdn
        simp only [Option.some.injEq] at hstep
        subst hstep
        right
        show t + 150000 ≤ now
        omega
      · have hb1 : (h == hT) = false := by simpa using h1
        have hb2 : (h == hI) = false := by simpa using h2
        simp [List.lookup_cons, hb1, hb2] at hstep

theorem windowPhase_step {t : Nat} {c c' : Clocked} (hinv : ClockedInv c)
    (hw : WindowPhase t c) (e : ClockedEvent) (hne : e ≠ ClockedEvent.stop)
    (hstep : c.step e = some c') : WindowPhase t c' := by
  rcases hw with hw | hw | hw
  · rcases inWindow_step hinv hw e hne hstep with h | h
    · exact Or.inl h
    · exact Or.inr (Or.inl h.2.2.2.1)
  · rcases afterWindow_step hinv hw e hne hstep with h | h
    · exact Or.inr (Or.inl h)
    · exact Or.inr (Or.inr h)
  · exact Or.inr (Or.inr (Nat.le_trans hw (now_le_of_step e hstep)))

theorem windowPhase_run {t : Nat} (es : List ClockedEvent) :
    ∀ c c' : Clocked, ClockedInv c → WindowPhase t c → StopFree es → c.run es = some c' →
      ClockedInv c' ∧ WindowPhase t c' := by
  induction es with
  | nil =>
    intro c c' hinv hw _ hrun
    simp only [Clocked.run, Option.some.injEq] at hrun
    subst hrun; exact ⟨hinv, hw⟩
  | cons e rest ih =>
    intro c c' hinv hw hsf hrun
    simp only [Clocked.run] at hrun
    cases hs : c.step e with
    | none => rw [hs] at hrun; simp at hrun
    | some c1 =>
      rw [hs] at hrun
      have hne : e ≠ ClockedEvent.stop := hsf e (List.mem_cons_self _ _)
      exact ih c1 c' (clockedInv_step e hinv hs) (windowPhase_step hinv hw e hne hs)
        (fun x hx => hsf x (List.mem_cons_of_mem _ hx)) hrun

/-- A state in which the incident flag is set no later than `t + 30000` is in the incident
that began at `t`. -/
theorem inWindow_of_phase {t : Nat} {c : Clocked} (hw : WindowPhase t c)
    (hact : c.sim.isIncidentActive = true) (hnow : c.now ≤ t + 30000) : InWindow t c := by
  rcases hw with hw | hw | hw
  · exact hw
  · rw [hw.2.1] at hact; exact absurd hact (by decide)
  · omega

/-- The firing of the incident-start timeout at time `c.now` begins an incident. -/
theorem fire_start_enters_window {c c1 : Clocked} {h : Nat} {r : RandomDraw}
    (hinv : ClockedInv c) (hidle : c.sim.isIncidentActive = false)
    (hstep : c.step (ClockedEvent.fire h r) = some c1)
    (hact : c1.sim.isIncidentActive = true) :
    InWindow c.now c1 ∧ c1.now = c.now := by
  obtain ⟨hsim, hsync⟩ := hinv
  obtain ⟨⟨ti, it, ns, act, run, timers, nh⟩, now, due⟩ := c
  simp only at hidle hsync
  subst hidle
  simp only [Clocked.step] at hstep
  cases hrun : run with
  | false =>
    subst hrun
    have ht : timers = [] := (hsim.2 rfl).1
    subst ht
    have hd : due = [] := by simpa using hsync
    subst hd
    simp at hstep
  | true =>
    subst hrun
    obtain ⟨hT, hI, hTlt, hIlt, hTI, htick, hcase⟩ := hsim.1 rfl
    simp only at htick hcase hTlt hIlt
    subst htick
    rcases hcase with ⟨_, hns, r0, htimers⟩ | ⟨hactive, _, _⟩
    · subst hns htimers
      obtain ⟨d1, d2, rfl⟩ := map_fst_eq_pair due hsync
      have hIT : (hI == hT) = false := by simpa using fun e : hI = hT => hTI e.symm
      have hTIb : (hT == hI) = false := by simpa using hTI
      have hIne : hI ≠ hT := fun e => hTI e.symm
      by_cases h1 : h = hT
      · subst h1
        simp only [List.lookup_cons, beq_self_eq_true] at hstep
        split_ifs at hstep
        simp only [Option.some.injEq] at hstep
        subst hstep
        have hf : fire ⟨some h, it, some hI, false, true,
              [⟨h, Callback.tick, ofInt 1000, true⟩,
               ⟨hI, Callback.incidentStart, getNextIncidentDelay r0, false⟩], nh⟩ h r =
            ⟨some h, it, some hI, false, true,
              [⟨h, Callback.tick, ofInt 1000, true⟩,
               ⟨hI, Callback.incidentStart, getNextIncidentDelay r0, false⟩], nh⟩ := by
          simp [fire, List.find?_cons, runCallback]
        simp only [hf] at hact
        exact absurd hact (by decide)
      · by_cases h2 : h = hI
        · subst h2
          simp only [List.lookup_cons, hIT, beq_self_eq_true] at hstep
          split_ifs at hstep with hdn
          simp only [Option.some.injEq] at hstep
          subst hstep
          have hf : fire ⟨some hT, it, some h, false, true,
                [⟨hT, Callback.tick, ofInt 1000, true⟩,
                 ⟨h, Callback.incidentStart, getNextIncidentDelay r0, false⟩], nh⟩ h r =
              ⟨some hT, some nh, some h, true, true,
                [⟨hT, Callback.tick, ofInt 1000, true⟩,
                 ⟨nh, Callback.incidentEnd, ofInt 30000, false⟩], nh + 1⟩ := by
            simp [fire, List.find?_cons, hTIb, runCallback, Sim.clearTimer, Sim.addTimer,
              List.filter_cons, hTI]
          rw [hf]
          have hnT : (nh == hT) = false := by
            simpa using fun e : nh = hT => absurd hTlt (by omega)
          have hnI : (nh == h) = false := by
            simpa using fun e : nh = h => absurd hIlt (by omega)
          have hnT' : nh ≠ hT := fun e => absurd hTlt (by omega)
          have hnI' : nh ≠ h := fun e => absurd hIlt (by omega)
          refine ⟨⟨rfl, rfl, Nat.le_refl _, Nat.le_add_right _ _, nh, rfl, ?_⟩, rfl⟩
          simp [resync, List.lookup_cons, List.filter_cons, hnT, hnI, hTIb, hTI, hIne, hnT',
            hnI', mathFloor_ofInt]
        · have hb1 : (h == hT) = false := by simpa using h1
          have hb2 : (h == hI) = false := by simpa using h2
          simp [List.lookup_cons, hb1, hb2] at hstep
    · exact absurd hactive (by decide)

/-- At `t + 30000` the end timeout of the incident that began at `t` can fire, and its firing
clears the incident flag at that instant. -/
theorem fire_end_enabled {t : Nat} {c : Clocked} (hinv : ClockedInv c) (hw : InWindow t c)
    (hnow : c.now = t + 30000) :
    ∃ h, c.sim.incidentTimeout = some h ∧
      ∀ r, ∃ c', c.step (ClockedEvent.fire h r) = some c' ∧
        c'.sim.isIncidentActive = false ∧ c'.now = t + 30000 := by
  obtain ⟨hT, hI, ns, nh, d1, hTlt, hIlt, hTI, htle, hnle, hsim, hdue⟩ := inWindow_shape hinv hw
  refine ⟨hI, by rw [hsim], ?_⟩
  intro r
  have hlook : c.due.lookup hI = some (t + 30000) := by
    have hIT : (hI == hT) = false := by simpa using fun e : hI = hT => hTI e.symm
    rw [hdue]; simp [List.lookup_cons, hIT]
  have hstep : c.step (ClockedEvent.fire hI r) = some
      { sim := fire c.sim hI r
        now := c.now
        due := resync c.now (c.due.filter fun p => p.1 != hI) (fire c.sim hI r).timers } := by
    simp only [Clocked.step, hlook]
    rw [if_pos (by omega)]
  refine ⟨_, hstep, ?_, hnow⟩
  rcases inWindow_step hinv hw _ (by simp) hstep with hin | hout
  · have hTIb : (hT == hI) = false := by simpa using hTI
    have hact := hin.2.1
    simp only [hsim] at hact
    simp [fire, List.find?_cons, hTIb, runCallback, Sim.clearTimer, Sim.addTimer,
      List.filter_cons, hTI, scheduleNextIncident] at hact
  · exact hout.2.2.1

/-- C13: under the simulated clock, if the incident-start timeout fires at time `t` (the flag
goes from false to true in that step), then in every continuation without `stopSimulator`:
the flag is true in every state whose clock is before `t + 30000`, so a state with the flag
false has a clock of at least `t + 30000`; an event in a state with the flag true and a clock of
at most `t + 30000` either leaves the flag true and the clock at most `t + 30000`, or is the
firing of the end timeout at exactly `t + 30000`, which clears the flag and registers the next
incident-start timeout at that instant, due after its delay; and at `t + 30000` that firing is
possible. -/
theorem incident_lasts_30000 (c : Clocked) (hreach : Clocked.Reachable c) (h : Nat)
    (r0 : RandomDraw) (c1 : Clocked) (hidle : c.sim.isIncidentActive = false)
    (hfire : c.step (ClockedEvent.fire h r0) = some c1)
    (hact : c1.sim.isIncidentActive = true) :
    c1.now = c.now ∧
    (∀ es c2, StopFree es → c1.run es = some c2 → c2.now < c.now + 30000 →
      c2.sim.isIncidentActive = true) ∧
    (∀ es c2, StopFree es → c1.run es = some c2 → c2.sim.isIncidentActive = false →
      c.now + 30000 ≤ c2.now) ∧
    (∀ es c2 e c3, StopFree es → c1.run es = some c2 → e ≠ ClockedEvent.stop →
      c2.step e = some c3 → c2.sim.isIncidentActive = true → c2.now ≤ c.now + 30000 →
      (c3.sim.isIncidentActive = true ∧ c3.now ≤ c.now + 30000) ∨
      (c3.sim.isIncidentActive = false ∧ c2.now = c.now + 30000 ∧ c3.now = c.now + 30000 ∧
        ∃ h' r, e = ClockedEvent.fire h' r ∧ c2.sim.incidentTimeout = some h' ∧
          c3.sim.nextIncidentSchedule = some c2.sim.nextHandle ∧
          (⟨c2.sim.nextHandle, Callback.incidentStart, getNextIncidentDelay r, false⟩ : Timer) ∈
            c3.sim.timers ∧
          c3.due.lookup c2.sim.nextHandle =
            some (c.now + 30000 + mathFloor (getNextIncidentDelay r)))) ∧
    (∀ es c2, StopFree es → c1.run es = some c2 → c2.sim.isIncidentActive = true →
      c2.now = c.now + 30000 →
      ∃ h', c2.sim.incidentTimeout = some h' ∧
        ∀ r, ∃ c3, c2.step (ClockedEvent.fire h' r) = some c3 ∧
          c3.sim.isIncidentActive = false ∧ c3.now = c.now + 30000) := by
  have hinv := clockedInv_of_reachable hreach
  obtain ⟨hwin, hnow⟩ := fire_start_enters_window hinv hidle hfire hact
  have hinv1 := clockedInv_step _ hinv hfire
  have hphase : ∀ es c2, StopFree es → c1.run es = some c2 →
      ClockedInv c2 ∧ WindowPhase c.now c2 :=
    fun es c2 hsf hrun => windowPhase_run es c1 c2 hinv1 (Or.inl hwin) hsf hrun
  have hA : ∀ es c2, StopFree es → c1.run es = some c2 → c2.now < c.now + 30000 →
      c2.sim.isIncidentActive = true := by
    intro es c2 hsf hrun hlt
    rcases (hphase es c2 hsf hrun).2 with hw | hw | hw
    · exact hw.2.1
    · have := hw.2.2.1; omega
    · omega
  refine ⟨hnow, hA, ?_, ?_, ?_⟩
  · intro es c2 hsf hrun hfalse
    by_contra hlt
    have := hA es c2 hsf hrun (by omega)
    rw [hfalse] at this
    exact absurd this (by decide)
  · intro es c2 e c3 hsf hrun hne hstep hact2 hle
    obtain ⟨hinv2, hph⟩ := hphase es c2 hsf hrun
    have hw := inWindow_of_phase hph hact2 hle
    rcases inWindow_step hinv2 hw e hne hstep with hin | hout
    · exact Or.inl ⟨hin.2.1, hin.2.2.2.1⟩
    · exact Or.inr ⟨hout.2.2.1, hout.1, hout.2.1, hout.2.2.2.2⟩
  · intro es c2 hsf hrun hact2 hat
    obtain ⟨hinv2, hph⟩ := hphase es c2 hsf hrun
    have hw := inWindow_of_phase hph hact2 (by omega)
    exact fire_end_enabled hinv2 hw hat

theorem beforeIncident_run : Clocked.init.run beforeIncidentEvents = some beforeIncident := by
  decide!

theorem beforeIncident_fire :
    beforeIncident.step (ClockedEvent.fire 2 zeroDraw) = some incidentBegun := by
  decide!

/-- C13 in the run that starts the simulator at time 0 with a start delay of 150000 ms: the
incident begins at 150000 and lasts until 180000. -/
theorem incident_lasts_30000_witness :
    Clocked.init.run beforeIncidentEvents = some beforeIncident ∧
    beforeIncident.step (ClockedEvent.fire 2 zeroDraw) = some incidentBegun ∧
    beforeIncident.now + 30000 = 180000 ∧
    (∀ es c2, StopFree es → incidentBegun.run es = some c2 →
      c2.now < beforeIncident.now + 30000 → c2.sim.isIncidentActive = true) ∧
    (∀ es c2, StopFree es → incidentBegun.run es = some c2 →
      c2.sim.isIncidentActive = false → beforeIncident.now + 30000 ≤ c2.now) :=
  ⟨beforeIncident_run, beforeIncident_fire, rfl,
   (incident_lasts_30000 beforeIncident
      (reachable_clocked_run _ _ _ Clocked.Reachable.init beforeIncident_run) 2 zeroDraw
      incidentBegun rfl beforeIncident_fire rfl).2.1,
   (incident_lasts_30000 beforeIncident
      (reachable_clocked_run _ _ _ Clocked.Reachable.init beforeIncident_run) 2 zeroDraw
      incidentBegun rfl beforeIncident_fire rfl).2.2.1⟩

/-! ## The retention cleanup -/

theorem lookup_map_replace (service : String) (p : Policy) (s : String) :
    ∀ policies : List (String × Policy),
      (policies.map fun e => if e.1 == service then (service, p) else e).lookup s =
        (policies.lookup s).map fun v => if s = service then p else v := by
  intro policies
  induction policies with
  | nil => rfl
  | cons e rest ih =>
    obtain ⟨k, v⟩ := e
    by_cases hk : k = service
    · subst hk
      by_cases hsk : s = k
      · subst hsk
        simp [List.lookup_cons]
      · have hb : (s == k) = false := by simpa using hsk
        simp only [List.map_cons, beq_self_eq_true, if_true, List.lookup_cons, hb]
        exact ih
    · have hkb : (k == service) = false := by simpa using hk
      by_cases hsk : s = k
      · subst hsk
        simp [List.lookup_cons, hkb, hk]
      · have hb : (s == k) = false := by simpa using hsk
        simp only [List.map_cons, hkb, Bool.false_eq_true, if_false, List.lookup_cons, hb]
        exact ih

theorem lookup_append_single (service : String) (p : Policy) (s : String) :
    ∀ policies : List (String × Policy),
      (policies ++ [(service, p)]).lookup s =
        match policies.lookup s with
        | some v => some v
        | none => if s = service then some p else none := by
  intro policies
  induction policies with
  | nil =>
    by_cases hs : s = service
    · subst hs; simp [List.lookup_cons]
    · have hb : (s == service) = false := by simpa using hs
      simp [List.lookup_cons, hb, hs]
  | cons e rest ih =>
    obtain ⟨k, v⟩ := e
    by_cases hsk : s = k
    · subst hsk
      simp [List.lookup_cons]
    · have hb : (s == k) = false := by simpa using hsk
      simp only [List.cons_append, List.lookup_cons, hb]
      exact ih

/-- Writing back a policy with the retention period it already had changes no retention
period. -/
theorem retentionDaysOf_setPolicy (policies : List (String × Policy)) (service : String)
    (p : Policy) (hp : p.retentionDays = retentionDaysOf policies service) (s : String) :
    retentionDaysOf (setPolicy policies service p) s = retentionDaysOf policies s := by
  unfold setPolicy
  split_ifs with hany
  · unfold retentionDaysOf at hp ⊢
    rw [lookup_map_replace]
    cases hl : policies.lookup s with
    | none => rfl
    | some v =>
      by_cases hs : s = service
      · subst hs
        rw [hl] at hp
        simp [hp]
      · simp [hs]
  · unfold retentionDaysOf at hp ⊢
    rw [lookup_append_single]
    cases hl : policies.lookup s with
    | some v => rfl
    | none =>
      by_cases hs : s = service
      · subst hs
        rw [hl] at hp
        simp [hp]
      · simp [hs]

theorem cleanupService_retentionDays (now : Int) (st : CleanupState) (service s : String) :
    retentionDaysOf (cleanupService now st service).policies s =
      retentionDaysOf st.policies s :=
  retentionDaysOf_setPolicy _ _ _ rfl s

theorem cleanup_fold (now : Int) :
    ∀ (services : List String) (st : CleanupState),
      (∀ s, retentionDaysOf (services.foldl (cleanupService now) st).policies s =
          retentionDaysOf st.policies s) ∧
      (services.foldl (cleanupService now) st).index =
        st.index.filter fun d =>
          !(services.contains d.service &&
            decide (d.timestamp < cutoffDate now (retentionDaysOf st.policies d.service))) := by
  intro services
  induction services with
  | nil =>
    intro st
    exact ⟨fun _ => rfl, by simp⟩
  | cons a rest ih =>
    intro st
    obtain ⟨hpol, hidx⟩ := ih (cleanupService now st a)
    refine ⟨fun s => ?_, ?_⟩
    · rw [List.foldl_cons, hpol s, cleanupService_retentionDays]
    · rw [List.foldl_cons, hidx]
      simp only [cleanupService_retentionDays]
      simp only [cleanupService, deleteByQuery, List.filter_filter]
      apply List.filter_congr
      intro d _
      simp only [EsQuery.matches, List.contains_cons]
      by_cases hda : d.service = a
      · subst hda
        simp
        exact fun h => Or.inr h
      · have hb : (d.service == a) = false := by simpa using hda
        simp [hb]

/-- The index after the loop of `POST /api/retention/cleanup` is what the specification says:
each service's documents older than that service's threshold are gone, all others are left. -/
theorem cleanupAll_index (policies : List (String × Policy)) (now : Int)
    (index : List IndexDoc) :
    (cleanupAll policies now index).index = retentionBySpec policies now index :=
  (cleanup_fold now Retention.SERVICES ⟨policies, index, 0⟩).2

/-! ## The claim about the retention cleanup -/

/-- C16 fails on the code: with the policy of `payment-service` set to 90 days and that of
`auth-service` to 7 days, `runRetentionCleanup` (with the default `RETENTION_DAYS` of 30)
deletes the 45 days old `payment-service` document and keeps the 10 days old `auth-service`
document, where the per-service policies, which `POST /api/retention/cleanup` applies, keep
the former and delete the latter. -/
theorem runRetentionCleanup_ignores_policies :
    retentionDaysOf samplePolicies "payment-service" = 90 ∧
    retentionDaysOf samplePolicies "auth-service" = 7 ∧
    runRetentionCleanup 30 sampleNow sampleIndex =
      [⟨"auth-service", sampleNow - 10 * MS_PER_DAY⟩] ∧
    retentionBySpec samplePolicies sampleNow sampleIndex =
      [⟨"payment-service", sampleNow - 45 * MS_PER_DAY⟩] ∧
    (cleanupAll samplePolicies sampleNow sampleIndex).index =
      [⟨"payment-service", sampleNow - 45 * MS_PER_DAY⟩] ∧
    runRetentionCleanup 30 sampleNow sampleIndex ≠
      retentionBySpec samplePolicies sampleNow sampleIndex := by
  refine ⟨?_, ?_, ?_, ?_, ?_, ?_⟩ <;> decide

/-! ## The claims about registration and login -/

theorem jsTrim_whitespace (s : String) (h : ∀ c ∈ s.data, isJsWhiteSpace c = true) :
    jsTrim s = "" := by
  have h1 : s.data.dropWhile isJsWhiteSpace = [] := List.dropWhile_eq_nil_iff.2 h
  unfold jsTrim
  rw [h1]
  rfl

theorem truthy_of_whitespaceOnly {f : BodyField} (h : f.WhitespaceOnly) :
    f.truthy = true ∧ jsTrim f.toStr = "" := by
  obtain ⟨s, rfl, hne, hall⟩ := h
  exact ⟨by simpa [BodyField.truthy] using hne, jsTrim_whitespace s hall⟩

theorem toStr_of_stringThrows {f : BodyField} (h : f.stringThrows = true) : f.toStr = "" := by
  cases f with
  | unconvertible => rfl
  | absent => exact absurd h (by decide)
  | str s => exact absurd h (by simp [BodyField.stringThrows])
  | other t text => exact absurd h (by simp [BodyField.stringThrows])

/-- C17 (amended): `POST /api/auth/register` responds with status 400 and an error message,
and makes no call on the `User` model, whenever `email`, `password` or `name` is missing or
empty (falsy), and, when `String(...)` converts all three values, whenever `email` or `name`
consists of white space only or the trimmed password has a `length` below 6.  When all three
are given and `String(...)` throws on one of them, the response is 500 with the message of
that error, again without a call on the `User` model. -/
theorem register_rejects_invalid (env : AuthEnv) (body : RegisterBody)
    (h : body.email.truthy = false ∨ body.password.truthy = false ∨ body.name.truthy = false ∨
      ((body.email.stringThrows = false ∧ body.name.stringThrows = false ∧
          body.password.stringThrows = false) ∧
        (body.email.WhitespaceOnly ∨ body.name.WhitespaceOnly ∨
          jsLength (jsTrim body.password.toStr) < 6))) :
    (register env body).1.status = 400 ∧
    (∃ message, (register env body).1.body = ResponseBody.error message) ∧
    (register env body).2 = [] ∧
    (∀ body' : RegisterBody,
      body'.email.truthy = true → body'.password.truthy = true → body'.name.truthy = true →
      (body'.email.stringThrows = true ∨ body'.name.stringThrows = true ∨
        body'.password.stringThrows = true) →
      register env body' =
        ({ status := 500, body := ResponseBody.error conversionError.message }, [])) := by
  have main : (register env body).1.status = 400 ∧
      (∃ message, (register env body).1.body = ResponseBody.error message) ∧
      (register env body).2 = [] := by
    simp only [register]
    split_ifs with h1 h0 h2 h3 h4
    · exact ⟨rfl, ⟨_, rfl⟩, rfl⟩
    · exfalso
      simp only [Bool.or_eq_true, Bool.not_eq_true', not_or, Bool.not_eq_false] at h1
      rcases h with h | h | h | ⟨⟨he, hn, hp⟩, _⟩
      · rw [h1.1.1] at h; exact absurd h (by decide)
      · rw [h1.1.2] at h; exact absurd h (by decide)
      · rw [h1.2] at h; exact absurd h (by decide)
      · simp [he, hn, hp] at h0
    · exact ⟨rfl, ⟨_, rfl⟩, rfl⟩
    · exact ⟨rfl, ⟨_, rfl⟩, rfl⟩
    · exact ⟨rfl, ⟨_, rfl⟩, rfl⟩
    · exfalso
      simp only [Bool.or_eq_true, Bool.not_eq_true', not_or, Bool.not_eq_false] at h1
      rcases h with h | h | h | ⟨_, h | h | h⟩
      · rw [h1.1.1] at h; exact absurd h (by decide)
      · rw [h1.1.2] at h; exact absurd h (by decide)
      · rw [h1.2] at h; exact absurd h (by decide)
      · apply h2
        rw [(truthy_of_whitespaceOnly h).2]
        exact env.toLowerCase_empty
      · exact h4 (truthy_of_whitespaceOnly h).2
      · exact h3 h
  refine ⟨main.1, main.2.1, main.2.2, ?_⟩
  intro body' he hp hn hthrows
  have hany : (body'.email.stringThrows || body'.name.stringThrows ||
      body'.password.stringThrows) = true := by
    rcases hthrows with h' | h' | h' <;> simp [h']
  simp only [register, he, hp, hn, Bool.not_true, Bool.or_self, Bool.false_eq_true, if_false,
    hany, if_true]
  rfl

/-- C17 (amended) at a body without `email`, at a white-space `name` and at a five-character
password, and at a body whose password cannot be converted. -/
theorem register_rejects_invalid_witness :
    (register emptyDbEnv
      ⟨BodyField.absent, BodyField.str "pass1234", BodyField.str "Test"⟩).1.status = 400 ∧
    (register emptyDbEnv
      ⟨BodyField.str "test@test.com", BodyField.str "pass1234", BodyField.str "  "⟩).1 =
        ⟨400, ResponseBody.error "Name is required"⟩ ∧
    (register emptyDbEnv
      ⟨BodyField.str "test@test.com", BodyField.str "12345", BodyField.str "Test"⟩).2 = [] ∧
    register emptyDbEnv
        ⟨BodyField.str "test@test.com", BodyField.unconvertible, BodyField.str "Test"⟩ =
      ({ status := 500, body := ResponseBody.error conversionError.message }, []) :=
  ⟨(register_rejects_invalid emptyDbEnv
      ⟨BodyField.absent, BodyField.str "pass1234", BodyField.str "Test"⟩ (Or.inl rfl)).1,
   by decide,
   (register_rejects_invalid emptyDbEnv
      ⟨BodyField.str "test@test.com", BodyField.str "12345", BodyField.str "Test"⟩
      (Or.inr (Or.inr (Or.inr ⟨⟨rfl, rfl, rfl⟩, Or.inr (Or.inr (by decide))⟩)))).2.2.1,
   (register_rejects_invalid emptyDbEnv
      ⟨BodyField.absent, BodyField.str "pass1234", BodyField.str "Test"⟩ (Or.inl rfl)).2.2.2
      ⟨BodyField.str "test@test.com", BodyField.unconvertible, BodyField.str "Test"⟩
      rfl rfl rfl (Or.inr (Or.inr rfl))⟩

/-- C17 as stated fails: with a white-space `email`, whatever the collection, a password that
`String(...)` cannot convert, such as `{"toString": 1}`, makes line 31 throw before the checks,
and the response is 500, not 400. -/
theorem register_whitespace_email_answers_500 :
    (BodyField.str "   ").WhitespaceOnly ∧
    BodyField.unconvertible.truthy = true ∧
    (∀ env : AuthEnv,
      register env ⟨BodyField.str "   ", BodyField.unconvertible, BodyField.str "Ada"⟩ =
        ({ status := 500,
           body := ResponseBody.error "Cannot convert object to primitive value" }, [])) ∧
    (register emptyDbEnv
      ⟨BodyField.str "   ", BodyField.unconvertible, BodyField.str "Ada"⟩).1.status ≠ 400 := by
  refine ⟨⟨"   ", rfl, by decide, by decide⟩, rfl, ?_, by decide⟩
  intro env
  rfl

/-- The response to a registration that passes the checks, finds the email unused and saves
the user. -/
theorem register_created (env : AuthEnv) (body : RegisterBody) (user : UserDoc)
    (htruthy : body.email.truthy = true ∧ body.password.truthy = true ∧ body.name.truthy = true)
    (hemail : env.toLowerCase (jsTrim body.email.toStr) ≠ "")
    (hpassword : 6 ≤ jsLength (jsTrim body.password.toStr))
    (hname : jsTrim body.name.toStr ≠ "")
    (hunused : env.findOne (env.toLowerCase (jsTrim body.email.toStr)) = Except.ok none)
    (hsave : env.save (env.toLowerCase (jsTrim body.email.toStr)) (jsTrim body.password.toStr)
      (jsTrim body.name.toStr) = Except.ok user) :
    register env body =
      ({ status := 201
         body := ResponseBody.auth (env.generateToken user)
           { id := user._id, email := user.email, name := user.name } },
       [Effect.findOne (env.toLowerCase (jsTrim body.email.toStr)),
        Effect.save (env.toLowerCase (jsTrim body.email.toStr)) (jsTrim body.password.toStr)
          (jsTrim body.name.toStr),
        Effect.sign user._id user.email]) := by
  obtain ⟨he, hp, hn⟩ := htruthy
  have hte : body.email.stringThrows = false := by
    cases hx : body.email.stringThrows with
    | false => rfl
    | true =>
      rw [toStr_of_stringThrows hx] at hemail
      exact absurd env.toLowerCase_empty hemail
  have htn : body.name.stringThrows = false := by
    cases hx : body.name.stringThrows with
    | false => rfl
    | true =>
      rw [toStr_of_stringThrows hx] at hname
      exact absurd rfl hname
  have htp : body.password.stringThrows = false := by
    cases hx : body.password.stringThrows with
    | false => rfl
    | true =>
      rw [toStr_of_stringThrows hx] at hpassword
      exact absurd hpassword (by decide)
  unfold register
  simp only [he, hp, hn, hte, htn, htp, Bool.not_true, Bool.or_self, Bool.false_eq_true,
    if_false, hemail, Nat.not_lt.2 hpassword, hname, hunused, hsave]

/-- C18 (as the code has it): for every registration request that passes the checks, with an
unused email and a successful save, the response has status 201, the token of
`generateToken` and the user object of the saved document; when the model stores the fields it
is given, the email of that object is the submitted email trimmed and lower-cased and its name
is the submitted name trimmed, which are the submitted ones when these are already in that
form. -/
theorem register_success (env : AuthEnv) (body : RegisterBody) (user : UserDoc)
    (htruthy : body.email.truthy = true ∧ body.password.truthy = true ∧ body.name.truthy = true)
    (hemail : env.toLowerCase (jsTrim body.email.toStr) ≠ "")
    (hpassword : 6 ≤ jsLength (jsTrim body.password.toStr))
    (hname : jsTrim body.name.toStr ≠ "")
    (hunused : env.findOne (env.toLowerCase (jsTrim body.email.toStr)) = Except.ok none)
    (hsave : env.save (env.toLowerCase (jsTrim body.email.toStr)) (jsTrim body.password.toStr)
      (jsTrim body.name.toStr) = Except.ok user)
    (hstored : user.email = env.toLowerCase (jsTrim body.email.toStr) ∧
      user.name = jsTrim body.name.toStr) :
    (register env body).1 =
      { status := 201
        body := ResponseBody.auth (env.generateToken user)
          { id := user._id
            email := env.toLowerCase (jsTrim body.email.toStr)
            name := jsTrim body.name.toStr } } ∧
    (env.toLowerCase (jsTrim body.email.toStr) = body.email.toStr →
      jsTrim body.name.toStr = body.name.toStr →
      (register env body).1 =
        { status := 201
          body := ResponseBody.auth (env.generateToken user)
            { id := user._id, email := body.email.toStr, name := body.name.toStr } }) := by
  have h := register_created env body user htruthy hemail hpassword hname hunused hsave
  rw [h, hstored.1, hstored.2]
  refine ⟨rfl, ?_⟩
  intro h1 h2
  simp only [h1, h2]

/-- C18 (amended) at the request of the registration test and at a request with capitals and
surrounding blanks. -/
theorem register_success_witness :
    (register emptyDbEnv
      ⟨BodyField.str "test-1714564800000@example.com", BodyField.str "password123",
        BodyField.str "Test User"⟩).1 =
      { status := 201
        body := ResponseBody.auth "jwt.65f0c0ffee0000000000a001"
          { id := "65f0c0ffee0000000000a001"
            email := "test-1714564800000@example.com"
            name := "Test User" } } ∧
    (register emptyDbEnv
      ⟨BodyField.str " Ada@Example.com", BodyField.str "secret1",
        BodyField.str " Ada Lovelace "⟩).1 =
      { status := 201
        body := ResponseBody.auth (emptyDbEnv.generateToken
            ⟨"65f0c0ffee0000000000a001", "ada@example.com", "Ada Lovelace", "secret1"⟩)
          { id := "65f0c0ffee0000000000a001"
            email := emptyDbEnv.toLowerCase (jsTrim " Ada@Example.com")
            name := jsTrim " Ada Lovelace " } } :=
  ⟨by decide,
   (register_success emptyDbEnv
      ⟨BodyField.str " Ada@Example.com", BodyField.str "secret1",
        BodyField.str " Ada Lovelace "⟩
      ⟨"65f0c0ffee0000000000a001", "ada@example.com", "Ada Lovelace", "secret1"⟩
      (by decide) (by decide) (by decide) (by decide) rfl (by rfl) (by decide)).1⟩

/-- C18 as stated fails: a valid request with the unused email `Ada@Example.com` and the name
` Ada Lovelace ` gets status 201 with the email `ada@example.com` and the name `Ada Lovelace`,
which are not the submitted ones; and whatever the model and the collection, two requests whose
emails differ in a leading blank get the same response, which cannot show both emails. -/
theorem register_response_not_submitted_email :
    (∃ token id,
      (register emptyDbEnv
        ⟨BodyField.str "Ada@Example.com", BodyField.str "secret1",
          BodyField.str " Ada Lovelace "⟩).1 =
        { status := 201
          body := ResponseBody.auth token
            { id := id, email := "ada@example.com", name := "Ada Lovelace" } }) ∧
    "ada@example.com" ≠ "Ada@Example.com" ∧ "Ada Lovelace" ≠ " Ada Lovelace " ∧
    (∀ env : AuthEnv,
      register env ⟨BodyField.str " ada@example.com", BodyField.str "secret1",
          BodyField.str "Ada"⟩ =
        register env ⟨BodyField.str "ada@example.com", BodyField.str "secret1",
          BodyField.str "Ada"⟩) := by
  refine ⟨⟨"jwt.65f0c0ffee0000000000a001", "65f0c0ffee0000000000a001", by decide⟩,
    by decide, by decide, ?_⟩
  intro env
  have h : jsTrim " ada@example.com" = jsTrim "ada@example.com" := by decide
  simp only [register, BodyField.truthy, BodyField.toStr, h]
  rfl

/-- C19 (amended): for a login request with `email` and `password` given and an `email` that
`String(...)` converts, the response is status 401 with the error `Invalid email or password`
both when `User.findOne` finds no user for the trimmed, lower-cased email and when it finds
one whose password `bcrypt.compare` does not match the converted password; the two responses
are equal, carry no token, and `generateToken` is not called.  A password that `String(...)`
cannot convert is answered 500 when a user is found. -/
theorem login_invalid_credentials (env : AuthEnv) (body : LoginBody)
    (htruthy : body.email.truthy = true ∧ body.password.truthy = true)
    (hemail : body.email.stringThrows = false)
    (h : env.findOne (env.toLowerCase (jsTrim body.email.toStr)) = Except.ok none ∨
      ∃ user, env.findOne (env.toLowerCase (jsTrim body.email.toStr)) = Except.ok (some user) ∧
        body.password.stringThrows = false ∧
        env.compare body.password.toStr user.password = Except.ok false) :
    (login env body).1 = { status := 401, body := ResponseBody.error "Invalid email or password" } ∧
    (∀ token user, (login env body).1.body ≠ ResponseBody.auth token user) ∧
    (∀ userId email, Effect.sign userId email ∉ (login env body).2) ∧
    (∀ (env' : AuthEnv) (body' : LoginBody),
      body'.email.truthy = true ∧ body'.password.truthy = true →
      body'.email.stringThrows = false →
      (env'.findOne (env'.toLowerCase (jsTrim body'.email.toStr)) = Except.ok none ∨
        ∃ user, env'.findOne (env'.toLowerCase (jsTrim body'.email.toStr)) =
            Except.ok (some user) ∧
          body'.password.stringThrows = false ∧
          env'.compare body'.password.toStr user.password = Except.ok false) →
      (login env' body').1 = (login env body).1) ∧
    (∀ (env' : AuthEnv) (body' : LoginBody) (user : UserDoc),
      body'.email.truthy = true ∧ body'.password.truthy = true →
      body'.email.stringThrows = false →
      env'.findOne (env'.toLowerCase (jsTrim body'.email.toStr)) = Except.ok (some user) →
      body'.password.stringThrows = true →
      login env' body' =
        ({ status := 500, body := ResponseBody.error conversionError.message },
         [Effect.findOne (env'.toLowerCase (jsTrim body'.email.toStr))])) := by
  have key : ∀ (env : AuthEnv) (body : LoginBody),
      body.email.truthy = true ∧ body.password.truthy = true →
      body.email.stringThrows = false →
      (env.findOne (env.toLowerCase (jsTrim body.email.toStr)) = Except.ok none ∨
        ∃ user, env.findOne (env.toLowerCase (jsTrim body.email.toStr)) =
            Except.ok (some user) ∧
          body.password.stringThrows = false ∧
          env.compare body.password.toStr user.password = Except.ok false) →
      (login env body).1 =
          { status := 401, body := ResponseBody.error "Invalid email or password" } ∧
        ∀ userId email, Effect.sign userId email ∉ (login env body).2 := by
    intro env body ht hte h
    obtain ⟨he, hp⟩ := ht
    rcases h with h | ⟨user, hf, htp, hc⟩
    · simp [login, he, hp, hte, h]
    · simp [login, he, hp, hte, htp, hf, hc]
  obtain ⟨h1, h2⟩ := key env body htruthy hemail h
  refine ⟨h1, ?_, h2, ?_, ?_⟩
  · intro token user
    rw [h1]
    simp
  · intro env' body' ht' hte' h'
    rw [h1, (key env' body' ht' hte' h').1]
  · intro env' body' user ht' hte' hf' htp'
    simp [login, ht'.1, ht'.2, hte', hf', htp']

/-- C19 (amended) at the request of the login test against an empty collection and at a wrong
password for a stored user. -/
theorem login_invalid_credentials_witness :
    (login emptyDbEnv
      ⟨BodyField.str "nonexistent@test.com", BodyField.str "wrongpass"⟩).1 =
        { status := 401, body := ResponseBody.error "Invalid email or password" } ∧
    (login oneUserEnv ⟨BodyField.str "Ada@Example.com", BodyField.str "wrongpass"⟩).1 =
        { status := 401, body := ResponseBody.error "Invalid email or password" } ∧
    (login oneUserEnv ⟨BodyField.str "Ada@Example.com", BodyField.str "secret1"⟩).1.status =
        200 :=
  ⟨(login_invalid_credentials emptyDbEnv
      ⟨BodyField.str "nonexistent@test.com", BodyField.str "wrongpass"⟩
      (by decide) rfl (Or.inl rfl)).1,
   (login_invalid_credentials oneUserEnv
      ⟨BodyField.str "Ada@Example.com", BodyField.str "wrongpass"⟩
      (by decide) rfl
      (Or.inr ⟨⟨"65f0c0ffee0000000000a001", "ada@example.com", "Ada", "secret1"⟩,
        by rfl, rfl, by rfl⟩)).1,
   by decide⟩

/-- C19 as stated fails: with a password that `String(...)` cannot convert, such as
`{"toString": 1}`, which matches no stored password, the request is answered 401 when no user
has the email (line 78 returns before the password is read) and 500 when a user has it (line
81 throws), so the caller can tell the two cases apart. -/
theorem login_unconvertible_password_tells_apart :
    oneUserEnv.findOne "nobody@example.com" = Except.ok none ∧
    oneUserEnv.findOne "ada@example.com" =
      Except.ok (some ⟨"65f0c0ffee0000000000a001", "ada@example.com", "Ada", "secret1"⟩) ∧
    login oneUserEnv ⟨BodyField.str "nobody@example.com", BodyField.unconvertible⟩ =
      ({ status := 401, body := ResponseBody.error "Invalid email or password" },
       [Effect.findOne "nobody@example.com"]) ∧
    login oneUserEnv ⟨BodyField.str "ada@example.com", BodyField.unconvertible⟩ =
      ({ status := 500,
         body := ResponseBody.error "Cannot convert object to primitive value" },
       [Effect.findOne "ada@example.com"]) ∧
    (login oneUserEnv ⟨BodyField.str "ada@example.com", BodyField.unconvertible⟩).1 ≠
      (login oneUserEnv ⟨BodyField.str "nobody@example.com", BodyField.unconvertible⟩).1 := by
  refine ⟨rfl, rfl, by decide, by decide, by decide⟩

/-- C20: `POST /api/auth/login` responds with status 400 and the error
`Email and password are required`, and makes no call on the `User` model, whenever `email` or
`password` is missing or empty (falsy) in the request body. -/
theorem login_rejects_missing (env : AuthEnv) (body : LoginBody)
    (h : body.email.truthy = false ∨ body.password.truthy = false) :
    login env body =
      ({ status := 400, body := ResponseBody.error "Email and password are required" }, []) := by
  rcases h with h | h <;> simp [login, h]

/-- C20 at the two requests of the login tests and at an empty password. -/
theorem login_rejects_missing_witness :
    login oneUserEnv ⟨BodyField.absent, BodyField.str "pass1234"⟩ =
      ({ status := 400, body := ResponseBody.error "Email and password are required" }, []) ∧
    login oneUserEnv ⟨BodyField.str "test@test.com", BodyField.absent⟩ =
      ({ status := 400, body := ResponseBody.error "Email and password are required" }, []) ∧
    login oneUserEnv ⟨BodyField.str "ada@example.com", BodyField.str ""⟩ =
      ({ status := 400, body := ResponseBody.error "Email and password are required" }, []) :=
  ⟨login_rejects_missing oneUserEnv ⟨BodyField.absent, BodyField.str "pass1234"⟩ (Or.inl rfl),
   login_rejects_missing oneUserEnv ⟨BodyField.str "test@test.com", BodyField.absent⟩
     (Or.inr rfl),
   login_rejects_missing oneUserEnv ⟨BodyField.str "ada@example.com", BodyField.str ""⟩
     (Or.inr rfl)⟩

/-! ## The claims about the signup form -/

/-- The five checks of `handleSubmit` in the order of the source, each with its message. -/
theorem handleSubmit_cases (form : SignupForm) (outcome : RegisterOutcome) :
    (jsTrim form.name = "" ∧ handleSubmit form outcome = rejectForm "Name is required") ∨
    (jsTrim form.name ≠ "" ∧ jsTrim form.email = "" ∧
      handleSubmit form outcome = rejectForm "Email is required") ∨
    (jsTrim form.name ≠ "" ∧ jsTrim form.email ≠ "" ∧ form.password = "" ∧
      handleSubmit form outcome = rejectForm "Password is required") ∨
    (jsTrim form.name ≠ "" ∧ jsTrim form.email ≠ "" ∧ form.password ≠ "" ∧
      jsLength form.password < 6 ∧
      handleSubmit form outcome = rejectForm "Password must be at least 6 characters") ∨
    (jsTrim form.name ≠ "" ∧ jsTrim form.email ≠ "" ∧ form.password ≠ "" ∧
      6 ≤ jsLength form.password ∧ form.password ≠ form.confirmPassword ∧
      handleSubmit form outcome = rejectForm "Passwords do not match") ∨
    (jsTrim form.name ≠ "" ∧ jsTrim form.email ≠ "" ∧ form.password ≠ "" ∧
      6 ≤ jsLength form.password ∧ form.password = form.confirmPassword ∧
      (handleSubmit form outcome).registerCalls =
        [(jsTrim form.name, jsTrim form.email, form.password)]) := by
  by_cases h1 : jsTrim form.name = ""
  · exact Or.inl ⟨h1, by simp [handleSubmit, h1]⟩
  by_cases h2 : jsTrim form.email = ""
  · exact Or.inr (Or.inl ⟨h1, h2, by simp [handleSubmit, h1, h2]⟩)
  by_cases h3 : form.password = ""
  · exact Or.inr (Or.inr (Or.inl ⟨h1, h2, h3, by simp [handleSubmit, h1, h2, h3]⟩))
  by_cases h4 : jsLength form.password < 6
  · exact Or.inr (Or.inr (Or.inr (Or.inl ⟨h1, h2, h3, h4, by
      simp [handleSubmit, h1, h2, h3, h4]⟩)))
  by_cases h5 : form.password = form.confirmPassword
  · refine Or.inr (Or.inr (Or.inr (Or.inr (Or.inr ⟨h1, h2, h3, Nat.le_of_not_lt h4, h5, ?_⟩))))
    cases outcome <;> simp [handleSubmit, h1, h2, h3, h4, ← h5]
  · exact Or.inr (Or.inr (Or.inr (Or.inr (Or.inl ⟨h1, h2, h3, Nat.le_of_not_lt h4, h5, by
      simp [handleSubmit, h1, h2, h3, h4, h5]⟩))))

/-- Claim C21: for every form input with a non-blank name, a non-blank email, a password of at
least 6 characters and a confirmation equal to the password, and however the call settles,
`handleSubmit` calls `register` exactly once, with `(name.trim(), email.trim(), password)`:
the password is the one typed, unmodified. -/
theorem handleSubmit_calls_register_once (form : SignupForm) (outcome : RegisterOutcome)
    (hname : jsTrim form.name ≠ "") (hemail : jsTrim form.email ≠ "")
    (hlen : 6 ≤ jsLength form.password) (hconfirm : form.confirmPassword = form.password) :
    (handleSubmit form outcome).registerCalls =
        [(jsTrim form.name, jsTrim form.email, form.password)] ∧
      (handleSubmit form outcome).registerCalls.length = 1 ∧
      (∀ call ∈ (handleSubmit form outcome).registerCalls, call.2.2 = form.password) := by
  have hpw : form.password ≠ "" := by
    intro h
    rw [h] at hlen
    exact absurd hlen (by decide)
  have hcalls : (handleSubmit form outcome).registerCalls =
      [(jsTrim form.name, jsTrim form.email, form.password)] := by
    cases outcome <;>
      simp [handleSubmit, hname, hemail, hpw, Nat.not_lt.mpr hlen, hconfirm]
  rw [hcalls]
  simp

/-- The submission of the test "calls register with valid data" (`SignupPage.test.jsx`), with
white space around the name and the email: `register` is called once with the trimmed name,
the trimmed email and the password as typed. -/
theorem handleSubmit_calls_register_once_witness :
    (handleSubmit
        { name := "  Test User ", email := " test@example.com", password := "password123",
          confirmPassword := "password123" } RegisterOutcome.resolved).registerCalls =
        [("Test User", "test@example.com", "password123")] ∧
      (handleSubmit
        { name := "  Test User ", email := " test@example.com", password := "password123",
          confirmPassword := "password123" } RegisterOutcome.resolved).registerCalls.length
        = 1 ∧
      (∀ call ∈ (handleSubmit
        { name := "  Test User ", email := " test@example.com", password := "password123",
          confirmPassword := "password123" } RegisterOutcome.resolved).registerCalls,
        call.2.2 = "password123") :=
  handleSubmit_calls_register_once
    { name := "  Test User ", email := " test@example.com", password := "password123",
      confirmPassword := "password123" } RegisterOutcome.resolved
    (by decide) (by decide) (by decide) rfl

/-- Claim C22: whenever the name is blank, the email is blank, the password is empty or shorter
than 6 characters, or the confirmation differs from the password, `handleSubmit` does not call
`register`, does not navigate, and displays the error of the first failing check in the order
"Name is required", "Email is required", "Password is required", "Password must be at least
6 characters", "Passwords do not match". -/
theorem handleSubmit_first_failing_check (form : SignupForm) (outcome : RegisterOutcome)
    (hbad : jsTrim form.name = "" ∨ jsTrim form.email = "" ∨ form.password = "" ∨
      jsLength form.password < 6 ∨ form.confirmPassword ≠ form.password) :
    (handleSubmit form outcome).registerCalls = [] ∧
      (handleSubmit form outcome).navigated = none ∧
      (handleSubmit form outcome).error =
        (if jsTrim form.name = "" then "Name is required"
         else if jsTrim form.email = "" then "Email is required"
         else if form.password = "" then "Password is required"
         else if jsLength form.password < 6 then "Password must be at least 6 characters"
         else "Passwords do not match") := by
  rcases handleSubmit_cases form outcome with h | h | h | h | h | h
  · obtain ⟨h1, hr⟩ := h
    rw [hr]; simp [rejectForm, h1]
  · obtain ⟨h1, h2, hr⟩ := h
    rw [hr]; simp [rejectForm, h1, h2]
  · obtain ⟨h1, h2, h3, hr⟩ := h
    rw [hr]; simp [rejectForm, h1, h2, h3]
  · obtain ⟨h1, h2, h3, h4, hr⟩ := h
    rw [hr]; simp [rejectForm, h1, h2, h3, h4]
  · obtain ⟨h1, h2, h3, h4, h5, hr⟩ := h
    rw [hr]; simp [rejectForm, h1, h2, h3, Nat.not_lt.mpr h4]
  · obtain ⟨h1, h2, h3, h4, h5, _⟩ := h
    rcases hbad with hb | hb | hb | hb | hb
    · exact absurd hb h1
    · exact absurd hb h2
    · exact absurd hb h3
    · exact absurd hb (Nat.not_lt.mpr h4)
    · exact absurd h5.symm hb

/-- The submission of the test "shows error when password is too short", with a confirmation
that differs as well: the earlier check decides the message. -/
theorem handleSubmit_first_failing_check_witness :
    (handleSubmit
        { name := "Test User", email := "test@example.com", password := "12345",
          confirmPassword := "123456" } RegisterOutcome.resolved).registerCalls = [] ∧
      (handleSubmit
        { name := "Test User", email := "test@example.com", password := "12345",
          confirmPassword := "123456" } RegisterOutcome.resolved).navigated = none ∧
      (handleSubmit
        { name := "Test User", email := "test@example.com", password := "12345",
          confirmPassword := "123456" } RegisterOutcome.resolved).error =
        "Password must be at least 6 characters" :=
  handleSubmit_first_failing_check
    { name := "Test User", email := "test@example.com", password := "12345",
      confirmPassword := "123456" } RegisterOutcome.resolved
    (Or.inr (Or.inr (Or.inr (Or.inl (by decide)))))

/-! ## The claim about the service enumeration -/

/-- Claim C23: the simulator's `SERVICES`, the keys of `LOG_TEMPLATES`, the retention route's
`SERVICES` and the services route's `SERVICE_NAMES` are the same list of five distinct names
(so they are equal as sets), the five names are the known ones, and "payment-service" is one
of them. -/
theorem service_enumerations_agree :
    logTemplateKeys = SERVICES ∧ Retention.SERVICES = SERVICES ∧ SERVICE_NAMES = SERVICES ∧
      SERVICES.Nodup ∧ SERVICES.length = 5 ∧
      (∀ name, name ∈ SERVICES ↔
        name = "auth-service" ∨ name = "payment-service" ∨ name = "api-gateway" ∨
          name = "user-service" ∨ name = "notification-service") ∧
      "payment-service" ∈ SERVICES := by
  refine ⟨by decide, by decide, by decide, by decide, by decide, ?_, by decide⟩
  intro name
  simp [SERVICES]

/-! ## Simulated time: from one incident to the next -/

theorem mathFloor_delay_le (r : RandomDraw) : mathFloor (getNextIncidentDelay r) ≤ 180000 := by
  have h : getNextIncidentDelay r / ONE ≤ ofInt 180000 / ONE :=
    Nat.div_le_div_right (getNextIncidentDelay_le r)
  rw [show ofInt 180000 / ONE = 180000 from mathFloor_ofInt 180000] at h
  exact h

/-- The shape of a clocked state in which the next incident is awaited. -/
theorem awaiting_shape {d : Nat} {c : Clocked} (hinv : ClockedInv c) (hw : Awaiting d c) :
    ∃ hT hI it nh d1 r,
      hT < nh ∧ hI < nh ∧ hT ≠ hI ∧ c.now ≤ d ∧
      c.sim = ⟨some hT, it, some hI, false, true,
              [⟨hT, Callback.tick, ofInt 1000, true⟩,
               ⟨hI, Callback.incidentStart, getNextIncidentDelay r, false⟩], nh⟩ ∧
      c.due = [(hT, d1), (hI, d)] := by
  obtain ⟨hrun, hact, hle, h, hns, hdue⟩ := hw
  obtain ⟨hsim, hsync⟩ := hinv
  obtain ⟨hT, hI, hTlt, hIlt, hne, htick, hcase⟩ := hsim.1 hrun
  obtain ⟨⟨ti, it, ns, act, run, timers, nh⟩, now, due⟩ := c
  simp only at hrun hact hle hns hdue hsync hTlt hIlt htick hcase
  subst hrun hact htick
  rcases hcase with ⟨_, hns', r, htimers⟩ | ⟨hactive, _, _⟩
  · subst htimers
    rw [hns] at hns'
    simp only [Option.some.injEq] at hns'
    subst hns'
    obtain ⟨d1, d2, rfl⟩ := map_fst_eq_pair due hsync
    have h1 : (h == hT) = false := by simpa using fun e : h = hT => hne e.symm
    simp only [List.lookup_cons, h1, beq_self_eq_true, Option.some.injEq] at hdue
    subst hdue
    exact ⟨hT, h, it, nh, d1, r, hTlt, hIlt, hne, hle, by rw [hns], rfl⟩
  · exact absurd hactive (by decide)

/-- One event other than `stopSimulator` while the next incident is awaited: either it is still
awaited, or the event is the firing of the start timeout, at the time `d` at which it is due,
which begins the incident. -/
theorem awaiting_step {d : Nat} {c c' : Clocked} (hinv : ClockedInv c) (hw : Awaiting d c)
    (e : ClockedEvent) (hne : e ≠ ClockedEvent.stop) (hstep : c.step e = some c') :
    Awaiting d c' ∨
    (c.now = d ∧ c'.now = d ∧ InWindow d c' ∧
      ∃ h r, e = ClockedEvent.fire h r ∧ c.sim.nextIncidentSchedule = some h) := by
  obtain ⟨hT, hI, it, nh, d1, r0, hTlt, hIlt, hTI, hle, hsim, hdue⟩ := awaiting_shape hinv hw
  obtain ⟨sim, now, due⟩ := c
  simp only at hsim hdue hle
  subst hsim hdue
  have hIT : (hI == hT) = false := by simpa using fun e : hI = hT => hTI e.symm
  have hTIb : (hT == hI) = false := by simpa using hTI
  have hIne : hI ≠ hT := fun e => hTI e.symm
  cases e with
  | stop => exact absurd rfl hne
  | start r =>
    simp only [Clocked.step, Option.some.injEq] at hstep
    subst hstep
    left
    refine ⟨?_, ?_, hle, hI, ?_, ?_⟩
    · exact startSimulator_isRunning _ r
    · rw [startSimulator_running r rfl]
    · rw [startSimulator_running r rfl]
    · rw [startSimulator_running r rfl]
      simp [resync, List.lookup_cons, hIT]
  | wait ms =>
    simp only [Clocked.step] at hstep
    split_ifs at hstep with hg
    simp only [Option.some.injEq] at hstep
    subst hstep
    left
    have hle2 : now + ms ≤ d := by
      simp only [List.all_cons, List.all_nil, Bool.and_true, Bool.and_eq_true,
        decide_eq_true_eq] at hg
      exact hg.2
    exact ⟨rfl, rfl, hle2, hI, rfl, by simp [List.lookup_cons, hIT]⟩
  | fire h r =>
    simp only [Clocked.step] at hstep
    by_cases h1 : h = hT
    · subst h1
      simp only [List.lookup_cons, beq_self_eq_true] at hstep
      split_ifs at hstep
      simp only [Option.some.injEq] at hstep
      subst hstep
      left
      have hf : fire ⟨some h, it, some hI, false, true,
            [⟨h, Callback.tick, ofInt 1000, true⟩,
             ⟨hI, Callback.incidentStart, getNextIncidentDelay r0, false⟩], nh⟩ h r =
          ⟨some h, it, some hI, false, true,
            [⟨h, Callback.tick, ofInt 1000, true⟩,
             ⟨hI, Callback.incidentStart, getNextIncidentDelay r0, false⟩], nh⟩ := by
        simp [fire, List.find?_cons, runCallback]
      rw [hf]
      exact ⟨rfl, rfl, hle, hI, rfl, by
        simp [resync, List.lookup_cons, hIT, List.filter_cons, hIne]⟩
    · by_cases h2 : h = hI
      · subst h2
        simp only [List.lookup_cons, hIT, beq_self_eq_true] at hstep
        split_ifs at hstep with hdn
        simp only [Option.some.injEq] at hstep
        subst hstep
        right
        have hnow : now = d := Nat.le_antisymm hle hdn
        have hf : fire ⟨some hT, it, some h, false, true,
              [⟨hT, Callback.tick, ofInt 1000, true⟩,
               ⟨h, Callback.incidentStart, getNextIncidentDelay r0, false⟩], nh⟩ h r =
            ⟨some hT, some nh, some h, true, true,
              [⟨hT, Callback.tick, ofInt 1000, true⟩,
               ⟨nh, Callback.incidentEnd, ofInt 30000, false⟩], nh + 1⟩ := by
          simp [fire, List.find?_cons, hTIb, runCallback, Sim.clearTimer, Sim.addTimer,
            List.filter_cons, hTI]
        rw [hf]
        have hnT : (nh == hT) = false := by
          simpa using fun e : nh = hT => absurd hTlt (by omega)
        have hnI : (nh == h) = false := by
          simpa using fun e : nh = h => absurd hIlt (by omega)
        have hnT' : nh ≠ hT := fun e => absurd hTlt (by omega)
        have hnI' : nh ≠ h := fun e => absurd hIlt (by omega)
        refine ⟨hnow, hnow, ⟨rfl, rfl, by show d ≤ now; omega, by show now ≤ d + 30000; omega,
          nh, rfl, ?_⟩, h, r, rfl, rfl⟩
        simp [resync, List.lookup_cons, List.filter_cons, hnT, hnI, hTIb, hTI, hIne, hnT',
          hnI', mathFloor_ofInt, hnow]
      · have hb1 : (h == hT) = false := by simpa using h1
        have hb2 : (h == hI) = false := by simpa using h2
        simp [List.lookup_cons, hb1, hb2] at hstep

theorem cyclePhase_step {d : Nat} {c c' : Clocked} (hinv : ClockedInv c)
    (hw : CyclePhase d c) (e : ClockedEvent) (hne : e ≠ ClockedEvent.stop)
    (hstep : c.step e = some c') : CyclePhase d c' := by
  rcases hw with hw | hw
  · rcases awaiting_step hinv hw e hne hstep with h | h
    · exact Or.inl h
    · exact Or.inr (Or.inl h.2.2.1)
  · exact Or.inr (windowPhase_step hinv hw e hne hstep)

theorem cyclePhase_run {d : Nat} (es : List ClockedEvent) :
    ∀ c c' : Clocked, ClockedInv c → CyclePhase d c → StopFree es → c.run es = some c' →
      ClockedInv c' ∧ CyclePhase d c' := by
  induction es with
  | nil =>
    intro c c' hinv hw _ hrun
    simp only [Clocked.run, Option.some.injEq] at hrun
    subst hrun; exact ⟨hinv, hw⟩
  | cons e rest ih =>
    intro c c' hinv hw hsf hrun
    simp only [Clocked.run] at hrun
    cases hs : c.step e with
    | none => rw [hs] at hrun; simp at hrun
    | some c1 =>
      rw [hs] at hrun
      have hne : e ≠ ClockedEvent.stop := hsf e (List.mem_cons_self _ _)
      exact ih c1 c' (clockedInv_step e hinv hs) (cyclePhase_step hinv hw e hne hs)
        (fun x hx => hsf x (List.mem_cons_of_mem _ hx)) hrun

/-- A state of the cycle with the flag cleared and the clock not beyond `d` still awaits the
incident due at `d`. -/
theorem awaiting_of_phase {d : Nat} {c : Clocked} (hw : CyclePhase d c)
    (hoff : c.sim.isIncidentActive = false) (hnow : c.now ≤ d) : Awaiting d c := by
  rcases hw with hw | hw | hw | hw
  · exact hw
  · rw [hw.2.1] at hoff; exact absurd hoff (by decide)
  · have := hw.2.2.1; omega
  · omega

/-- At the time `d` at which the awaited start timeout is due it can fire, and its firing sets
the incident flag at that instant. -/
theorem fire_start_enabled {d : Nat} {c : Clocked} (hinv : ClockedInv c) (hw : Awaiting d c)
    (hnow : c.now = d) :
    ∃ h, c.sim.nextIncidentSchedule = some h ∧
      ∀ r, ∃ c', c.step (ClockedEvent.fire h r) = some c' ∧
        c'.sim.isIncidentActive = true ∧ c'.now = d := by
  obtain ⟨hT, hI, it, nh, d1, r0, hTlt, hIlt, hTI, hle, hsim, hdue⟩ := awaiting_shape hinv hw
  refine ⟨hI, by rw [hsim], ?_⟩
  intro r
  have hlook : c.due.lookup hI = some d := by
    have hIT : (hI == hT) = false := by simpa using fun e : hI = hT => hTI e.symm
    rw [hdue]; simp [List.lookup_cons, hIT]
  have hstep : c.step (ClockedEvent.fire hI r) = some
      { sim := fire c.sim hI r
        now := c.now
        due := resync c.now (c.due.filter fun p => p.1 != hI) (fire c.sim hI r).timers } := by
    simp only [Clocked.step, hlook]
    rw [if_pos (by omega)]
  refine ⟨_, hstep, ?_, hnow⟩
  have hTIb : (hT == hI) = false := by simpa using hTI
  simp only [hsim]
  simp [fire, List.find?_cons, hTIb, runCallback, Sim.clearTimer, Sim.addTimer,
    List.filter_cons, hTI]

/-- Once the next incident is awaited for the time `d`, it starts at `d` in every continuation
without `stopSimulator`. -/
theorem nextIncidentAt_of_awaiting {d : Nat} {c : Clocked} (hinv : ClockedInv c)
    (hw : Awaiting d c) : NextIncidentAt d c := by
  have hphase : ∀ es c4, StopFree es → c.run es = some c4 →
      ClockedInv c4 ∧ CyclePhase d c4 :=
    fun es c4 hsf hrun => cyclePhase_run es c c4 hinv (Or.inl hw) hsf hrun
  refine ⟨?_, ?_, ?_, ?_⟩
  · intro es c4 hsf hrun hlt
    rcases (hphase es c4 hsf hrun).2 with h | h | h | h
    · exact h.2.1
    · have := h.2.2.1; omega
    · have := h.2.2.1; omega
    · omega
  · intro es c4 hsf hrun hgt hlt
    rcases (hphase es c4 hsf hrun).2 with h | h | h | h
    · have := h.2.2.1; omega
    · exact h.2.1
    · have := h.2.2.1; omega
    · omega
  · intro es c4 e c5 hsf hrun hne hstep hoff hle hon
    obtain ⟨hinv4, hph⟩ := hphase es c4 hsf hrun
    rcases awaiting_step hinv4 (awaiting_of_phase hph hoff hle) e hne hstep with h | h
    · rw [h.2.1] at hon; exact absurd hon (by decide)
    · exact ⟨h.1, h.2.1⟩
  · intro es c4 hsf hrun hoff hat
    obtain ⟨hinv4, hph⟩ := hphase es c4 hsf hrun
    exact fire_start_enabled hinv4 (awaiting_of_phase hph hoff (by omega)) hat

/-- A call of `startSimulator` on a stopped simulator at time `c.now` registers the first
incident-start timeout, due after its delay. -/
theorem awaiting_of_start {c c1 : Clocked} (hinv : ClockedInv c)
    (hstopped : c.sim.isRunning = false) (r : RandomDraw)
    (hstep : c.step (ClockedEvent.start r) = some c1) :
    Awaiting (c.now + mathFloor (getNextIncidentDelay r)) c1 := by
  obtain ⟨hsim, hsync⟩ := hinv
  obtain ⟨⟨ti, it, ns, act, run, timers, nh⟩, now, due⟩ := c
  simp only at hstopped hsync hsim
  subst hstopped
  obtain ⟨ht, hact, _, _, _⟩ := hsim.2 rfl
  simp only at ht hact
  subst ht hact
  have hd : due = [] := by simpa using hsync
  subst hd
  simp only [Clocked.step, Option.some.injEq] at hstep
  subst hstep
  have hle : now ≤ now + mathFloor (getNextIncidentDelay r) := Nat.le_add_right _ _
  have hne : (nh + 1 == nh) = false := by simp
  rw [startSimulator_stopped r rfl]
  unfold Awaiting
  refine ⟨rfl, rfl, hle, nh + 1, rfl, ?_⟩
  simp only [resync, List.nil_append, List.cons_append, List.map_cons, List.map_nil]
  rw [List.lookup_cons, hne]
  simp only []
  rw [List.lookup_cons, beq_self_eq_true]
  simp only [List.lookup_nil, Option.getD_none]

theorem stopFree_seconds (n : Nat) : StopFree (List.replicate n oneSecond).flatten := by
  intro e he
  simp only [List.mem_flatten, List.mem_replicate] at he
  obtain ⟨l, ⟨_, rfl⟩, hmem⟩ := he
  simp only [oneSecond, List.mem_cons, List.mem_singleton, List.not_mem_nil, or_false] at hmem
  rcases hmem with rfl | rfl <;> simp

theorem stopFree_longestIdle : StopFree longestIdleEvents := by
  intro e he
  simp only [longestIdleEvents, List.mem_append, List.mem_singleton] at he
  rcases he with (he | rfl) | he
  · exact stopFree_seconds 30 e he
  · simp
  · exact stopFree_seconds 180 e he

theorem incidentEnding_run :
    incidentBegun.run (List.replicate 30 oneSecond).flatten = some incidentEnding := by
  decide!

theorem incidentEnded_step :
    incidentEnding.step (ClockedEvent.fire 3 maxDraw) = some incidentEnded := by
  decide!

/-! ## The claim about the time between two incidents -/

/-- Claim C24 (amended): under the simulated clock, in a run that is never stopped, let an
incident start at time `t` (the start timeout fires in `c`) and end with the firing of the end
timeout with the draw `r`.  Then the end is at `t + 30000`, and the next incident starts at
`t + 30000 + floor(delay r)`, which is 30000 ms plus the sampled idle delay in the whole
milliseconds of the timer, and lies between `t + 150000` and `t + 210000`, both inclusive.
After a call of `startSimulator` on a stopped simulator at time `t0` with the draw `r`, the
first incident starts at `t0 + floor(delay r)`, between `t0 + 120000` and `t0 + 180000`, both
inclusive. -/
theorem incident_period (c : Clocked) (hreach : Clocked.Reachable c) (h : Nat)
    (r0 : RandomDraw) (c1 : Clocked) (hidle : c.sim.isIncidentActive = false)
    (hfire : c.step (ClockedEvent.fire h r0) = some c1)
    (hact : c1.sim.isIncidentActive = true)
    (es : List ClockedEvent) (c2 : Clocked) (h' : Nat) (r : RandomDraw) (c3 : Clocked)
    (hsf : StopFree es) (hrun : c1.run es = some c2)
    (hstep : c2.step (ClockedEvent.fire h' r) = some c3)
    (hact2 : c2.sim.isIncidentActive = true) (hle : c2.now ≤ c.now + 30000)
    (hoff : c3.sim.isIncidentActive = false) :
    (c3.now = c.now + 30000 ∧
      c.now + 150000 ≤ c.now + 30000 + mathFloor (getNextIncidentDelay r) ∧
      c.now + 30000 + mathFloor (getNextIncidentDelay r) ≤ c.now + 210000 ∧
      NextIncidentAt (c.now + 30000 + mathFloor (getNextIncidentDelay r)) c3) ∧
    (∀ (c0 : Clocked) (r1 : RandomDraw) (c0' : Clocked), Clocked.Reachable c0 →
      c0.sim.isRunning = false → c0.step (ClockedEvent.start r1) = some c0' →
      c0.now + 120000 ≤ c0.now + mathFloor (getNextIncidentDelay r1) ∧
      c0.now + mathFloor (getNextIncidentDelay r1) ≤ c0.now + 180000 ∧
      NextIncidentAt (c0.now + mathFloor (getNextIncidentDelay r1)) c0') := by
  have hge : ∀ x : RandomDraw, 120000 ≤ mathFloor (getNextIncidentDelay x) := mathFloor_delay_ge
  have hup : ∀ x : RandomDraw, mathFloor (getNextIncidentDelay x) ≤ 180000 := mathFloor_delay_le
  constructor
  · have hinv := clockedInv_of_reachable hreach
    obtain ⟨hwin, _⟩ := fire_start_enters_window hinv hidle hfire hact
    have hinv1 := clockedInv_step _ hinv hfire
    obtain ⟨hinv2, hph⟩ := windowPhase_run es c1 c2 hinv1 (Or.inl hwin) hsf hrun
    have hw := inWindow_of_phase hph hact2 hle
    have hinv3 := clockedInv_step _ hinv2 hstep
    rcases inWindow_step hinv2 hw _ (by simp) hstep with hin | hout
    · rw [hin.2.1] at hoff; exact absurd hoff (by decide)
    · obtain ⟨_, hnow3, _, hafter, k, x, hev, _, hns, _, hlook⟩ := hout
      have hx : r = x := by
        simp only [ClockedEvent.fire.injEq] at hev
        exact hev.2
      subst hx
      have hgr := hge r
      have hur := hup r
      refine ⟨hnow3, by omega, by omega, ?_⟩
      exact nextIncidentAt_of_awaiting hinv3
        ⟨hafter.1, hafter.2.1, by omega, c2.sim.nextHandle, hns, hlook⟩
  · intro c0 r1 c0' hreach0 hstopped hstart
    have hgr := hge r1
    have hur := hup r1
    refine ⟨by omega, by omega, ?_⟩
    have hinv0 := clockedInv_of_reachable hreach0
    exact nextIncidentAt_of_awaiting (clockedInv_step _ hinv0 hstart)
      (awaiting_of_start hinv0 hstopped r1 hstart)

/-- Claim C24 in the run of `longestIdleEvents`: the incident that starts at 150000 ends at
180000 with the draw `1 - 2^-53`, and the next incident starts at 360000. -/
theorem incident_period_witness :
    (incidentEnded.now = beforeIncident.now + 30000 ∧
      beforeIncident.now + 150000 ≤
        beforeIncident.now + 30000 + mathFloor (getNextIncidentDelay maxDraw) ∧
      beforeIncident.now + 30000 + mathFloor (getNextIncidentDelay maxDraw) ≤
        beforeIncident.now + 210000 ∧
      NextIncidentAt (beforeIncident.now + 30000 + mathFloor (getNextIncidentDelay maxDraw))
        incidentEnded) ∧
    (∀ (c0 : Clocked) (r1 : RandomDraw) (c0' : Clocked), Clocked.Reachable c0 →
      c0.sim.isRunning = false → c0.step (ClockedEvent.start r1) = some c0' →
      c0.now + 120000 ≤ c0.now + mathFloor (getNextIncidentDelay r1) ∧
      c0.now + mathFloor (getNextIncidentDelay r1) ≤ c0.now + 180000 ∧
      NextIncidentAt (c0.now + mathFloor (getNextIncidentDelay r1)) c0') :=
  incident_period beforeIncident
    (reachable_clocked_run _ _ _ Clocked.Reachable.init beforeIncident_run) 2 zeroDraw
    incidentBegun rfl beforeIncident_fire rfl (List.replicate 30 oneSecond).flatten
    incidentEnding 3 maxDraw incidentEnded (stopFree_seconds 30) incidentEnding_run
    incidentEnded_step rfl (by decide) rfl

/-- The time between two incident starts reaches 210000 ms: in the run of `longestIdleEvents`,
which has no `stopSimulator` call, one incident starts at 150000, its end timeout samples the
draw `1 - 2^-53`, whose delay rounds to 180000, and the next incident starts at 360000. -/
theorem incident_period_reaches_210000 :
    Clocked.init.run beforeIncidentEvents = some beforeIncident ∧
    beforeIncident.sim.isIncidentActive = false ∧
    beforeIncident.step (ClockedEvent.fire 2 zeroDraw) = some incidentBegun ∧
    incidentBegun.sim.isIncidentActive = true ∧ incidentBegun.now = 150000 ∧
    StopFree longestIdleEvents ∧
    incidentBegun.run longestIdleEvents = some beforeSecondIncident ∧
    beforeSecondIncident.sim.isIncidentActive = false ∧
    beforeSecondIncident.step (ClockedEvent.fire 4 zeroDraw) = some secondIncidentBegun ∧
    secondIncidentBegun.sim.isIncidentActive = true ∧
    secondIncidentBegun.now = incidentBegun.now + 210000 ∧
    ¬ secondIncidentBegun.now - incidentBegun.now < 210000 := by
  refine ⟨beforeIncident_run, rfl, beforeIncident_fire, rfl, rfl, stopFree_longestIdle, ?_, rfl,
    ?_, rfl, rfl, by decide⟩
  · decide!
  · decide!

/-! ## The claims about the password from signup to login -/

/-- Trimming a trimmed string changes nothing. -/
theorem jsTrim_idem (s : String) : jsTrim (jsTrim s) = jsTrim s := by
  have hform : ∀ l : List Char,
      ((l.dropWhile isJsWhiteSpace).reverse.dropWhile isJsWhiteSpace).reverse =
        List.rdropWhile isJsWhiteSpace (l.dropWhile isJsWhiteSpace) := fun _ => rfl
  have hhead : List.dropWhile isJsWhiteSpace
        (List.rdropWhile isJsWhiteSpace (s.data.dropWhile isJsWhiteSpace)) =
      List.rdropWhile isJsWhiteSpace (s.data.dropWhile isJsWhiteSpace) := by
    rw [List.dropWhile_eq_self_iff]
    intro hl
    have hpre : List.rdropWhile isJsWhiteSpace (s.data.dropWhile isJsWhiteSpace) <+:
        s.data.dropWhile isJsWhiteSpace := List.rdropWhile_prefix _ _
    have hlen : 0 < (s.data.dropWhile isJsWhiteSpace).length :=
      Nat.lt_of_lt_of_le hl hpre.length_le
    have hget := hpre.getElem hl
    have hnot := List.dropWhile_get_zero_not isJsWhiteSpace s.data hlen
    simp only [List.get_eq_getElem] at hnot ⊢
    rw [hget]
    exact hnot
  unfold jsTrim
  simp only [hform, hhead]
  show String.mk (List.rdropWhile isJsWhiteSpace
      (List.rdropWhile isJsWhiteSpace (s.data.dropWhile isJsWhiteSpace))) = _
  rw [List.rdropWhile_idempotent]

/-- What the register handler answers to a submission the signup form accepted, for a
lower-case mapping that maps no other string to the empty one: the checks on the email and the
name pass; the request is rejected with "Password must be at least 6 characters" when the
trimmed password is shorter than 6, and otherwise reaches the lookup of the email. -/
theorem register_after_form (env : AuthEnv) (form : SignupForm) (outcome : RegisterOutcome)
    (hlower : ∀ s, env.toLowerCase s = "" → s = "")
    (hname : jsTrim form.name ≠ "") (hemail : jsTrim form.email ≠ "")
    (hlen : 6 ≤ jsLength form.password) (hconfirm : form.confirmPassword = form.password) :
    (handleSubmit form outcome).registerCalls =
        [(jsTrim form.name, jsTrim form.email, form.password)] ∧
    (jsLength (jsTrim form.password) < 6 →
      register env (registerRequest (jsTrim form.name, jsTrim form.email, form.password)) =
        ({ status := 400,
           body := ResponseBody.error "Password must be at least 6 characters" }, [])) ∧
    (6 ≤ jsLength (jsTrim form.password) →
      Effect.findOne (env.toLowerCase (jsTrim form.email)) ∈
        (register env
          (registerRequest (jsTrim form.name, jsTrim form.email, form.password))).2) := by
  have hpw : form.password ≠ "" := by
    intro h
    rw [h] at hlen
    exact absurd hlen (by decide)
  have hcalls : (handleSubmit form outcome).registerCalls =
      [(jsTrim form.name, jsTrim form.email, form.password)] := by
    cases outcome <;>
      simp [handleSubmit, hname, hemail, hpw, Nat.not_lt.mpr hlen, hconfirm]
  have hlow : env.toLowerCase (jsTrim form.email) ≠ "" := fun h => hemail (hlower _ h)
  refine ⟨hcalls, ?_, ?_⟩
  · intro hshort
    simp [register, registerRequest, BodyField.truthy, BodyField.toStr, BodyField.stringThrows,
      jsTrim_idem, hname, hemail, hpw, hlow, hshort]
  · intro hlong
    simp only [register, registerRequest, BodyField.truthy, BodyField.toStr,
      BodyField.stringThrows, jsTrim_idem, Bool.or_self]
    have h1 : (!(jsTrim form.email != "") || !(form.password != "") ||
        !(jsTrim form.name != "")) = false := by
      simp [hname, hemail, hpw]
    simp only [h1, Bool.false_eq_true, if_false, if_neg hlow, if_neg (Nat.not_lt.mpr hlong),
      if_neg hname]
    cases env.findOne (env.toLowerCase (jsTrim form.email)) with
    | error err => simp
    | ok found =>
      cases found with
      | some user => simp
      | none =>
        cases env.save (env.toLowerCase (jsTrim form.email)) (jsTrim form.password)
          (jsTrim form.name) <;> simp

/-- Claim C25 fails on the code: the register handler stores the trimmed password, the login
handler compares the password as submitted.  With the password "secret1 " (a blank at the
end) the registration succeeds and saves the password "secret1"; against the user so stored,
a login with the same email and the same password "secret1 " compares "secret1 " with the
stored "secret1" and is answered 401, while the trimmed password logs in.  Both handlers look
the user up under the same key, the trimmed and lower-cased email. -/
theorem login_rejects_registered_password :
    register emptyDbEnv
        ⟨BodyField.str "Ada@Example.com", BodyField.str "secret1 ", BodyField.str "Ada"⟩ =
      ({ status := 201
         body := ResponseBody.auth "jwt.65f0c0ffee0000000000a001"
           { id := "65f0c0ffee0000000000a001", email := "ada@example.com", name := "Ada" } },
       [Effect.findOne "ada@example.com", Effect.save "ada@example.com" "secret1" "Ada",
        Effect.sign "65f0c0ffee0000000000a001" "ada@example.com"]) ∧
    6 ≤ jsLength (jsTrim "secret1 ") ∧
    emptyDbEnv.save "ada@example.com" "secret1" "Ada" =
      Except.ok ⟨"65f0c0ffee0000000000a001", "ada@example.com", "Ada", "secret1"⟩ ∧
    oneUserEnv.findOne "ada@example.com" =
      Except.ok (some ⟨"65f0c0ffee0000000000a001", "ada@example.com", "Ada", "secret1"⟩) ∧
    login oneUserEnv ⟨BodyField.str "Ada@Example.com", BodyField.str "secret1 "⟩ =
      ({ status := 401, body := ResponseBody.error "Invalid email or password" },
       [Effect.findOne "ada@example.com", Effect.compare "secret1 " "secret1"]) ∧
    (login oneUserEnv ⟨BodyField.str "Ada@Example.com", BodyField.str "secret1"⟩).1.status =
      200 ∧
    (∀ (env : AuthEnv) (email password name : BodyField) (key : String),
      Effect.findOne key ∈ (register env ⟨email, password, name⟩).2 →
        key = env.toLowerCase (jsTrim email.toStr)) ∧
    (∀ (env : AuthEnv) (email password : BodyField) (key : String),
      Effect.findOne key ∈ (login env ⟨email, password⟩).2 →
        key = env.toLowerCase (jsTrim email.toStr)) := by
  refine ⟨by decide, by decide, rfl, rfl, by decide, by decide, ?_, ?_⟩
  · intro env email password name key hmem
    simp only [register] at hmem
    split_ifs at hmem
    · simp at hmem
    · simp at hmem
    · simp at hmem
    · simp at hmem
    · simp at hmem
    · split at hmem
      · simpa using hmem
      · simpa using hmem
      · split at hmem
        · simpa using hmem
        · simpa using hmem
  · intro env email password key hmem
    simp only [login] at hmem
    split_ifs at hmem
    · simp at hmem
    · simp at hmem
    · split at hmem <;> simpa using hmem
    · split at hmem
      · simpa using hmem
      · simpa using hmem
      · split at hmem <;> simpa using hmem

/-- Claim C26 fails on the code: the form measures the password as typed, the register handler
measures it trimmed.  The form accepts the password "12345 " (six characters, the last a
blank) and calls `register` with it unmodified; the handler answers that request with 400
"Password must be at least 6 characters", before any call on the user collection. -/
theorem form_accepted_password_rejected_by_server :
    (handleSubmit
        { name := "Ada", email := "ada@example.com", password := "12345 ",
          confirmPassword := "12345 " } RegisterOutcome.resolved).registerCalls =
      [("Ada", "ada@example.com", "12345 ")] ∧
    jsLength "12345 " = 6 ∧ jsLength (jsTrim "12345 ") = 5 ∧
    registerRequest ("Ada", "ada@example.com", "12345 ") =
      ⟨BodyField.str "ada@example.com", BodyField.str "12345 ", BodyField.str "Ada"⟩ ∧
    register emptyDbEnv (registerRequest ("Ada", "ada@example.com", "12345 ")) =
      ({ status := 400, body := ResponseBody.error "Password must be at least 6 characters" },
       []) ∧
    handleSubmit
        { name := "Ada", email := "ada@example.com", password := "12345 ",
          confirmPassword := "12345 " }
        (RegisterOutcome.rejected (some "Password must be at least 6 characters")
          (some "Request failed with status code 400")) =
      { registerCalls := [("Ada", "ada@example.com", "12345 ")]
        error := "Password must be at least 6 characters"
        loading := false
        navigated := none } := by
  refine ⟨by decide, by decide, by decide, rfl, by decide, by decide⟩

/-! ## The retention policies -/

theorem policy_mem_of_lookup {s : String} {p : Policy} :
    ∀ policies : List (String × Policy), policies.lookup s = some p → (s, p) ∈ policies := by
  intro policies
  induction policies with
  | nil => intro hl; simp at hl
  | cons e rest ih =>
    intro hl
    obtain ⟨k, v⟩ := e
    by_cases hsk : s = k
    · subst hsk
      simp [List.lookup_cons] at hl
      subst hl
      exact List.mem_cons_self _ _
    · have hb : (s == k) = false := by simpa using hsk
      simp only [List.lookup_cons, hb] at hl
      exact List.mem_cons_of_mem _ (ih hl)

theorem policy_lookup_of_key {s : String} :
    ∀ policies : List (String × Policy), s ∈ policies.map Prod.fst →
      ∃ p, policies.lookup s = some p := by
  intro policies
  induction policies with
  | nil => intro h; simp at h
  | cons e rest ih =>
    intro h
    obtain ⟨k, v⟩ := e
    by_cases hsk : s = k
    · subst hsk
      exact ⟨v, by simp [List.lookup_cons]⟩
    · have hb : (s == k) = false := by simpa using hsk
      simp only [List.map_cons, List.mem_cons] at h
      obtain ⟨p, hp⟩ := ih (h.resolve_left hsk)
      exact ⟨p, by simp only [List.lookup_cons, hb]; exact hp⟩

theorem setPolicy_keys (policies : List (String × Policy)) (service : String) (p : Policy)
    (h : service ∈ policies.map Prod.fst) :
    (setPolicy policies service p).map Prod.fst = policies.map Prod.fst := by
  unfold setPolicy
  have hany : policies.any (fun e => e.1 == service) = true := by
    simp only [List.mem_map] at h
    obtain ⟨e, he, hk⟩ := h
    exact List.any_eq_true.2 ⟨e, he, by simp [hk]⟩
  rw [if_pos hany, List.map_map]
  apply List.map_congr_left
  intro e _
  simp only [Function.comp]
  by_cases hk : e.1 = service
  · simp [hk]
  · have hb : (e.1 == service) = false := by simpa using hk
    simp [hb]

theorem setPolicy_range (policies : List (String × Policy)) (service : String) (p : Policy)
    (hps : ∀ e ∈ policies, 7 ≤ e.2.retentionDays ∧ e.2.retentionDays ≤ 90)
    (hp : 7 ≤ p.retentionDays ∧ p.retentionDays ≤ 90) :
    ∀ e ∈ setPolicy policies service p, 7 ≤ e.2.retentionDays ∧ e.2.retentionDays ≤ 90 := by
  intro e he
  unfold setPolicy at he
  split_ifs at he
  · simp only [List.mem_map] at he
    obtain ⟨e0, he0, heq⟩ := he
    split_ifs at heq
    · rw [← heq]; exact hp
    · rw [← heq]; exact hps e0 he0
  · simp only [List.mem_append, List.mem_singleton] at he
    rcases he with he | he
    · exact hps e he
    · rw [he]; exact hp

theorem policyInv_setPolicy {policies : List (String × Policy)} (hinv : PolicyInv policies)
    {service : String} (hs : service ∈ Retention.SERVICES) (p : Policy)
    (hp : 7 ≤ p.retentionDays ∧ p.retentionDays ≤ 90) :
    PolicyInv (setPolicy policies service p) := by
  refine ⟨?_, setPolicy_range policies service p hinv.2 hp⟩
  rw [setPolicy_keys policies service p (by rw [hinv.1]; exact hs)]
  exact hinv.1

theorem policyInv_init : PolicyInv initialPolicies := by
  refine ⟨by decide, ?_⟩
  intro e he
  simp only [initialPolicies, Retention.SERVICES, List.map_cons, List.map_nil, List.mem_cons,
    List.mem_singleton, List.not_mem_nil, or_false] at he
  rcases he with rfl | rfl | rfl | rfl | rfl <;> exact ⟨by decide, by decide⟩

theorem policyInv_postPolicies :
    ∀ (entries : List (String × Option Int)) (policies : List (String × Policy)),
      PolicyInv policies → PolicyInv (postPolicies policies entries) := by
  intro entries
  induction entries with
  | nil => intro policies hinv; exact hinv
  | cons entry rest ih =>
    intro policies hinv
    obtain ⟨service, days⟩ := entry
    cases days with
    | none => simp only [postPolicies]; exact ih policies hinv
    | some n =>
      simp only [postPolicies]
      split_ifs with hc
      · simp only [Bool.and_eq_true, decide_eq_true_eq] at hc
        have hs : service ∈ Retention.SERVICES := by simpa using hc.1.1
        cases hl : policies.lookup service with
        | none => exact ih _ (policyInv_setPolicy hinv hs _ ⟨hc.1.2, hc.2⟩)
        | some p => exact ih _ (policyInv_setPolicy hinv hs _ ⟨hc.1.2, hc.2⟩)
      · exact ih policies hinv

theorem policyInv_applyIncoming {policies : List (String × Policy)} (hinv : PolicyInv policies)
    (service retentionDays : Option String) :
    PolicyInv (applyIncoming policies service retentionDays) := by
  cases service with
  | none => exact hinv
  | some s => exact policyInv_postPolicies _ _ hinv

theorem policyInv_forEachIncoming :
    ∀ (entries : List IncomingEntry) (policies : List (String × Policy)),
      PolicyInv policies → PolicyInv (forEachIncoming policies entries).1 := by
  intro entries
  induction entries with
  | nil => intro policies hinv; exact hinv
  | cons entry rest ih =>
    intro policies hinv
    cases entry with
    | nullish => exact hinv
    | fields service retentionDays =>
      simp only [forEachIncoming]
      exact ih _ (policyInv_applyIncoming hinv service retentionDays)

theorem policyInv_postRetention {policies : List (String × Policy)} (hinv : PolicyInv policies)
    (incoming : Option (List IncomingEntry)) : PolicyInv (postRetention policies incoming).1 := by
  cases incoming with
  | none => exact hinv
  | some entries => exact policyInv_forEachIncoming entries policies hinv

theorem retentionDaysOf_range {policies : List (String × Policy)} (hinv : PolicyInv policies)
    (service : String) :
    7 ≤ retentionDaysOf policies service ∧ retentionDaysOf policies service ≤ 90 := by
  unfold retentionDaysOf
  cases hl : policies.lookup service with
  | none => exact ⟨by decide, by decide⟩
  | some p => exact hinv.2 _ (policy_mem_of_lookup policies hl)

theorem policyInv_cleanup_fold (now : Int) :
    ∀ (services : List String) (st : CleanupState),
      (∀ s ∈ services, s ∈ Retention.SERVICES) → PolicyInv st.policies →
      PolicyInv (services.foldl (cleanupService now) st).policies := by
  intro services
  induction services with
  | nil => intro st _ hinv; exact hinv
  | cons a rest ih =>
    intro st hall hinv
    rw [List.foldl_cons]
    apply ih _ (fun s hs => hall s (List.mem_cons_of_mem _ hs))
    exact policyInv_setPolicy hinv (hall a (List.mem_cons_self _ _)) _
      (retentionDaysOf_range hinv a)

theorem policyInv_of_reachable {policies : List (String × Policy)}
    (h : PoliciesReachable policies) : PolicyInv policies := by
  induction h with
  | init => exact policyInv_init
  | post incoming _ ih => exact policyInv_postRetention ih incoming
  | cleanup now index services hall _ ih =>
    exact policyInv_cleanup_fold now services _ hall ih

/-- Writing back a policy with the run properties it already had changes no run property. -/
theorem runFields_setPolicy (policies : List (String × Policy)) (service : String)
    (p0 p : Policy) (hl : policies.lookup service = some p0)
    (h1 : p.lastCleanupRun = p0.lastCleanupRun)
    (h2 : p.logsDeletedLastRun = p0.logsDeletedLastRun) (s : String) :
    runFields (setPolicy policies service p) s = runFields policies s := by
  unfold setPolicy runFields
  split_ifs with hany
  · rw [lookup_map_replace]
    cases hs : policies.lookup s with
    | none => rfl
    | some v =>
      by_cases hsv : s = service
      · subst hsv
        rw [hl] at hs
        simp only [Option.some.injEq] at hs
        subst hs
        simp [h1, h2]
      · simp [hsv]
  · rw [lookup_append_single]
    cases hs : policies.lookup s with
    | some v => rfl
    | none =>
      by_cases hsv : s = service
      · subst hsv
        rw [hl] at hs
        exact absurd hs (by simp)
      · simp [hsv]

theorem runFields_postPolicies :
    ∀ (entries : List (String × Option Int)) (policies : List (String × Policy)),
      PolicyInv policies →
      ∀ s, runFields (postPolicies policies entries) s = runFields policies s := by
  intro entries
  induction entries with
  | nil => intro policies _ s; rfl
  | cons entry rest ih =>
    intro policies hinv s
    obtain ⟨service, days⟩ := entry
    cases days with
    | none => simp only [postPolicies]; exact ih policies hinv s
    | some n =>
      simp only [postPolicies]
      split_ifs with hc
      · simp only [Bool.and_eq_true, decide_eq_true_eq] at hc
        have hs : service ∈ Retention.SERVICES := by simpa using hc.1.1
        obtain ⟨p, hp⟩ := policy_lookup_of_key policies (by rw [hinv.1]; exact hs)
        rw [hp]
        simp only
        rw [ih _ (policyInv_setPolicy hinv hs _ ⟨hc.1.2, hc.2⟩) s]
        exact runFields_setPolicy policies service p { p with retentionDays := n } hp rfl rfl s
      · exact ih policies hinv s

theorem runFields_forEachIncoming :
    ∀ (entries : List IncomingEntry) (policies : List (String × Policy)),
      PolicyInv policies →
      ∀ s, runFields (forEachIncoming policies entries).1 s = runFields policies s := by
  intro entries
  induction entries with
  | nil => intro policies _ s; rfl
  | cons entry rest ih =>
    intro policies hinv s
    cases entry with
    | nullish => rfl
    | fields service retentionDays =>
      simp only [forEachIncoming]
      rw [ih _ (policyInv_applyIncoming hinv service retentionDays) s]
      cases service with
      | none => rfl
      | some sv => exact runFields_postPolicies _ policies hinv s

/-- An entry that names no known service, or whose value does not parse to an integer between
7 and 90, changes nothing. -/
theorem applyIncoming_unchanged (policies : List (String × Policy))
    (service retentionDays : Option String)
    (h : (∀ s, service = some s → s ∉ Retention.SERVICES) ∨
      (∀ text n, retentionDays = some text → parseInt10 text = some n → n < 7 ∨ 90 < n)) :
    applyIncoming policies service retentionDays = policies := by
  cases service with
  | none => rfl
  | some s =>
    simp only [applyIncoming]
    cases hd : retentionDays.bind parseInt10 with
    | none => simp [postPolicies]
    | some n =>
      simp only [postPolicies]
      rw [if_neg]
      intro hc
      simp only [Bool.and_eq_true, decide_eq_true_eq] at hc
      rcases h with h | h
      · exact h s rfl (by simpa using hc.1.1)
      · cases retentionDays with
        | none => simp at hd
        | some text =>
          change parseInt10 text = some n at hd
          rcases h text n rfl hd with hlt | hgt
          · omega
          · omega

/-! ## The claim about the retention policies -/

/-- Claim C27: in every state of the `policies` object reachable from the initial one by
`POST /api/retention` requests with arbitrary bodies and by cleanup runs (whole, or ended or
interrupted after any iteration), the keys are exactly
the five known services and every `retentionDays` is an integer between 7 and 90; an entry
that names an unknown service, or whose value does not parse to an integer between 7 and 90,
leaves the object as it is; and `POST /api/retention` changes no `lastCleanupRun` and no
`logsDeletedLastRun`. -/
theorem retention_policies_invariant (policies : List (String × Policy))
    (hreach : PoliciesReachable policies) :
    (policies.map Prod.fst = Retention.SERVICES ∧ policies.length = 5 ∧
      ∀ e ∈ policies, 7 ≤ e.2.retentionDays ∧ e.2.retentionDays ≤ 90) ∧
    (∀ service retentionDays : Option String,
      ((∀ s, service = some s → s ∉ Retention.SERVICES) ∨
        (∀ text n, retentionDays = some text → parseInt10 text = some n → n < 7 ∨ 90 < n)) →
      applyIncoming policies service retentionDays = policies) ∧
    (∀ (incoming : Option (List IncomingEntry)) (s : String),
      runFields (postRetention policies incoming).1 s = runFields policies s) := by
  have hinv := policyInv_of_reachable hreach
  refine ⟨⟨hinv.1, ?_, hinv.2⟩, fun service retentionDays h =>
    applyIncoming_unchanged policies service retentionDays h, ?_⟩
  · have h := congrArg List.length hinv.1
    rw [List.length_map] at h
    rw [h]; rfl
  · intro incoming s
    cases incoming with
    | none => rfl
    | some entries => exact runFields_forEachIncoming entries policies hinv s

/-- Claim C27 in the state after the request `sampleIncoming` and a cleanup run that fails in
its third iteration: the request is answered 500 at its `null` element, has set 90 days for
`payment-service` and 14 days for `user-service`, and the state has the five keys and periods
between 7 and 90. -/
theorem retention_policies_invariant_witness :
    (postRetention initialPolicies (some sampleIncoming)).2 = 500 ∧
    (postRetention initialPolicies (some sampleIncoming)).1.map
        (fun e => (e.1, e.2.retentionDays)) =
      [("auth-service", 30), ("payment-service", 90), ("api-gateway", 30),
       ("user-service", 14), ("notification-service", 30)] ∧
    ((cleanupPolicies (postRetention initialPolicies (some sampleIncoming)).1 sampleNow
        sampleIndex ["auth-service", "payment-service"]).map Prod.fst = Retention.SERVICES ∧
      (cleanupPolicies (postRetention initialPolicies (some sampleIncoming)).1 sampleNow
        sampleIndex ["auth-service", "payment-service"]).length = 5 ∧
      ∀ e ∈ cleanupPolicies (postRetention initialPolicies (some sampleIncoming)).1 sampleNow
        sampleIndex ["auth-service", "payment-service"],
        7 ≤ e.2.retentionDays ∧ e.2.retentionDays ≤ 90) :=
  ⟨by decide, by decide,
   (retention_policies_invariant _
      (PoliciesReachable.cleanup sampleNow sampleIndex ["auth-service", "payment-service"]
        (by decide) (PoliciesReachable.post (some sampleIncoming) PoliciesReachable.init))).1⟩

/-! ## The service summary -/

theorem ONE_pos : 0 < ONE := Nat.two_pow_pos _

theorem ofInt_ne_zero {k : Nat} (hk : 0 < k) : ofInt k ≠ 0 :=
  Nat.pos_iff_ne_zero.1 (Nat.mul_pos hk ONE_pos)

/-- The integer `Math.round(x)` is the nearest one: `k - 1/2 ≤ x < k + 1/2`. -/
theorem mathRound_nearest (x : Nat) :
    mathRound x * (2 * ONE) ≤ 2 * x + ONE ∧ 2 * x + ONE < (mathRound x + 1) * (2 * ONE) := by
  have hpos : 0 < 2 * ONE := Nat.mul_pos (by decide) ONE_pos
  refine ⟨Nat.div_mul_le_self _ _, ?_⟩
  exact (Nat.div_lt_iff_lt_mul hpos).1 (Nat.lt_succ_self _)

theorem round_of_zero : jsDiv (ofInt (mathRound (jsMul 0 100))) (ofInt 100) = some 0 := by
  decide!

theorem summarize_name (buckets : List ServiceBucket) (name : String) :
    (summarize buckets name).name = name := by
  unfold summarize
  cases buckets.find? fun x => x.key == name <;> rfl

theorem summarize_missing (buckets : List ServiceBucket) (name : String)
    (h : ∀ b ∈ buckets, b.key ≠ name) :
    summarize buckets name =
      { name := name, totalLogs := 0, errorCount := 0, errorRate := some 0, avgDuration := 0,
        lastSeen := none, volumeOverTime := [] } := by
  have hnone : (buckets.find? fun x => x.key == name) = none := by
    rw [List.find?_eq_none]
    intro b hb
    simpa using h b hb
  simp only [summarize, hnone]

/-- The error rate of an entry is a finite number; for an entry with logs it is the quotient
of the nearest integer to `errorCount / totalLogs * 100 * 100` by 100. -/
theorem summarize_errorRate (buckets : List ServiceBucket) (name : String) :
    (∃ rate, (summarize buckets name).errorRate = some rate ∧
      ((summarize buckets name).totalLogs = 0 → rate = 0)) ∧
    (0 < (summarize buckets name).totalLogs →
      ∃ q, jsDiv (ofInt (summarize buckets name).errorCount)
          (ofInt (summarize buckets name).totalLogs) = some q ∧
        (summarize buckets name).errorRate =
          jsDiv (ofInt (mathRound (jsMul (jsMul q 100) 100))) (ofInt 100)) := by
  unfold summarize
  cases hf : buckets.find? fun x => x.key == name with
  | none =>
    simp only
    exact ⟨⟨0, rfl, fun _ => rfl⟩, fun h => absurd h (by decide)⟩
  | some b =>
    simp only
    by_cases hz : 0 < b.doc_count
    · have hne : ofInt b.doc_count ≠ 0 := ofInt_ne_zero hz
      have h100 : ofInt 100 ≠ 0 := ofInt_ne_zero (by decide)
      have hq : jsDiv (ofInt (b.error_count.getD 0)) (ofInt b.doc_count) =
          some (roundRat (ofInt (b.error_count.getD 0) * ONE) (ofInt b.doc_count)) := by
        simp only [jsDiv, if_neg hne]
      rw [if_pos hz, hq]
      simp only [Option.map_some', Option.some_bind]
      refine ⟨⟨roundRat (ofInt (mathRound (jsMul (jsMul (roundRat
          (ofInt (b.error_count.getD 0) * ONE) (ofInt b.doc_count)) 100) 100)) * ONE)
          (ofInt 100), ?_, fun h0 => absurd h0 (Nat.pos_iff_ne_zero.1 hz)⟩, fun _ => ⟨_, rfl, rfl⟩⟩
      simp only [jsDiv, if_neg h100]
    · have h0 : b.doc_count = 0 := Nat.eq_zero_of_not_pos hz
      rw [if_neg hz]
      simp only [Option.some_bind]
      exact ⟨⟨0, round_of_zero, fun _ => rfl⟩, fun h => absurd h hz⟩

/-- For a service with a bucket the entry takes its counts, its rounded average duration and
its last time from the first bucket with that key. -/
theorem summarize_found (buckets : List ServiceBucket) (name : String) (b : ServiceBucket)
    (hf : (buckets.find? fun x => x.key == name) = some b) :
    (summarize buckets name).totalLogs = b.doc_count ∧
    (summarize buckets name).errorCount = b.error_count.getD 0 ∧
    (summarize buckets name).avgDuration = mathRound (b.avg_duration.getD 0) ∧
    (summarize buckets name).lastSeen = b.last_seen ∧
    (summarize buckets name).volumeOverTime =
      (b.volume_over_time.getD []).map fun v => ⟨v.key_as_string, v.doc_count⟩ := by
  simp [summarize, hf]

/-! ## The claim about the service summary -/

/-- Claim C28: for every aggregation result (any list of buckets, or none), `GET /api/services`
returns exactly five entries, one per name of `SERVICE_NAMES` in that order; a service without
a bucket gets `totalLogs` 0, `errorCount` 0, `errorRate` 0, `avgDuration` 0, `lastSeen` null and
an empty `volumeOverTime`; the error rate is always a finite number, 0 when `totalLogs` is 0
and otherwise `k / 100` for the integer `k` nearest to `errorCount / totalLogs * 100 * 100`;
and a service with a bucket gets its counts from the first bucket with its key. -/
theorem getServices_five_entries (buckets : Option (List ServiceBucket)) :
    (getServices buckets).map (fun s => s.name) = SERVICE_NAMES ∧
    (getServices buckets).length = 5 ∧
    (∀ s ∈ getServices buckets, (∀ b ∈ buckets.getD [], b.key ≠ s.name) →
      s = { name := s.name, totalLogs := 0, errorCount := 0, errorRate := some 0,
            avgDuration := 0, lastSeen := none, volumeOverTime := [] }) ∧
    (∀ s ∈ getServices buckets, ∃ rate, s.errorRate = some rate ∧
      (s.totalLogs = 0 → rate = 0)) ∧
    (∀ s ∈ getServices buckets, 0 < s.totalLogs →
      ∃ q k, jsDiv (ofInt s.errorCount) (ofInt s.totalLogs) = some q ∧
        k * (2 * ONE) ≤ 2 * jsMul (jsMul q 100) 100 + ONE ∧
        2 * jsMul (jsMul q 100) 100 + ONE < (k + 1) * (2 * ONE) ∧
        s.errorRate = jsDiv (ofInt k) (ofInt 100)) ∧
    (∀ s ∈ getServices buckets, ∀ b,
      ((buckets.getD []).find? fun x => x.key == s.name) = some b →
      s.totalLogs = b.doc_count ∧ s.errorCount = b.error_count.getD 0 ∧
        s.avgDuration = mathRound (b.avg_duration.getD 0) ∧ s.lastSeen = b.last_seen) := by
  have hmem : ∀ s ∈ getServices buckets, s = summarize (buckets.getD []) s.name := by
    intro s hs
    simp only [getServices, List.mem_map] at hs
    obtain ⟨name, _, rfl⟩ := hs
    rw [summarize_name]
  refine ⟨?_, ?_, ?_, ?_, ?_, ?_⟩
  · simp only [getServices, List.map_map]
    conv_rhs => rw [← List.map_id SERVICE_NAMES]
    apply List.map_congr_left
    intro name _
    exact summarize_name _ name
  · simp [getServices, SERVICE_NAMES]
  · intro s hs hnone
    have h := summarize_missing (buckets.getD []) s.name hnone
    rw [← hmem s hs] at h
    exact h
  · intro s hs
    have h := (summarize_errorRate (buckets.getD []) s.name).1
    rw [← hmem s hs] at h
    exact h
  · intro s hs hpos
    have h := (summarize_errorRate (buckets.getD []) s.name).2
    rw [← hmem s hs] at h
    obtain ⟨q, hq, hrate⟩ := h hpos
    exact ⟨q, _, hq, (mathRound_nearest _).1, (mathRound_nearest _).2, hrate⟩
  · intro s hs b hf
    have h := summarize_found (buckets.getD []) s.name b hf
    rw [← hmem s hs] at h
    exact ⟨h.1, h.2.1, h.2.2.1, h.2.2.2.1⟩

/-- The response for `sampleBuckets`: one error in three logs gives the rate 33.33, the
average duration 120.5 is rounded to 121, the bucket without logs gives the rate 0, and the
three services without a bucket get the empty entry. -/
theorem getServices_sample :
    getServices (some sampleBuckets) =
      [ { name := "auth-service", totalLogs := 0, errorCount := 0, errorRate := some 0,
          avgDuration := 0, lastSeen := none, volumeOverTime := [] },
        { name := "payment-service", totalLogs := 3, errorCount := 1,
          errorRate := jsDiv (ofInt 3333) (ofInt 100), avgDuration := 121,
          lastSeen := some (ofInt 1714528800000),
          volumeOverTime :=
            [⟨"2024-05-01T01:55:00.000Z", 2⟩, ⟨"2024-05-01T02:00:00.000Z", 1⟩] },
        { name := "api-gateway", totalLogs := 0, errorCount := 0, errorRate := some 0,
          avgDuration := 0, lastSeen := none, volumeOverTime := [] },
        { name := "user-service", totalLogs := 0, errorCount := 0, errorRate := some 0,
          avgDuration := 0, lastSeen := none, volumeOverTime := [] },
        { name := "notification-service", totalLogs := 0, errorCount := 0,
          errorRate := some 0, avgDuration := 0, lastSeen := none, volumeOverTime := [] } ] := by
  decide!

/-! ## The claims about the logs route -/

theorem levelClause_no_range {toLowerCase : String → String} {level : QueryValue}
    {c : List MustClause} (h : levelClause toLowerCase level = Except.ok c) (gte lte : Int) :
    MustClause.rangeTimestamp gte lte ∉ c := by
  cases level with
  | absent =>
    simp only [levelClause, Except.ok.injEq] at h
    subst h; simp
  | other text => simp [levelClause] at h
  | str s =>
    simp only [levelClause] at h
    split_ifs at h <;> simp only [Except.ok.injEq] at h <;> subst h <;> simp

theorem serviceClause_no_range (service : QueryValue) (gte lte : Int) :
    MustClause.rangeTimestamp gte lte ∉ serviceClause service := by
  cases service with
  | absent => simp [serviceClause]
  | other text => simp [serviceClause]
  | str s => by_cases hs : s = "" <;> simp [serviceClause, hs]

theorem qClause_no_range {q : QueryValue} {c : List MustClause}
    (h : qClause q = Except.ok c) (gte lte : Int) :
    MustClause.rangeTimestamp gte lte ∉ c := by
  cases q with
  | absent =>
    simp only [qClause, Except.ok.injEq] at h
    subst h; simp
  | other text => simp [qClause] at h
  | str s =>
    simp only [qClause] at h
    split_ifs at h <;> simp only [Except.ok.injEq] at h <;> subst h <;> simp

/-- The array `must` is a part without range clause followed by the range clause, if any. -/
theorem buildMust_shape {toLowerCase : String → String} {level service q timeRange : QueryValue}
    {now : Int} {must : List MustClause}
    (h : buildMust toLowerCase level service q timeRange now = Except.ok must) :
    ∃ before : List MustClause, (∀ gte lte, MustClause.rangeTimestamp gte lte ∉ before) ∧
      must = before ++ rangeClause timeRange now := by
  simp only [buildMust] at h
  cases h1 : levelClause toLowerCase level with
  | error err => rw [h1] at h; simp at h
  | ok c1 =>
    cases h3 : qClause q with
    | error err => rw [h1, h3] at h; simp at h
    | ok c3 =>
      rw [h1, h3] at h
      simp only [Except.ok.injEq] at h
      refine ⟨c1 ++ serviceClause service ++ c3, ?_, h.symm⟩
      intro gte lte hmem
      simp only [List.mem_append] at hmem
      rcases hmem with (hm | hm) | hm
      · exact levelClause_no_range h1 gte lte hm
      · exact serviceClause_no_range service gte lte hm
      · exact qClause_no_range h3 gte lte hm

/-- Claim C29: `getTimeRangeBounds(timeRange)`, called at the instant `now`, returns bounds
with `to` equal to `now` and `to - from` equal to 900000, 3600000, 21600000 and 86400000 ms for
"15m", "1h", "6h" and "24h"; it returns `null` for every other input, among them `undefined`,
the empty string and every value that is not a string; and `GET /api/logs` pushes a range
clause on the timestamp exactly when the bounds are not `null`, with these bounds. -/
theorem getTimeRangeBounds_spec (now : Int) :
    (∃ b, getTimeRangeBounds (QueryValue.str "15m") now = some b ∧ b.toTime = now ∧
      b.toTime - b.fromTime = 900000) ∧
    (∃ b, getTimeRangeBounds (QueryValue.str "1h") now = some b ∧ b.toTime = now ∧
      b.toTime - b.fromTime = 3600000) ∧
    (∃ b, getTimeRangeBounds (QueryValue.str "6h") now = some b ∧ b.toTime = now ∧
      b.toTime - b.fromTime = 21600000) ∧
    (∃ b, getTimeRangeBounds (QueryValue.str "24h") now = some b ∧ b.toTime = now ∧
      b.toTime - b.fromTime = 86400000) ∧
    (∀ timeRange : QueryValue,
      timeRange ≠ QueryValue.str "15m" → timeRange ≠ QueryValue.str "1h" →
      timeRange ≠ QueryValue.str "6h" → timeRange ≠ QueryValue.str "24h" →
      getTimeRangeBounds timeRange now = none) ∧
    getTimeRangeBounds QueryValue.absent now = none ∧
    getTimeRangeBounds (QueryValue.str "") now = none ∧
    (∀ (toLowerCase : String → String) (level service q timeRange : QueryValue)
      (must : List MustClause),
      buildMust toLowerCase level service q timeRange now = Except.ok must →
      (getTimeRangeBounds timeRange now = none →
        ∀ gte lte, MustClause.rangeTimestamp gte lte ∉ must) ∧
      (∀ b, getTimeRangeBounds timeRange now = some b →
        ∀ gte lte, MustClause.rangeTimestamp gte lte ∈ must ↔ gte = b.fromTime ∧ lte = b.toTime)) := by
  refine ⟨⟨_, rfl, rfl, by simp only []; omega⟩, ⟨_, rfl, rfl, by simp only []; omega⟩,
    ⟨_, rfl, rfl, by simp only []; omega⟩, ⟨_, rfl, rfl, by simp only []; omega⟩, ?_, rfl, rfl, ?_⟩
  · intro timeRange h1 h2 h3 h4
    cases timeRange with
    | absent => rfl
    | other text => rfl
    | str s =>
      have e1 : s ≠ "15m" := fun e => h1 (by rw [e])
      have e2 : s ≠ "1h" := fun e => h2 (by rw [e])
      have e3 : s ≠ "6h" := fun e => h3 (by rw [e])
      have e4 : s ≠ "24h" := fun e => h4 (by rw [e])
      simp only [getTimeRangeBounds, if_neg e1, if_neg e2, if_neg e3, if_neg e4]
  · intro toLowerCase level service q timeRange must hmust
    obtain ⟨before, hno, hm⟩ := buildMust_shape hmust
    constructor
    · intro hnone gte lte hmem
      rw [hm] at hmem
      simp only [rangeClause, hnone, List.append_nil] at hmem
      exact hno gte lte hmem
    · intro b hb gte lte
      rw [hm]
      simp only [rangeClause, hb, List.mem_append, List.mem_singleton,
        MustClause.rangeTimestamp.injEq]
      constructor
      · rintro (h | h)
        · exact absurd h (hno gte lte)
        · exact h
      · exact fun h => Or.inr h

theorem orElse_kept (supplied : Option JsonValue) (fallback : JsonValue) :
    KeptIfNonEmpty supplied (orElse supplied fallback) fallback := by
  constructor
  · intro v hv ht
    subst hv
    simp only [orElse, ht, if_true]
  · intro h
    cases supplied with
    | none => rfl
    | some v => simp only [orElse, h v rfl, Bool.false_eq_true, if_false]

theorem nullish_kept (supplied : Option JsonValue) (fallback : JsonValue) :
    KeptIfNotNull supplied (nullish supplied fallback) fallback := by
  constructor
  · intro v hv hne
    subst hv
    cases v with
    | null => exact absurd rfl hne
    | bool b => rfl
    | num negative units => rfl
    | str s => rfl
    | composite text => rfl
  · intro h
    cases supplied with
    | none => rfl
    | some v => rw [h v rfl]; rfl

/-- Claim C30: the document built by `POST /api/logs` keeps, for `timestamp`, `level`,
`service`, `message` and `traceId`, the request value when it is non-empty (truthy) and
otherwise takes the current time, "info", "unknown", "" and a fresh UUID; it keeps for
`duration` and `archived` any supplied value other than `null`, among them 0 and false, and
takes 0 and false only for `null` or `undefined`; and when the index call succeeds, the
response has status 201 and its body is exactly the one document passed to the index call. -/
theorem postLog_preserves_supplied (body : LogBody) (nowIso uuid : String) :
    KeptIfNonEmpty body.timestamp (buildDoc body nowIso uuid).timestamp (JsonValue.str nowIso) ∧
    KeptIfNonEmpty body.level (buildDoc body nowIso uuid).level (JsonValue.str "info") ∧
    KeptIfNonEmpty body.service (buildDoc body nowIso uuid).service (JsonValue.str "unknown") ∧
    KeptIfNonEmpty body.message (buildDoc body nowIso uuid).message (JsonValue.str "") ∧
    KeptIfNonEmpty body.traceId (buildDoc body nowIso uuid).traceId (JsonValue.str uuid) ∧
    KeptIfNotNull body.duration (buildDoc body nowIso uuid).duration (JsonValue.num false 0) ∧
    KeptIfNotNull body.archived (buildDoc body nowIso uuid).archived (JsonValue.bool false) ∧
    (∀ s : String, s ≠ "" → (JsonValue.str s).truthy = true) ∧
    (JsonValue.str "").truthy = false ∧
    JsonValue.num false 0 ≠ JsonValue.null ∧ JsonValue.bool false ≠ JsonValue.null ∧
    postLog body nowIso uuid none =
      { indexCalls := [buildDoc body nowIso uuid], status := 201,
        body := LogResponseBody.doc (buildDoc body nowIso uuid) } := by
  refine ⟨orElse_kept _ _, orElse_kept _ _, orElse_kept _ _, orElse_kept _ _, orElse_kept _ _,
    nullish_kept _ _, nullish_kept _ _, ?_, rfl, by simp, by simp, rfl⟩
  intro s hs
  simp [JsonValue.truthy, hs]

/-- The document for `sampleLogBody`: the empty `level` and the missing `service` are filled,
the `duration` 0 and the `archived` false are kept. -/
theorem postLog_sample :
    postLog sampleLogBody "2024-05-01T02:00:05.000Z" "3f2b8c1e-0000-4000-8000-000000000000"
        none =
      { indexCalls :=
          [{ timestamp := JsonValue.str "2024-05-01T02:00:00.000Z"
             level := JsonValue.str "info"
             service := JsonValue.str "unknown"
             message := JsonValue.str "cache warmed"
             traceId := JsonValue.str "trace-42"
             duration := JsonValue.num false 0
             archived := JsonValue.bool false }]
        status := 201
        body := LogResponseBody.doc
          { timestamp := JsonValue.str "2024-05-01T02:00:00.000Z"
            level := JsonValue.str "info"
            service := JsonValue.str "unknown"
            message := JsonValue.str "cache warmed"
            traceId := JsonValue.str "trace-42"
            duration := JsonValue.num false 0
            archived := JsonValue.bool false } } := by
  decide

end Logtrace
